import Mathlib

/-!
# Artisanal Crafts: storefront and admin back-office

A shallow embedding of the state-changing core of `src/script.js`
(the `mockApi` object, the session variables `cart`, `currentUser`,
`wishlist`, the click and submit handlers that mutate them, the shop filter
and the review summary) and of `src/Admin/admin-script.js` (the `adminApi`
object, the click handler of the content area and the product and blog
forms), followed by theorems about them.

Modelling conventions
* `localStorage` is a record with one optional field per key the program
  uses; `none` is a key that is not set.  `JSON.stringify` followed by
  `JSON.parse` is the identity on the plain records stored here, so a field
  holds the value itself.
* JavaScript numbers that count things (cart quantities, prices of the
  hard-coded catalogue) are `Int`; they are exact in JavaScript as long as
  they stay inside the safe-integer range.
* `Array.prototype.find` / `findIndex` / `indexOf` are `List.find?` /
  `List.findIdx?` / `List.indexOf?`; the JavaScript results `undefined`
  and `-1` are `none`.
* A promise that resolves or rejects synchronously inside its executor is an
  `Except` value returned together with the storage after the call.
* Functions of the browser whose tables are not reproduced here
  (`String.prototype.toLowerCase`, `String.prototype.localeCompare`) are
  parameters of the functions that call them.
* The quotient of the review average is a binary64 number, modelled on exact
  rationals; `toFixed(1)` rounds the exact value of that number.
* A value spliced into the markup of a form reaches its field through the
  HTML parser; the parser is modelled on the texts that leave the controls of
  the template in place, and a result `none` stands for the other texts.
-/

namespace Handicraft

/-! ## Data model -/

/-- The `details` object of a product. -/
structure Details where
  material : String
  dimensions : String
  origin : String
  craft : String
deriving DecidableEq, Repr

/-- A product record, as in `mockApi._products` and under the `products` key. -/
structure Product where
  id : String
  name : String
  price : Int
  category : String
  image : String
  description : String
  details : Details
  care : String
  featured : Bool
deriving DecidableEq, Repr

/-- A blog post record, as in `mockApi._blogPosts` and under the `blogPosts` key. -/
structure BlogPost where
  id : String
  title : String
  date : String
  author : String
  image : String
  tags : List String
  content : String
deriving DecidableEq, Repr

/-- A user record `{ email, password }` as pushed by `registerUser`. -/
structure User where
  email : String
  password : String
deriving DecidableEq, Repr

/-- A review record as pushed by `postReview`; `rating` is the value the
caller passes, which the review form reads from `dataset.rating` (a string). -/
structure Review where
  productId : String
  userName : String
  rating : String
  comment : String
  date : String
deriving DecidableEq, Repr

/-- A cart line `{ id, quantity }`. -/
structure CartLine where
  id : String
  quantity : Int
deriving DecidableEq, Repr

/-- The browser's `localStorage`, restricted to the keys the program reads or
writes.  A field is `none` when the key is not set. -/
structure Storage where
  products : Option (List Product)
  blogPosts : Option (List BlogPost)
  users : Option (List User)
  reviews : Option (List Review)
  wishlist : Option (List String)
  currentUser : Option User
  artisanalCraftsCart : Option (List CartLine)
deriving DecidableEq, Repr

/-- The JavaScript values the session variable `currentUser` can hold:
`null` (set by the logout handler), the empty array `[]` (what
`_getFromStorage` falls back to), or a user object. -/
inductive CurrentUser where
  | null
  | emptyArray
  | user (u : User)
deriving DecidableEq, Repr

namespace CurrentUser

/-- JavaScript truthiness: `null` is falsy, arrays and objects are truthy. -/
def truthy : CurrentUser → Bool
  | null => false
  | emptyArray => true
  | user _ => true

/-- `Object.keys(v).length` for a truthy value: an empty array has no keys, a
user object has the two keys `email` and `password`.  On `null` the call
would throw; every guard in the program evaluates it only behind `!v ||` or
`v &&`, and the value given here for `null` is never used by them. -/
def keysLength : CurrentUser → Nat
  | null => 0
  | emptyArray => 0
  | user _ => 2

end CurrentUser

/-- The guard `!currentUser || Object.keys(currentUser).length === 0` used by
the wishlist click, the account link, the checkout button and the profile
page: `true` means "treated as logged out". -/
def loggedOutGuard (currentUser : CurrentUser) : Bool :=
  !currentUser.truthy || currentUser.keysLength == 0

/-- The guard `currentUser && Object.keys(currentUser).length > 0` used by
`updateUserAccountLink` and `renderReviews`: `true` means "treated as logged
in". -/
def loggedInGuard (currentUser : CurrentUser) : Bool :=
  currentUser.truthy && decide (currentUser.keysLength > 0)

/-! ## The mock backend `mockApi` -/

namespace mockApi

/-- The hard-coded catalogue `mockApi._products`. -/
def _products : List Product :=
  [ { id := "1", name := "Handwoven Cotton Scarf", price := 699, category := "apparel",
      image := "biking.jpg",
      description := "A soft and lightweight handwoven cotton scarf, perfect for adding a touch of elegance to any outfit. Made with natural dyes and traditional weaving techniques by artisans from Rajasthan.",
      details := { material := "100% Organic Cotton", dimensions := "180cm x 70cm",
                   origin := "Jaipur, Rajasthan", craft := "Handloom Weaving" },
      care := "Hand wash separately in cold water with a mild detergent. Do not bleach. Dry in shade.",
      featured := true },
    { id := "2", name := "Terracotta Vase", price := 1299, category := "home-decor",
      image := "https://via.placeholder.com/400x300.png?text=Terracotta+Vase",
      description := "An exquisitely crafted terracotta vase, featuring intricate hand-carved patterns. Ideal for fresh flowers or as a standalone decorative piece, bringing an earthy charm to your space.",
      details := { material := "Natural Clay (Terracotta)", dimensions := "25cm Height",
                   origin := "Molela, Rajasthan", craft := "Pottery, Hand-Carving" },
      care := "Wipe with a soft, dry cloth. Do not use water on the exterior.",
      featured := true },
    { id := "3", name := "Bamboo Basket Set", price := 1999, category := "baskets",
      image := "https://via.placeholder.com/400x300.png?text=Bamboo+Basket",
      description := "A versatile set of three eco-friendly bamboo baskets. Handwoven with sturdy bamboo, they are perfect for organizing your home, storing crafts, or as decorative planters.",
      details := { material := "100% Natural Bamboo", dimensions := "Set of 3 (S, M, L)",
                   origin := "Tripura", craft := "Bamboo Weaving" },
      care := "Wipe clean with a damp cloth. Keep away from direct sunlight and moisture.",
      featured := false },
    { id := "4", name := "Hand-Painted Wall Art", price := 3499, category := "art",
      image := "https://via.placeholder.com/400x300.png?text=Wall+Art",
      description := "A vibrant, hand-painted wall art piece that adds a unique artistic flair to any room. Each piece is an original creation, showcasing traditional motifs and contemporary design elements.",
      details := { material := "Canvas, Acrylic Paints", dimensions := "60cm x 80cm",
                   origin := "Madhubani, Bihar", craft := "Madhubani Painting" },
      care := "Dust lightly with a dry cloth. Avoid exposure to moisture.",
      featured := true } ]

/-- The body of `_getFromStorage` for a key that holds an array:
`JSON.parse(localStorage.getItem(key)) || []`.  A missing key parses to
`null`, which is falsy, so the result is `[]`; a stored array (even an empty
one) is truthy and is returned as it is. -/
def _getFromStorage {α : Type} (stored : Option (List α)) : List α :=
  match stored with
  | some data => data
  | none => []

/-- Source: `registerUser(email, password)`.  Returns the settled promise
(`error` is `reject`, `ok` is `resolve`) and the storage after the call. -/
def registerUser (st : Storage) (email password : String) : Except String String × Storage :=
  let users := _getFromStorage st.users
  match users.find? (fun u => u.email == email) with
  | some _ => (.error "User with this email already exists.", st)
  | none =>
    let users := users ++ [{ email := email, password := password }]
    (.ok "Registration successful!", { st with users := some users })

/-- Source: `loginUser(email, password)`.  Returns the settled promise and the
storage after the call. -/
def loginUser (st : Storage) (email password : String) : Except String User × Storage :=
  let users := _getFromStorage st.users
  match users.find? (fun u => u.email == email && u.password == password) with
  | some user => (.ok user, { st with currentUser := some user })
  | none => (.error "Invalid email or password.", st)

/-- Source: `logoutUser()`, which is `localStorage.removeItem('currentUser')`. -/
def logoutUser (st : Storage) : Storage :=
  { st with currentUser := none }

/-- Source: `getCurrentUser()`, which is `_getFromStorage('currentUser')`: the
stored user object when there is one, the fallback `[]` otherwise. -/
def getCurrentUser (st : Storage) : CurrentUser :=
  match st.currentUser with
  | some u => .user u
  | none => .emptyArray

/-- Source: `getWishlist()`. -/
def getWishlist (st : Storage) : List String :=
  _getFromStorage st.wishlist

/-- Source: `toggleWishlist(productId)`.  Returns the array the function
returns and the storage after the call.  `splice(index, 1)` removes the
element at `index`. -/
def toggleWishlist (st : Storage) (productId : String) : List String × Storage :=
  let wishlist := getWishlist st
  let wishlist :=
    match wishlist.indexOf? productId with
    | some index => wishlist.eraseIdx index
    | none => wishlist ++ [productId]
  (wishlist, { st with wishlist := some wishlist })

end mockApi

/-! ## Session state and handlers -/

/-- The mutable state of a storefront page: `localStorage`, the three session
variables declared in section 2 of the script, and `cartCountText`, the
`totalItems` that `updateCartDisplay` last computed (it is written into the
header's `#cart-count` element when the page has one). -/
structure AppState where
  storage : Storage
  cart : List CartLine
  currentUser : CurrentUser
  wishlist : List String
  cartCountText : Int
deriving DecidableEq, Repr

/-- Source: `updateCartDisplay`.  Computes `totalItems` with `reduce`, writes
it to the header and saves the cart under `artisanalCraftsCart`. -/
def updateCartDisplay (s : AppState) : AppState :=
  let totalItems := s.cart.foldl (fun sum item => sum + item.quantity) 0
  { s with
    cartCountText := totalItems
    storage := { s.storage with artisanalCraftsCart := some s.cart } }

/-- The `total` that `renderCartModal` accumulates and prints in
`#cart-total`: for an empty cart nothing is added; otherwise the `map`
callback adds `product.price * item.quantity` for each line whose product is
in the catalogue and returns early for the others. -/
def renderCartModal (cart : List CartLine) : Int :=
  if cart.length = 0 then 0
  else
    cart.foldl
      (fun total item =>
        match mockApi._products.find? (fun p => p.id == item.id) with
        | none => total
        | some product => total + product.price * item.quantity)
      0

/-- The cart update shared by the "Add to Cart" and "Buy Now" branches, after
the product was found: `cart.find` returns a reference to the first line with
that id, whose `quantity++` changes the line in place; without such a line
`{ id, quantity: 1 }` is pushed. -/
def addLine (cart : List CartLine) (id : String) : List CartLine :=
  match cart.findIdx? (fun item => item.id == id) with
  | some i => cart.modify (fun item => { item with quantity := item.quantity + 1 }) i
  | none => cart ++ [{ id := id, quantity := 1 }]

/-- The "Add to Cart" branch of `handleGlobalClicks`. -/
def addToCart (s : AppState) (id : String) : AppState :=
  match mockApi._products.find? (fun p => p.id == id) with
  | some _ => updateCartDisplay { s with cart := addLine s.cart id }
  | none => s

/-- The "Buy Now" branch of `handleGlobalClicks`; the redirect it schedules
does not touch the state. -/
def buyNow (s : AppState) (id : String) : AppState :=
  match mockApi._products.find? (fun p => p.id == id) with
  | some _ => updateCartDisplay { s with cart := addLine s.cart id }
  | none => s

/-- The cart update of the "Cart quantity change" branch for a line found at
`itemIndex`. -/
def changeLine (cart : List CartLine) (itemIndex : Nat) (action : String) : List CartLine :=
  if action = "increase" then
    cart.modify (fun item => { item with quantity := item.quantity + 1 }) itemIndex
  else if action = "decrease" then
    let cart := cart.modify (fun item => { item with quantity := item.quantity - 1 }) itemIndex
    match cart.get? itemIndex with
    | some item => if item.quantity ≤ 0 then cart.eraseIdx itemIndex else cart
    | none => cart
  else cart

/-- The "Cart quantity change" branch of `handleGlobalClicks`. -/
def changeQuantity (s : AppState) (id action : String) : AppState :=
  match s.cart.findIdx? (fun item => item.id == id) with
  | some itemIndex => updateCartDisplay { s with cart := changeLine s.cart itemIndex action }
  | none => s

/-- The "Wishlist" branch of `handleGlobalClicks`. -/
def wishlistClick (s : AppState) (productId : String) : AppState :=
  if loggedOutGuard s.currentUser then s
  else
    let r := mockApi.toggleWishlist s.storage productId
    { s with wishlist := r.1, storage := r.2 }

/-- The clicks that `handleGlobalClicks` reacts to with a state change, plus
the checkout button, whose branch only shows a toast or the login form. -/
inductive Click where
  | addToCart (id : String)
  | buyNow (id : String)
  | cartQuantity (id : String) (action : String)
  | wishlist (id : String)
  | checkout
deriving DecidableEq, Repr

/-- Source: `handleGlobalClicks`, as a function of the clicked control. -/
def handleGlobalClicks (s : AppState) : Click → AppState
  | .addToCart id => addToCart s id
  | .buyNow id => buyNow s id
  | .cartQuantity id action => changeQuantity s id action
  | .wishlist id => wishlistClick s id
  | .checkout => s

/-- A page load: section 2 of the script reads the session variables from
storage, and `init()` calls `updateCartDisplay()`.  `currentUser` is truthy
for both values `getCurrentUser` can return, so the wishlist is read from
storage in either case. -/
def start (st : Storage) : AppState :=
  let currentUser := mockApi.getCurrentUser st
  updateCartDisplay
    { storage := st
      cart := mockApi._getFromStorage st.artisanalCraftsCart
      currentUser := currentUser
      wishlist := if currentUser.truthy then mockApi.getWishlist st else []
      cartCountText := 0 }

/-- The state after a page load followed by a sequence of clicks. -/
def run (st : Storage) (clicks : List Click) : AppState :=
  clicks.foldl handleGlobalClicks (start st)

/-! ## Predicates used in the statements -/

/-- All lines of a cart have a quantity of at least one. -/
def PositiveQuantities (cart : List CartLine) : Prop :=
  ∀ line ∈ cart, 1 ≤ line.quantity

/-- The cart invariant kept by every click: quantities are at least one and
the stored cart is the in-memory cart. -/
def CartInvariant (s : AppState) : Prop :=
  PositiveQuantities s.cart ∧ s.storage.artisanalCraftsCart = some s.cart

/-- The header invariant kept by every click: the stored cart is the in-memory
cart and the header shows the sum of its quantities. -/
def CountInvariant (s : AppState) : Prop :=
  s.storage.artisanalCraftsCart = some s.cart ∧
    s.cartCountText = (s.cart.map (fun line => line.quantity)).sum

/-- A browser in which none of the keys is set. -/
def emptyStorage : Storage :=
  { products := none, blogPosts := none, users := none, reviews := none,
    wishlist := none, currentUser := none, artisanalCraftsCart := none }

/-- The storage after `n` successive calls `toggleWishlist(productId)`. -/
def toggleWishlistTimes (st : Storage) (productId : String) : Nat → Storage
  | 0 => st
  | n + 1 => (mockApi.toggleWishlist (toggleWishlistTimes st productId n) productId).2

/-- A browser whose only key is a wishlist that lists product 1 twice. -/
def duplicateWishlistStorage : Storage :=
  { emptyStorage with wishlist := some ["1", "1"] }

/-- The click handler of the profile page's logout button: `logoutUser()`,
then `currentUser = null` and `wishlist = []`. -/
def logoutButtonClick (s : AppState) : AppState :=
  { s with storage := mockApi.logoutUser s.storage, currentUser := .null, wishlist := [] }

/-! ## Reviews in the mock backend -/

namespace mockApi

/-- Source: `getReviews(productId)`. -/
def getReviews (st : Storage) (productId : String) : List Review :=
  let allReviews := _getFromStorage st.reviews
  allReviews.filter (fun r => r.productId == productId)

/-- Source: `postReview(productId, userName, rating, comment)`.  `today` is
the string `new Date().toLocaleDateString()` evaluates to during the call.
Returns the array the function returns and the storage after the call. -/
def postReview (st : Storage) (today : String) (productId userName rating comment : String) :
    List Review × Storage :=
  let allReviews := _getFromStorage st.reviews
  let allReviews := allReviews ++
    [{ productId := productId, userName := userName, rating := rating, comment := comment,
       date := today }]
  let st := { st with reviews := some allReviews }
  (getReviews st productId, st)

end mockApi

/-! ## The admin backend `adminApi` (src/Admin/admin-script.js) -/

namespace adminApi

/-- The body of `_get`: `JSON.parse(localStorage.getItem(key) || '[]')`.  For a
missing key `getItem` returns `null`, so the text parsed is `'[]'`. -/
def _get {α : Type} (stored : Option (List α)) : List α :=
  match stored with
  | some data => data
  | none => []

/-- Source: `getProducts`. -/
def getProducts (st : Storage) : List Product := _get st.products

/-- Source: `addProduct(product)`.  `now` is the value of `Date.now()` during
the call; the id becomes its decimal string. -/
def addProduct (st : Storage) (now : Nat) (product : Product) : Storage :=
  let products := getProducts st
  let product := { product with id := toString now }
  { st with products := some (products ++ [product]) }

/-- Source: `updateProduct(updatedProduct)`. -/
def updateProduct (st : Storage) (updatedProduct : Product) : Storage :=
  let products := getProducts st
  let products := products.map (fun p => if p.id = updatedProduct.id then updatedProduct else p)
  { st with products := some products }

/-- Source: `deleteProduct(id)`. -/
def deleteProduct (st : Storage) (id : String) : Storage :=
  let products := getProducts st
  let products := products.filter (fun p => p.id != id)
  { st with products := some products }

/-- Source: `getBlogPosts`. -/
def getBlogPosts (st : Storage) : List BlogPost := _get st.blogPosts

/-- Source: `addBlogPost(post)`, with `now` the value of `Date.now()`. -/
def addBlogPost (st : Storage) (now : Nat) (post : BlogPost) : Storage :=
  let posts := getBlogPosts st
  let post := { post with id := toString now }
  { st with blogPosts := some (posts ++ [post]) }

/-- Source: `updateBlogPost(updatedPost)`. -/
def updateBlogPost (st : Storage) (updatedPost : BlogPost) : Storage :=
  let posts := getBlogPosts st
  let posts := posts.map (fun p => if p.id = updatedPost.id then updatedPost else p)
  { st with blogPosts := some posts }

/-- Source: `deleteBlogPost(id)`. -/
def deleteBlogPost (st : Storage) (id : String) : Storage :=
  let posts := getBlogPosts st
  let posts := posts.filter (fun p => p.id != id)
  { st with blogPosts := some posts }

/-- Source: `getUsers`. -/
def getUsers (st : Storage) : List User := _get st.users

/-- Source: `deleteUser(email)`. -/
def deleteUser (st : Storage) (email : String) : Storage :=
  let users := getUsers st
  let users := users.filter (fun u => u.email != email)
  { st with users := some users }

/-- Source: `getReviews` of the admin backend (all reviews). -/
def getReviews (st : Storage) : List Review := _get st.reviews

/-- Source: `deleteReview(productId, comment)`. -/
def deleteReview (st : Storage) (productId comment : String) : Storage :=
  let reviews := getReviews st
  let reviews := reviews.filter (fun r => !(r.productId == productId && r.comment == comment))
  { st with reviews := some reviews }

end adminApi

/-- A sample product record with the given id and name, used in examples. -/
def sampleProduct (id name : String) (price : Int) : Product :=
  { id := id, name := name, price := price, category := "art", image := "a.jpg",
    description := "",
    details := { material := "N/A", dimensions := "N/A", origin := "N/A", craft := "N/A" },
    care := "N/A", featured := false }

/-- A sample blog post record with the given id and title, used in examples. -/
def samplePost (id title : String) : BlogPost :=
  { id := id, title := title, date := "June 15, 2025", author := "Admin", image := "a.jpg",
    tags := ["art"], content := "" }

/-- A sample review record, used in examples. -/
def sampleReview (productId comment : String) : Review :=
  { productId := productId, userName := "asha", rating := "4", comment := comment,
    date := "6/15/2025" }

/-- A storage whose only key is `products`, holding one product whose id is
the decimal string of the clock value 1718445600000. -/
def oneProductStorage : Storage :=
  { emptyStorage with products := some [sampleProduct "1718445600000" "Vase" 10] }

/-- A storage whose only key is `blogPosts`, holding one post whose id is the
decimal string of the clock value 1718445600000. -/
def onePostStorage : Storage :=
  { emptyStorage with blogPosts := some [samplePost "1718445600000" "Looms"] }

/-! ## The shop page (`initShopPage`, `displayProducts`)

`Array.prototype.sort` changes the array it is called on, so whether
`displayProducts` disturbs `allShopItems` or `mockApi._products` depends on
which array object `filteredItems` refers to.  Arrays of products are
therefore kept in a heap and variables hold references. -/

/-- A heap of product arrays.  A reference is a position in `arrays`. -/
structure Heap where
  arrays : List (List Product)
deriving DecidableEq, Repr

namespace Heap

/-- The number of array objects allocated so far. -/
def size (h : Heap) : Nat := h.arrays.length

/-- The contents of the array object behind a reference. -/
def read (h : Heap) (ref : Nat) : List Product := (h.arrays.get? ref).getD []

/-- A new array object with the given contents (`[...xs]`, or the result of
`filter`); returns the heap and the new reference. -/
def alloc (h : Heap) (items : List Product) : Heap × Nat :=
  ({ arrays := h.arrays ++ [items] }, h.arrays.length)

/-- Overwrites the contents of the array object behind a reference (what an
in-place `sort` does). -/
def write (h : Heap) (ref : Nat) (items : List Product) : Heap :=
  { arrays := h.arrays.set ref items }

end Heap

/-- Lower-casing of ASCII text: the letters `A`-`Z` are mapped to `a`-`z`,
every other character is kept.  On a string of ASCII characters this is what
`String.prototype.toLowerCase` returns; on other text the browser's function
also maps the other cased letters, so the shop page takes the browser's
`toLowerCase` as a parameter and `asciiLowerCase` only describes it on ASCII
strings. -/
def asciiLowerCase (s : String) : String := String.mk (s.data.map Char.toLower)

/-- What the shop page relies on of the browser's `toLowerCase`: on a string
of ASCII characters it returns what `asciiLowerCase` returns. -/
def AsciiFaithful (toLowerCase : String → String) : Prop :=
  ∀ s : String, s.data.all (fun c => c.toNat < 128) = true → toLowerCase s = asciiLowerCase s

/-- Substring test on character lists: does `t` occur in `s` as a contiguous
block. -/
def includesChars : List Char → List Char → Bool
  | [], t => t.isEmpty
  | c :: cs, t => t.isPrefixOf (c :: cs) || includesChars cs t

/-- `s.includes(searchString)`. -/
def includes (s searchString : String) : Bool := includesChars s.data searchString.data

/-- `items.sort(compare)` as a value: JavaScript's sort is stable, and for a
comparator that orders consistently its result is the stable sort, computed
here by insertion; `a` goes before `b` when `compare(a, b) <= 0`. -/
def sortWith (compare : Product → Product → Int) (items : List Product) : List Product :=
  items.insertionSort (fun a b => compare a b ≤ 0)

/-- The `switch (sortBy.value)` of `displayProducts`: the comparator of the
case that matches, or `none` when no case matches.  `localeCompare` is the
browser's `String.prototype.localeCompare`. -/
def sortComparator (localeCompare : String → String → Int) (sortBy : String) :
    Option (Product → Product → Int) :=
  if sortBy = "price-asc" then some (fun a b => a.price - b.price)
  else if sortBy = "price-desc" then some (fun a b => b.price - a.price)
  else if sortBy = "name-asc" then some (fun a b => localeCompare a.name b.name)
  else if sortBy = "name-desc" then some (fun a b => localeCompare b.name a.name)
  else none

/-- The state of the shop page: the heap, the references held by
`mockApi._products` and by `allShopItems`, the products whose cards are in
`#shop-grid` (in order), and whether the "no products" message is shown. -/
structure ShopPage where
  heap : Heap
  products : Nat
  allShopItems : Nat
  shopGrid : List Product
  noProductsMessage : Bool
deriving DecidableEq, Repr

/-- Source: `displayProducts` inside `initShopPage`, for the current values of
the category select, the search input and the sort select.  `toLowerCase` is
the browser's `String.prototype.toLowerCase`, which lower-cases every cased
letter of Unicode, and `localeCompare` the browser's
`String.prototype.localeCompare`. -/
def displayProducts (toLowerCase : String → String)
    (localeCompare : String → String → Int) (page : ShopPage)
    (categoryFilter searchInput sortBy : String) : ShopPage :=
  let copy := page.heap.alloc (page.heap.read page.allShopItems)
  let category := categoryFilter
  let searchTerm := toLowerCase searchInput
  let afterCategory :=
    if category ≠ "all" then
      copy.1.alloc ((copy.1.read copy.2).filter (fun item => item.category == category))
    else copy
  let afterSearch :=
    if searchTerm ≠ "" then
      afterCategory.1.alloc
        ((afterCategory.1.read afterCategory.2).filter
          (fun item => includes (toLowerCase item.name) searchTerm))
    else afterCategory
  let filteredItems := afterSearch.2
  let heap :=
    match sortComparator localeCompare sortBy with
    | some compare =>
      afterSearch.1.write filteredItems (sortWith compare (afterSearch.1.read filteredItems))
    | none => afterSearch.1
  { page with
    heap := heap
    shopGrid := heap.read filteredItems
    noProductsMessage := (heap.read filteredItems).length == 0 }

/-- Source: `initShopPage`: `products` is the array `mockApi._products`
itself, `allShopItems` is the copy `[...products]`, and the initial render is
one call of `displayProducts`. -/
def initShopPage (toLowerCase : String → String) (localeCompare : String → String → Int)
    (catalogue : List Product)
    (categoryFilter searchInput sortBy : String) : ShopPage :=
  let heap : Heap := { arrays := [catalogue] }
  let products := 0
  let copy := heap.alloc (heap.read products)
  displayProducts toLowerCase localeCompare
    { heap := copy.1, products := products, allShopItems := copy.2, shopGrid := [],
      noProductsMessage := false }
    categoryFilter searchInput sortBy

/-- The test both filters of `displayProducts` apply to one product. -/
def shopKeeps (toLowerCase : String → String) (category searchInput : String)
    (item : Product) : Bool :=
  (category == "all" || item.category == category) &&
    (toLowerCase searchInput == "" || includes (toLowerCase item.name) (toLowerCase searchInput))

/-- A stage of `displayProducts`, relative to the heap `h0` it started from:
the current `filteredItems` reference is an array allocated after `h0`, it
holds `items`, and every array of `h0` still has its contents. -/
def FreshArray (h0 : Heap) (cur : Heap × Nat) (items : List Product) : Prop :=
  h0.size ≤ cur.2 ∧ cur.2 < cur.1.size ∧ cur.1.read cur.2 = items ∧
    ∀ ref, ref < h0.size → cur.1.read ref = h0.read ref

/-- The value of `filteredItems` after the two filters of `displayProducts`,
for the source array `items`. -/
def filteredValue (toLowerCase : String → String) (category searchInput : String)
    (items : List Product) : List Product :=
  let afterCategory :=
    if category ≠ "all" then items.filter (fun item => item.category == category) else items
  if toLowerCase searchInput ≠ "" then
    afterCategory.filter (fun item => includes (toLowerCase item.name) (toLowerCase searchInput))
  else afterCategory

/-- The value of `filteredItems` after the `switch` of `displayProducts`. -/
def sortedValue (localeCompare : String → String → Int) (sortBy : String)
    (items : List Product) : List Product :=
  match sortComparator localeCompare sortBy with
  | some compare => sortWith compare items
  | none => items

/-! ## Review rendering (`renderReviews`)

The average is computed in IEEE 754 binary64 arithmetic.  Sums of ratings are
integers far below 2^53 and are exact; the division rounds, and is modelled
by `binary64` on exact rationals; `toFixed(1)` works on the exact value of
the double, and is modelled by `toFixed1`. -/

/-- The value of an ASCII decimal digit. -/
def digitValue (c : Char) : Option Nat :=
  if c.isDigit then some (c.toNat - 48) else none

/-- `Number(s)` for a string of ASCII decimal digits, the only strings the
review form puts into `dataset.rating` (the empty string converts to 0).
`none` stands for every other string (`NaN` among the results). -/
def Number (s : String) : Option Nat :=
  s.data.foldl
    (fun acc c =>
      match acc, digitValue c with
      | some n, some d => some (10 * n + d)
      | _, _ => none)
    (some 0)

/-- The `reduce` of `renderReviews`: `sum + Number(r.rating)` from 0. -/
def ratingSum (reviews : List Review) : Option Nat :=
  reviews.foldl
    (fun sum r =>
      match sum, Number r.rating with
      | some a, some b => some (a + b)
      | _, _ => none)
    (some 0)

/-- Rounding to the nearest integer, ties to the even one. -/
def roundHalfEven (y : Rat) : Int :=
  if y - ⌊y⌋ < 1 / 2 then ⌊y⌋
  else if 1 / 2 < y - ⌊y⌋ then ⌊y⌋ + 1
  else if ⌊y⌋ % 2 = 0 then ⌊y⌋
  else ⌊y⌋ + 1

/-- The binary64 number nearest to the rational `q` (ties to even), for `q`
in the normal range: with `2^e <= |q| < 2^(e+1)` the doubles around `q` are
the multiples of `2^(e-52)`. -/
def binary64 (q : Rat) : Rat :=
  if q = 0 then 0
  else (roundHalfEven (q / (2 : Rat) ^ (Int.log 2 |q| - 52)) : Rat) * (2 : Rat) ^ (Int.log 2 |q| - 52)

/-- The tenths that `x.toFixed(1)` prints for `|x| < 10^21`: the integer `n`
with `n / 10` nearest to `|x|`, the larger one when two are equally near. -/
def toFixedTenths (x : Rat) : Nat := (⌊10 * |x| + 1 / 2⌋).toNat

/-- The decimal text of a number of tenths, as `toFixed(1)` lays it out. -/
def tenthsText (n : Nat) : String := toString (n / 10) ++ "." ++ toString (n % 10)

/-- `x.toFixed(1)` for `|x| < 10^21`. -/
def toFixed1 (x : Rat) : String :=
  (if x < 0 then "-" else "") ++ tenthsText (toFixedTenths x)

/-- Whether the stars of a review are rendered: `'★'.repeat(review.rating)`
and `'☆'.repeat(5 - review.rating)` throw a `RangeError` for a negative count,
so of the ratings that are digit strings those above 5 make the second call
throw.  `false` also stands for every rating outside the model of `Number`. -/
def starsRender (review : Review) : Bool :=
  match Number review.rating with
  | some rating => decide (rating ≤ 5)
  | none => false

/-- What `renderReviews` writes: the text of `#reviews-summary` (`none` when a
rating is outside the model of `Number`) and the reviews for which one
`review-item` block is written into `#reviews-list`, in order (`none` when the
list is not written: the summary is assigned first, and a `RangeError` thrown
while the blocks are built leaves the list as it was). -/
structure ReviewsView where
  reviewsSummary : Option String
  reviewsList : Option (List Review)
deriving DecidableEq, Repr

/-- Source: `renderReviews(productId)`, summary and list (the review form it
renders afterwards, when nothing was thrown, is not part of this value).  The
number of reviews is the length of an array, below 2^32 and exact. -/
def renderReviews (st : Storage) (productId : String) : ReviewsView :=
  let reviews := mockApi.getReviews st productId
  if reviews.length > 0 then
    let avgRating :=
      (ratingSum reviews).map (fun (sum : Nat) => binary64 ((sum : Rat) / (reviews.length : Rat)))
    { reviewsSummary :=
        avgRating.map (fun avg =>
          "Average Rating: " ++ toFixed1 avg ++ "/5 (" ++ toString reviews.length ++ " reviews)")
      reviewsList := if reviews.all starsRender then some reviews else none }
  else
    { reviewsSummary := some "No reviews yet.", reviewsList := some [] }

/-- The arithmetic mean rounded to one decimal place, in tenths, as the
specification words it: the nearest number of tenths, the upper one for a mean
halfway between two. -/
def roundedTenths (mean : Rat) : Int := ⌊10 * mean + 1 / 2⌋

/-- The sum of the ratings of a list of reviews, a rating outside the model
counting 0. -/
def ratingTotal (reviews : List Review) : Nat :=
  (reviews.map (fun r => (Number r.rating).getD 0)).sum

/-- A review of product "p1" with the given rating, used in examples. -/
def ratedReview (rating : String) : Review :=
  { productId := "p1", userName := "asha", rating := rating, comment := "nice",
    date := "6/15/2025" }

/-- A storage whose only key is `reviews`, holding two reviews of product "p1"
with the ratings 4 and 5. -/
def twoRatingsStorage : Storage :=
  { emptyStorage with reviews := some [ratedReview "4", ratedReview "5"] }

/-- A storage whose only key is `reviews`, holding twenty reviews of product
"p1": thirteen with the rating 4 and seven with the rating 5. -/
def tieRatingsStorage : Storage :=
  { emptyStorage with
    reviews := some (List.replicate 13 (ratedReview "4") ++ List.replicate 7 (ratedReview "5")) }

/-- A cart in which no product id has two lines and every line's id is the id
of a catalogue product. -/
def WellFormedCart (cart : List CartLine) : Prop :=
  (cart.map (fun line => line.id)).Nodup ∧
    ∀ id ∈ cart.map (fun line => line.id),
      (mockApi._products.find? (fun p => p.id == id)).isSome = true

/-- A storage with a wishlist left behind by an earlier session and no
current user (what `logoutUser` leaves after a user wishlisted product 1). -/
def loggedOutWishlistStorage : Storage :=
  { emptyStorage with wishlist := some ["1"] }

/-! ## Forms and user-interface effects of the storefront -/

/-- The effects of a handler on the page, next to its effect on the state:
`showToast(message, type)`, `renderAuthModal(form)`, `closeModal()`,
`renderCartModal()`, `initProductDetailPage()`, a scheduled redirect, and an
uncaught `TypeError` that ends the handler. -/
inductive UiEffect where
  | toast (message : String) (type : String)
  | authModal (form : String)
  | closeModal
  | cartModal
  | productDetailPage
  | redirect (url : String)
  | uncaughtTypeError
deriving DecidableEq, Repr

/-- The characters `String.prototype.trim` removes: the ECMAScript white space
(tab, vertical tab, form feed, space, no-break space, the other space
separators, U+FEFF) and line terminators (LF, CR, U+2028, U+2029). -/
def isWhiteSpace (c : Char) : Bool :=
  c.toNat == 0x09 || c.toNat == 0x0A || c.toNat == 0x0B || c.toNat == 0x0C ||
  c.toNat == 0x0D || c.toNat == 0x20 || c.toNat == 0xA0 || c.toNat == 0x1680 ||
  (decide (0x2000 ≤ c.toNat) && decide (c.toNat ≤ 0x200A)) ||
  c.toNat == 0x2028 || c.toNat == 0x2029 || c.toNat == 0x202F || c.toNat == 0x205F ||
  c.toNat == 0x3000 || c.toNat == 0xFEFF

/-- Trimming on character lists: white space is dropped at both ends. -/
def trimChars (cs : List Char) : List Char :=
  ((cs.dropWhile isWhiteSpace).reverse.dropWhile isWhiteSpace).reverse

/-- `s.trim()`. -/
def trim (s : String) : String := String.mk (trimChars s.data)

/-- `email.split('@')[0]`: the text before the first `@` (all of it when there
is none). -/
def beforeAt (email : String) : String :=
  String.mk (email.data.takeWhile (fun c => c != '@'))

/-- The argument `currentUser.email.split('@')[0]` of the review handler:
`none` when evaluating it throws a `TypeError`, which happens for `null` (no
property can be read) and for `[]` (its `email` is `undefined`). -/
def reviewUserName : CurrentUser → Option String
  | .user u => some (beforeAt u.email)
  | .emptyArray => none
  | .null => none

/-- The forms whose submission `handleGlobalSubmits` handles.  For the review
form, `rating` is `dataset.rating` (`none` when the attribute is missing) and
`comment` the value of the text area. -/
inductive Submit where
  | loginForm (email password : String)
  | registerForm (email password : String)
  | reviewForm (productId : String) (rating : Option String) (comment : String)
deriving DecidableEq, Repr

/-- The review branch of `handleGlobalSubmits`. -/
def reviewFormSubmit (s : AppState) (today productId : String) (rating : Option String)
    (comment : String) : AppState × List UiEffect :=
  match rating with
  | none => (s, [.toast "Please select a star rating." "error"])
  | some rating =>
    if rating = "" ∨ rating = "0" then (s, [.toast "Please select a star rating." "error"])
    else if trim comment = "" then (s, [.toast "Please enter your review." "error"])
    else
      match reviewUserName s.currentUser with
      | none => (s, [.uncaughtTypeError])
      | some userName =>
        ({ s with
           storage := (mockApi.postReview s.storage today productId userName rating comment).2 },
         [.toast "Thank you for your review!" "success", .productDetailPage])

/-- Source: `handleGlobalSubmits`, as a function of the submitted form; the
promise callbacks of the login and register branches are run to completion.
`today` is the current date string used by `postReview`. -/
def handleGlobalSubmits (s : AppState) (today : String) : Submit → AppState × List UiEffect
  | .loginForm email password =>
    match mockApi.loginUser s.storage email password with
    | (.ok user, st) =>
      ({ s with storage := st, currentUser := .user user, wishlist := mockApi.getWishlist st },
       [.closeModal, .toast "Welcome back!" "success"])
    | (.error error, st) => ({ s with storage := st }, [.toast error "error"])
  | .registerForm email password =>
    match mockApi.registerUser s.storage email password with
    | (.ok message, st) =>
      ({ s with storage := st }, [.toast message "success", .authModal "login"])
    | (.error error, st) => ({ s with storage := st }, [.toast error "error"])
  | .reviewForm productId rating comment => reviewFormSubmit s today productId rating comment

/-- The page effects of `handleGlobalClicks`, branch by branch (its effect on
the state is `handleGlobalClicks`). -/
def clickEffects (s : AppState) : Click → List UiEffect
  | .addToCart id =>
    match mockApi._products.find? (fun p => p.id == id) with
    | some product => [.toast (product.name ++ " added to cart!") "success"]
    | none => []
  | .buyNow id =>
    match mockApi._products.find? (fun p => p.id == id) with
    | some product =>
      [.toast (product.name ++ " ready for immediate purchase! Redirecting...") "success",
       .redirect "checkout.html"]
    | none => []
  | .cartQuantity id _ =>
    match s.cart.findIdx? (fun item => item.id == id) with
    | some _ => [.cartModal]
    | none => []
  | .wishlist id =>
    if loggedOutGuard s.currentUser then
      [.toast "Please log in to use the wishlist." "error", .authModal "login"]
    else
      [.toast
        (if (mockApi.toggleWishlist s.storage id).1.contains id then "Added to wishlist!"
         else "Removed from wishlist.")
        "info"]
  | .checkout =>
    if loggedOutGuard s.currentUser then
      [.toast "Please log in to proceed to checkout." "error", .authModal "login"]
    else [.toast "Checkout functionality is not implemented in this demo." "info"]

/-- What `renderReviews` writes into `#review-form-container`: the review form
with `data-rating` and the five stars, or the "log in" link. -/
inductive ReviewFormContainer where
  | form (productId : String) (rating : String)
  | loginLink
deriving DecidableEq, Repr

/-- The last part of `renderReviews`: the form (with `data-rating="0"`) for a
logged-in user, the link otherwise. -/
def renderReviewForm (currentUser : CurrentUser) (productId : String) : ReviewFormContainer :=
  if loggedInGuard currentUser then .form productId "0" else .loginLink

/-- The click handler of the `#login-for-review` link: `renderAuthModal('login')`. -/
def loginForReviewClick : List UiEffect := [.authModal "login"]

/-- The five stars of the rating input. -/
inductive Star where
  | one | two | three | four | five
deriving DecidableEq, Repr

/-- The `data-value` of a star. -/
def Star.value : Star → String
  | .one => "1"
  | .two => "2"
  | .three => "3"
  | .four => "4"
  | .five => "5"

/-- The `dataset.rating` of the review form after a sequence of star clicks:
it is rendered as "0" and every click on a star stores that star's
`data-value`. -/
def formRating (clicks : List Star) : String :=
  clicks.foldl (fun _ star => star.value) "0"

/-- A session in which the user a@x.in is logged in. -/
def loggedInState : AppState :=
  start { emptyStorage with
          users := some [{ email := "a@x.in", password := "secret1" }]
          currentUser := some { email := "a@x.in", password := "secret1" } }

/-! ## The admin page: clicks and forms (src/Admin/admin-script.js) -/

/-- The `data-` attributes a delete button can carry; each view renders its
buttons with the attributes its branch of the handler reads. -/
structure DeleteButton where
  id : String
  email : String
  productId : String
  comment : String
deriving DecidableEq, Repr

/-- The elements of the content area `handleContentAreaClick` distinguishes. -/
inductive AdminTarget where
  | addProductBtn
  | addBlogBtn
  | editBtn (id : String)
  | deleteBtn (dataset : DeleteButton)
  | featuredToggle (id : String)
  | other
deriving DecidableEq, Repr

/-- A call of a mutating `adminApi` function. -/
inductive AdminCall where
  | addProduct (product : Product)
  | updateProduct (product : Product)
  | deleteProduct (id : String)
  | addBlogPost (post : BlogPost)
  | updateBlogPost (post : BlogPost)
  | deleteBlogPost (id : String)
  | deleteUser (email : String)
  | deleteReview (productId comment : String)
deriving DecidableEq, Repr

/-- Does the call delete records. -/
def AdminCall.isDelete : AdminCall → Bool
  | .deleteProduct _ => true
  | .deleteBlogPost _ => true
  | .deleteUser _ => true
  | .deleteReview _ _ => true
  | _ => false

/-- The storage after a call; `now` is the value of `Date.now()` for adds. -/
def AdminCall.run (now : Nat) (st : Storage) : AdminCall → Storage
  | .addProduct product => adminApi.addProduct st now product
  | .updateProduct product => adminApi.updateProduct st product
  | .deleteProduct id => adminApi.deleteProduct st id
  | .addBlogPost post => adminApi.addBlogPost st now post
  | .updateBlogPost post => adminApi.updateBlogPost st post
  | .deleteBlogPost id => adminApi.deleteBlogPost st id
  | .deleteUser email => adminApi.deleteUser st email
  | .deleteReview productId comment => adminApi.deleteReview st productId comment

/-- The state of the admin page: `localStorage` and the variable `currentView`. -/
structure AdminState where
  storage : Storage
  currentView : String
deriving DecidableEq, Repr

/-- The `adminApi` calls `handleContentAreaClick` makes for a click on
`target`, and the view it renders afterwards (`none` when it renders none).
`confirmed` is the answer to the `confirm` prompt, which is only shown for a
delete button. -/
def contentAreaCalls (s : AdminState) (confirmed : Bool) :
    AdminTarget → List AdminCall × Option String
  | .addProductBtn => ([], none)
  | .addBlogBtn => ([], none)
  | .editBtn _ => ([], none)
  | .deleteBtn btn =>
    if !confirmed then ([], none)
    else if s.currentView = "products" then ([.deleteProduct btn.id], some s.currentView)
    else if s.currentView = "blog" then ([.deleteBlogPost btn.id], some s.currentView)
    else if s.currentView = "users" then ([.deleteUser btn.email], some s.currentView)
    else if s.currentView = "reviews" then
      ([.deleteReview btn.productId btn.comment], some s.currentView)
    else ([], some s.currentView)
  | .featuredToggle id =>
    match (adminApi.getProducts s.storage).find? (fun p => p.id == id) with
    | some product => ([.updateProduct { product with featured := !product.featured }],
        some "products")
    | none => ([], none)
  | .other => ([], none)

/-- Source: `handleContentAreaClick`: the calls are made in order and the view
named is rendered, which sets `currentView`. -/
def handleContentAreaClick (s : AdminState) (now : Nat) (confirmed : Bool)
    (target : AdminTarget) : AdminState :=
  let r := contentAreaCalls s confirmed target
  { storage := r.1.foldl (AdminCall.run now) s.storage
    currentView := match r.2 with
      | some view => view
      | none => s.currentView }

/-! ### Values that reach a field through markup

Both forms are built as text: a stored value is spliced into the template
between the quotes of `value="..."`, and the browser parses the text when it
is assigned to `innerHTML`.  A field holds what the HTML parser makes of the
spliced text, which is the text itself only when the text has no character
the parser treats specially.  The parser is modelled on the texts described
below; `none` and `false` stand for the texts outside them. -/

/-- The double quote, which ends a quoted attribute value. -/
def doubleQuote : Char := Char.ofNat 34

/-- Characters the parser does not copy as they are from the markup into a
quoted attribute value: the double quote ends the value, an ampersand starts a
character reference, NUL is replaced by U+FFFD, and a carriage return or line
feed is normalised (and stripped from the value of a text field). -/
def markupSpecial (c : Char) : Bool :=
  c == doubleQuote || c == '&' || c.toNat == 0 || c.toNat == 13 || c.toNat == 10

/-- The part of a spliced text before its first double quote (all of it when
it has none). -/
def beforeQuote (text : String) : List Char :=
  text.data.takeWhile (fun c => c != doubleQuote)

/-- The part of a spliced text after its first double quote (empty when it has
none). -/
def afterQuote (text : String) : List Char :=
  (text.data.dropWhile (fun c => c != doubleQuote)).drop 1

/-- Whether `text`, spliced into `value="${text}"`, leaves the tag and the
markup after it as the template lays them out.  This is so when the text has
no double quote (nothing else ends a quoted attribute value), and when its
first double quote is followed by ASCII letters and digits only: the parser
reads these, with the quote the template puts after them, as the name of one
more attribute of the same tag, which no control looks at.  `false` stands for
every other text. -/
def keepsMarkup (text : String) : Bool := (afterQuote text).all Char.isAlphanum

/-- The value the browser gives a field whose markup is `value="${text}"`: the
text up to its first double quote.  `none` stands for the texts outside the
model: those that do not keep the markup, and those with an ampersand, a NUL
or a line break before the first double quote. -/
def attributeValue (text : String) : Option String :=
  if keepsMarkup text && (beforeQuote text).all (fun c => !markupSpecial c) then
    some (String.mk (beforeQuote text))
  else none

/-- Tag names the rich-text editor writes without attributes; an element with
one of these names is neither a form control nor an ancestor of the editor. -/
def editorTagNames : List (List Char) :=
  [['p'], ['b', 'r'], ['h', '1'], ['h', '2'], ['h', '3'], ['h', '4'], ['h', '5'], ['h', '6'],
   ['s', 't', 'r', 'o', 'n', 'g'], ['e', 'm'], ['u'], ['o', 'l'], ['u', 'l'], ['l', 'i'],
   ['b', 'l', 'o', 'c', 'k', 'q', 'u', 'o', 't', 'e']]

/-- One character of the scan `staysInEditor` makes.  The state is `none` once
the content is refused, `some none` inside text, and `some (some name)` inside
a tag whose characters so far are `name`. -/
def editorScan (state : Option (Option (List Char))) (c : Char) :
    Option (Option (List Char)) :=
  match state with
  | none => none
  | some none => if c = '<' then some (some []) else some none
  | some (some name) =>
    if c = '>' then
      if editorTagNames.contains (if name.head? = some '/' then name.drop 1 else name) then
        some none
      else none
    else if c = '<' then none
    else some (some (name ++ [c]))

/-- Whether `content`, spliced into `<div id="quill-editor">${content}</div>`,
stays inside that element and adds no control to the form: every `<` of the
content begins `<name>` or `</name>` with `name` one of `editorTagNames`.
`false` stands for every other content. -/
def staysInEditor (content : String) : Bool :=
  content.data.foldl editorScan (some none) == some none

/-- The values of the visible fields of the product form at submission;
`price` is the number `parseFloat` reads from the price field (an integer
here, as are the catalogue prices). -/
structure ProductFields where
  name : String
  price : Int
  category : String
  image : String
  description : String
deriving DecidableEq, Repr

/-- Whether the texts `openProductForm(product)` splices into the visible
fields leave the form with the controls of the template: the name and the
image inside `value="..."`, the description inside `<textarea>`, where only a
`<` can begin the closing tag.  The price is a number and the category is
only compared.  `false` stands for the products outside the model. -/
def productFormIntact (product : Option Product) : Bool :=
  match product with
  | some p => keepsMarkup p.name && keepsMarkup p.image && !p.description.data.contains '<'
  | none => true

/-- The `adminApi` call the submit handler installed by
`openProductForm(product)` makes when it runs (the browser runs it once every
`required` field holds a value); `product` is `none` for the default argument
`{}`.  `isEditing` is computed from `product.id` itself, while `data.id` is
the entry of the hidden field, whose markup is `value="${product.id || ''}"`.
Each `||` falls back when its left operand is missing or falsy.  `none`
stands for the products outside the model of the markup. -/
def productFormCall (product : Option Product) (fields : ProductFields) : Option AdminCall :=
  let id := match product with
    | some p => p.id
    | none => ""
  let isEditing := id ≠ ""
  if productFormIntact product then
    (attributeValue id).map (fun hiddenId =>
      let data : Product :=
        { id := hiddenId
          name := fields.name
          price := fields.price
          category := fields.category
          image := fields.image
          description := fields.description
          featured := match product with
            | some p => p.featured || false
            | none => false
          details := match product with
            | some p => p.details
            | none => { material := "N/A", dimensions := "N/A", origin := "N/A",
                        craft := "N/A" }
          care := match product with
            | some p => if p.care ≠ "" then p.care else "N/A"
            | none => "N/A" }
      if isEditing then .updateProduct data else .addProduct data)
  else none

/-- `parts.join(separator)` on character lists. -/
def joinChars (separator : List Char) : List (List Char) → List Char
  | [] => []
  | [part] => part
  | part :: rest => part ++ separator ++ joinChars separator rest

/-- `text.split(',')` on character lists (for any one-character separator). -/
def splitChars (separator : Char) : List Char → List (List Char)
  | [] => [[]]
  | c :: cs =>
    if c = separator then [] :: splitChars separator cs
    else
      match splitChars separator cs with
      | [] => [[c]]
      | piece :: rest => (c :: piece) :: rest

/-- The text `openBlogForm` splices into the markup of the tags field:
`post.tags ? post.tags.join(', ') : ''`. -/
def tagsFieldText (tags : Option (List String)) : String :=
  match tags with
  | some tags => String.mk (joinChars [',', ' '] (tags.map (fun tag => tag.data)))
  | none => ""

/-- The value of the tags field when the form opens: what the browser makes
of `value="${post.tags ? post.tags.join(', ') : ''}"`. -/
def tagsFieldValue (tags : Option (List String)) : Option String :=
  attributeValue (tagsFieldText tags)

/-- What the blog form's submit handler makes of the tags field:
`data.tags.split(',').map(tag => tag.trim())`. -/
def readTags (value : String) : List String :=
  (splitChars ',' value.data).map (fun tag => trim (String.mk tag))

/-- The values of the visible fields of the blog form at submission, with the
editor's HTML as `content`. -/
structure BlogFields where
  title : String
  author : String
  date : String
  tags : String
  image : String
  content : String
deriving DecidableEq, Repr

/-- Whether the texts `openBlogForm(post)` splices into the visible fields
leave the form with the controls of the template: the title, author, date,
joined tags and image inside `value="..."`, the content inside the editor's
element.  `false` stands for the posts outside the model. -/
def blogFormIntact (post : Option BlogPost) : Bool :=
  match post with
  | some p =>
    keepsMarkup p.title && keepsMarkup p.author && keepsMarkup p.date &&
      keepsMarkup (tagsFieldText (some p.tags)) && keepsMarkup p.image &&
      staysInEditor p.content
  | none => true

/-- The `adminApi` call the submit handler installed by `openBlogForm(post)`
makes when it runs.  As in the product form, `isEditing` is computed from
`post.id` itself and `data.id` is the entry of the hidden field, whose markup
is `value="${post.id || ''}"`; `none` stands for the posts outside the model
of the markup. -/
def blogFormCall (post : Option BlogPost) (fields : BlogFields) : Option AdminCall :=
  let id := match post with
    | some p => p.id
    | none => ""
  let isEditing := id ≠ ""
  if blogFormIntact post then
    (attributeValue id).map (fun hiddenId =>
      let data : BlogPost :=
        { id := hiddenId, title := fields.title, date := fields.date, author := fields.author,
          image := fields.image, tags := readTags fields.tags, content := fields.content }
      if isEditing then .updateBlogPost data else .addBlogPost data)
  else none

/-- An admin page showing the products view of `oneProductStorage`. -/
def productsViewState : AdminState :=
  { storage := oneProductStorage, currentView := "products" }

/-- A stored product whose care text is the empty string. -/
def emptyCareProduct : Product :=
  { sampleProduct "1718445600000" "Vase" 10 with care := "" }

/-- A stored product whose id is the digit 1, a double quote and the digit 2. -/
def quotedIdProduct : Product :=
  sampleProduct (String.mk ['1', doubleQuote, '2']) "Vase" 10

/-- Field values submitted in the examples of the product form. -/
def sampleFields : ProductFields :=
  { name := "Bowl", price := 20, category := "home-decor", image := "b.jpg",
    description := "A bowl." }

/-- A stored post with the tags "art" and "heritage" and a content of two
paragraphs under a heading. -/
def twoTagsPost : BlogPost :=
  { samplePost "1718445600000" "Looms" with
    tags := ["art", "heritage"]
    content := "<h4>Looms</h4><p>Warp and weft.</p><p>Natural dyes.</p>" }

/-- A stored post whose only tag is the letter a, a double quote and the
letter b, as the submit handler stores it when that text is typed into the
tags field. -/
def quotedTagPost : BlogPost :=
  { samplePost "1718445600000" "Looms" with tags := [String.mk ['a', doubleQuote, 'b']] }

/-- The fields of the blog form submitted as the form shows them for
`quotedTagPost`, with a new title. -/
def quotedTagFields : BlogFields :=
  { title := "Dyes", author := "Admin", date := "June 15, 2025", tags := "a", image := "a.jpg",
    content := "" }

end Handicraft

namespace Handicraft

/-! ## List lemmas for first-match updates -/

theorem findIdx?_split {α : Type} (p : α → Bool) :
    ∀ (xs : List α) (i : Nat), xs.findIdx? p = some i →
      ∃ pre x post, xs = pre ++ x :: post ∧ pre.length = i ∧ p x = true ∧
        ∀ y ∈ pre, p y = false := by
  intro xs i h
  rw [List.findIdx?_eq_some_iff_getElem] at h
  obtain ⟨hi, hp, hlt⟩ := h
  refine ⟨xs.take i, xs[i], xs.drop (i + 1), ?_, ?_, hp, ?_⟩
  · simp
  · simp; omega
  · intro y hy
    obtain ⟨j, hj, rfl⟩ := List.getElem_of_mem hy
    have hj' : j < i := by simp at hj; omega
    have := hlt j hj'
    simpa using this

theorem findIdx?_of_split {α : Type} (p : α → Bool) (pre : List α) (x : α) (post : List α)
    (hpre : ∀ y ∈ pre, p y = false) (hx : p x = true) :
    (pre ++ x :: post).findIdx? p = some pre.length := by
  rw [List.findIdx?_append, List.findIdx?_eq_none_iff.mpr hpre]
  simp [List.findIdx?_cons, hx]

theorem modify_split {α : Type} (f : α → α) (pre : List α) (x : α) (post : List α) :
    (pre ++ x :: post).modify f pre.length = pre ++ f x :: post := by
  induction pre with
  | nil => rfl
  | cons a pre ih => simpa [List.modify] using ih

theorem eraseIdx_split {α : Type} (pre : List α) (x : α) (post : List α) :
    (pre ++ x :: post).eraseIdx pre.length = pre ++ post := by
  induction pre with
  | nil => rfl
  | cons a pre ih => simpa using ih

theorem get?_split {α : Type} (pre : List α) (x : α) (post : List α) :
    (pre ++ x :: post).get? pre.length = some x := by
  induction pre with
  | nil => rfl
  | cons a pre ih => simpa using ih

end Handicraft
namespace Handicraft

/-! ## Cart updates on a cart split at the first line with a given id -/

theorem addLine_found (pre : List CartLine) (line : CartLine) (post : List CartLine) (id : String)
    (hpre : ∀ x ∈ pre, x.id ≠ id) (hid : line.id = id) :
    addLine (pre ++ line :: post) id
      = pre ++ { line with quantity := line.quantity + 1 } :: post := by
  have h := findIdx?_of_split (fun item : CartLine => item.id == id) pre line post
    (by intro y hy; simpa using hpre y hy) (by simpa using hid)
  simp only [addLine, h, modify_split]

theorem addLine_absent (cart : List CartLine) (id : String) (h : ∀ x ∈ cart, x.id ≠ id) :
    addLine cart id = cart ++ [{ id := id, quantity := 1 }] := by
  have h0 : cart.findIdx? (fun item : CartLine => item.id == id) = none := by
    rw [List.findIdx?_eq_none_iff]; intro y hy; simpa using h y hy
  simp only [addLine, h0]

theorem changeLine_increase (pre : List CartLine) (line : CartLine) (post : List CartLine) :
    changeLine (pre ++ line :: post) pre.length "increase"
      = pre ++ { line with quantity := line.quantity + 1 } :: post := by
  simp only [changeLine, modify_split, if_true]

theorem changeLine_decrease (pre : List CartLine) (line : CartLine) (post : List CartLine) :
    changeLine (pre ++ line :: post) pre.length "decrease"
      = if line.quantity - 1 ≤ 0 then pre ++ post
        else pre ++ { line with quantity := line.quantity - 1 } :: post := by
  have hne : ¬ ("decrease" = "increase") := by decide
  simp only [changeLine, modify_split, get?_split, hne, if_false, if_true]
  split
  · exact eraseIdx_split pre _ post
  · rfl

theorem changeLine_other (cart : List CartLine) (i : Nat) (action : String)
    (h1 : action ≠ "increase") (h2 : action ≠ "decrease") :
    changeLine cart i action = cart := by
  simp [changeLine, h1, h2]

theorem cart_split_of_findIdx? (cart : List CartLine) (id : String) (i : Nat)
    (h : cart.findIdx? (fun item => item.id == id) = some i) :
    ∃ pre line post, cart = pre ++ line :: post ∧ pre.length = i ∧ line.id = id ∧
      ∀ x ∈ pre, x.id ≠ id := by
  obtain ⟨pre, x, post, h1, h2, h3, h4⟩ := findIdx?_split _ cart i h
  refine ⟨pre, x, post, h1, h2, by simpa using h3, ?_⟩
  intro y hy
  simpa using h4 y hy

theorem addLine_positive (cart : List CartLine) (id : String) (h : PositiveQuantities cart) :
    PositiveQuantities (addLine cart id) := by
  cases hf : cart.findIdx? (fun item => item.id == id) with
  | none =>
    have hall : ∀ x ∈ cart, x.id ≠ id := by
      intro x hx
      have := (List.findIdx?_eq_none_iff.mp hf) x hx
      simpa using this
    rw [addLine_absent cart id hall]
    intro line hl
    rcases List.mem_append.mp hl with hl | hl
    · exact h line hl
    · simp at hl; subst hl; exact le_refl _
  | some i =>
    obtain ⟨pre, l, post, rfl, -, hid, hpre⟩ := cart_split_of_findIdx? cart id i hf
    rw [addLine_found pre l post id hpre hid]
    intro line hl
    simp only [List.mem_append, List.mem_cons] at hl
    rcases hl with hl | rfl | hl
    · exact h line (by simp [hl])
    · have := h l (by simp)
      show 1 ≤ l.quantity + 1
      omega
    · exact h line (by simp [hl])

theorem changeLine_positive (pre : List CartLine) (l : CartLine) (post : List CartLine)
    (action : String) (h : PositiveQuantities (pre ++ l :: post)) :
    PositiveQuantities (changeLine (pre ++ l :: post) pre.length action) := by
  have hl := h l (by simp)
  have hpre : ∀ x ∈ pre, 1 ≤ x.quantity := fun x hx => h x (by simp [hx])
  have hpost : ∀ x ∈ post, 1 ≤ x.quantity := fun x hx => h x (by simp [hx])
  by_cases h1 : action = "increase"
  · subst h1
    rw [changeLine_increase]
    intro line hm
    simp only [List.mem_append, List.mem_cons] at hm
    rcases hm with hm | rfl | hm
    · exact hpre _ hm
    · show 1 ≤ l.quantity + 1
      omega
    · exact hpost _ hm
  · by_cases h2 : action = "decrease"
    · subst h2
      rw [changeLine_decrease]
      split
      · intro line hm
        rcases List.mem_append.mp hm with hm | hm
        · exact hpre _ hm
        · exact hpost _ hm
      · rename_i hq
        intro line hm
        simp only [List.mem_append, List.mem_cons] at hm
        rcases hm with hm | rfl | hm
        · exact hpre _ hm
        · show 1 ≤ l.quantity - 1
          omega
        · exact hpost _ hm
    · rw [changeLine_other _ _ _ h1 h2]
      exact h

theorem handleGlobalClicks_invariant (s : AppState) (c : Click) (h : CartInvariant s) :
    CartInvariant (handleGlobalClicks s c) := by
  obtain ⟨hq, hs⟩ := h
  cases c with
  | addToCart id =>
    simp only [handleGlobalClicks, addToCart]
    split
    · exact ⟨addLine_positive _ _ hq, rfl⟩
    · exact ⟨hq, hs⟩
  | buyNow id =>
    simp only [handleGlobalClicks, buyNow]
    split
    · exact ⟨addLine_positive _ _ hq, rfl⟩
    · exact ⟨hq, hs⟩
  | cartQuantity id action =>
    simp only [handleGlobalClicks, changeQuantity]
    split
    · rename_i i hf
      obtain ⟨pre, l, post, hc, hlen, -, -⟩ := cart_split_of_findIdx? _ _ _ hf
      refine ⟨?_, rfl⟩
      show PositiveQuantities (changeLine s.cart i action)
      rw [hc, ← hlen]
      exact changeLine_positive pre l post action (hc ▸ hq)
    · exact ⟨hq, hs⟩
  | wishlist id =>
    simp only [handleGlobalClicks, wishlistClick]
    split
    · exact ⟨hq, hs⟩
    · exact ⟨hq, hs⟩
  | checkout => exact ⟨hq, hs⟩

theorem foldl_invariant (clicks : List Click) :
    ∀ s : AppState, CartInvariant s → CartInvariant (clicks.foldl handleGlobalClicks s) := by
  induction clicks with
  | nil => intro s h; exact h
  | cons c cs ih => intro s h; exact ih _ (handleGlobalClicks_invariant s c h)

theorem start_invariant (st : Storage) (h : mockApi._getFromStorage st.artisanalCraftsCart = []) :
    CartInvariant (start st) := by
  refine ⟨?_, rfl⟩
  show PositiveQuantities (mockApi._getFromStorage st.artisanalCraftsCart)
  rw [h]
  intro line hl
  cases hl

end Handicraft
namespace Handicraft

/-! ## Cart claims -/

theorem foldl_add_quantity (cart : List CartLine) :
    ∀ a : Int, cart.foldl (fun sum item => sum + item.quantity) a
      = a + (cart.map (fun line => line.quantity)).sum := by
  induction cart with
  | nil => intro a; simp
  | cons x xs ih => intro a; simp only [List.foldl_cons, ih, List.map_cons, List.sum_cons]; omega

theorem updateCartDisplay_count (s : AppState) : CountInvariant (updateCartDisplay s) := by
  refine ⟨rfl, ?_⟩
  show s.cart.foldl (fun sum item => sum + item.quantity) 0
    = (s.cart.map (fun line => line.quantity)).sum
  rw [foldl_add_quantity]; simp

theorem handleGlobalClicks_count (s : AppState) (c : Click) (h : CountInvariant s) :
    CountInvariant (handleGlobalClicks s c) := by
  cases c with
  | addToCart id =>
    simp only [handleGlobalClicks, addToCart]
    split
    · exact updateCartDisplay_count _
    · exact h
  | buyNow id =>
    simp only [handleGlobalClicks, buyNow]
    split
    · exact updateCartDisplay_count _
    · exact h
  | cartQuantity id action =>
    simp only [handleGlobalClicks, changeQuantity]
    split
    · exact updateCartDisplay_count _
    · exact h
  | wishlist id =>
    simp only [handleGlobalClicks, wishlistClick]
    split
    · exact h
    · exact h
  | checkout => exact h

theorem foldl_count (clicks : List Click) :
    ∀ s : AppState, CountInvariant s → CountInvariant (clicks.foldl handleGlobalClicks s) := by
  induction clicks with
  | nil => intro s h; exact h
  | cons c cs ih => intro s h; exact ih _ (handleGlobalClicks_count s c h)

/-- C1: starting from an empty stored cart, after any sequence of clicks
(add to cart, buy now, quantity changes with any action, and the clicks that
do not touch the cart) every line of the in-memory cart and every line of the
cart stored under `artisanalCraftsCart` has quantity at least 1; and a
"decrease" click on a line whose quantity is 1 leaves both carts without that
line. -/
theorem cart_quantity_at_least_one (st : Storage)
    (hempty : mockApi._getFromStorage st.artisanalCraftsCart = []) (clicks : List Click) :
    (∀ line ∈ (run st clicks).cart, 1 ≤ line.quantity) ∧
    (∃ stored, (run st clicks).storage.artisanalCraftsCart = some stored ∧
        ∀ line ∈ stored, 1 ≤ line.quantity) ∧
    (∀ (id : String) (pre : List CartLine) (line : CartLine) (post : List CartLine),
        (run st clicks).cart = pre ++ line :: post → (∀ x ∈ pre, x.id ≠ id) → line.id = id →
        line.quantity = 1 →
        (handleGlobalClicks (run st clicks) (.cartQuantity id "decrease")).cart = pre ++ post ∧
        (handleGlobalClicks (run st clicks)
            (.cartQuantity id "decrease")).storage.artisanalCraftsCart = some (pre ++ post)) := by
  have hinv : CartInvariant (run st clicks) := foldl_invariant clicks _ (start_invariant st hempty)
  refine ⟨hinv.1, ⟨_, hinv.2, hinv.1⟩, ?_⟩
  intro id pre line post hc hpre hid hq
  have hf : (run st clicks).cart.findIdx? (fun item => item.id == id) = some pre.length := by
    rw [hc]
    exact findIdx?_of_split _ pre line post (by intro y hy; simpa using hpre y hy)
      (by simpa using hid)
  have hcl : changeLine (run st clicks).cart pre.length "decrease" = pre ++ post := by
    rw [hc, changeLine_decrease, if_pos (by omega)]
  simp only [handleGlobalClicks, changeQuantity, hf, updateCartDisplay, hcl, and_self]

/-- Witness for C1: a fresh browser, two adds of product 1, one add of product
2, then a decrease on product 2, whose line has quantity 1. -/
theorem cart_quantity_at_least_one_witness :
    mockApi._getFromStorage emptyStorage.artisanalCraftsCart = [] ∧
    (∀ line ∈ (run emptyStorage [.addToCart "1", .buyNow "1", .addToCart "2"]).cart,
        1 ≤ line.quantity) ∧
    (handleGlobalClicks (run emptyStorage [.addToCart "1", .buyNow "1", .addToCart "2"])
        (.cartQuantity "2" "decrease")).cart = [{ id := "1", quantity := 2 }] :=
  ⟨rfl,
   (cart_quantity_at_least_one emptyStorage rfl [.addToCart "1", .buyNow "1", .addToCart "2"]).1,
   ((cart_quantity_at_least_one emptyStorage rfl
      [.addToCart "1", .buyNow "1", .addToCart "2"]).2.2
      "2" [{ id := "1", quantity := 2 }] { id := "2", quantity := 1 } []
      (by decide) (by decide) rfl rfl).1⟩

/-- C2: after a page load and any sequence of clicks (in particular any
sequence of add-to-cart and "decrease" clicks on an empty cart), the cart
stored under `artisanalCraftsCart` is the in-memory cart and the item count
that `updateCartDisplay` last computed for the header is the sum of the
quantities of the stored lines. -/
theorem cart_count_is_stored_sum (st : Storage) (clicks : List Click) :
    ∃ stored, (run st clicks).storage.artisanalCraftsCart = some stored ∧
      stored = (run st clicks).cart ∧
      (run st clicks).cartCountText = (stored.map (fun line => line.quantity)).sum := by
  have h : CountInvariant (run st clicks) := foldl_count clicks _ (updateCartDisplay_count _)
  exact ⟨_, h.1, rfl, h.2⟩

end Handicraft
namespace Handicraft

theorem foldl_cart_total (cart : List CartLine) :
    ∀ a : Int,
      cart.foldl
        (fun total item =>
          match mockApi._products.find? (fun p => p.id == item.id) with
          | none => total
          | some product => total + product.price * item.quantity) a
      = a + (cart.map (fun line =>
          match mockApi._products.find? (fun p => p.id == line.id) with
          | none => 0
          | some product => product.price * line.quantity)).sum := by
  induction cart with
  | nil => intro a; simp
  | cons x xs ih =>
    intro a
    simp only [List.foldl_cons, ih, List.map_cons, List.sum_cons]
    cases mockApi._products.find? (fun p => p.id == x.id) with
    | none => simp
    | some product => simp only [add_assoc]

theorem handleGlobalClicks_cart (s t : AppState) (c : Click) (h : s.cart = t.cart) :
    (handleGlobalClicks s c).cart = (handleGlobalClicks t c).cart := by
  cases c with
  | addToCart id =>
    simp only [handleGlobalClicks, addToCart]
    split <;> simp [updateCartDisplay, h]
  | buyNow id =>
    simp only [handleGlobalClicks, buyNow]
    split <;> simp [updateCartDisplay, h]
  | cartQuantity id action =>
    simp only [handleGlobalClicks, changeQuantity, h]
    split <;> simp [updateCartDisplay, h]
  | wishlist id =>
    simp only [handleGlobalClicks, wishlistClick]
    split <;> split <;> exact h
  | checkout => exact h

theorem foldl_cart (clicks : List Click) :
    ∀ s t : AppState, s.cart = t.cart →
      (clicks.foldl handleGlobalClicks s).cart = (clicks.foldl handleGlobalClicks t).cart := by
  induction clicks with
  | nil => intro s t h; exact h
  | cons c cs ih => intro s t h; exact ih _ _ (handleGlobalClicks_cart s t c h)

theorem run_cart_eq (st st2 : Storage)
    (h : mockApi._getFromStorage st.artisanalCraftsCart
      = mockApi._getFromStorage st2.artisanalCraftsCart) (clicks : List Click) :
    (run st clicks).cart = (run st2 clicks).cart :=
  foldl_cart clicks _ _ h

/-- C3: the total that `renderCartModal` computes is the sum, over the cart
lines, of the catalogue price of the line's product times the line's quantity
(a line whose id is not in the catalogue has no product and adds nothing);
and from an empty stored cart, adding product 1 (price 699), adding product 2
(price 1299) and increasing product 1 gives a cart with quantities 2 and 1
whose total is 699*2 + 1299 = 2697. -/
theorem cart_total_is_price_times_quantity (cart : List CartLine) (st : Storage)
    (hempty : mockApi._getFromStorage st.artisanalCraftsCart = []) :
    renderCartModal cart
      = (cart.map (fun line =>
          match mockApi._products.find? (fun p => p.id == line.id) with
          | none => 0
          | some product => product.price * line.quantity)).sum ∧
    (run st [.addToCart "1", .addToCart "2", .cartQuantity "1" "increase"]).cart
      = [{ id := "1", quantity := 2 }, { id := "2", quantity := 1 }] ∧
    renderCartModal
        (run st [.addToCart "1", .addToCart "2", .cartQuantity "1" "increase"]).cart
      = 699 * 2 + 1299 ∧
    renderCartModal
        (run st [.addToCart "1", .addToCart "2", .cartQuantity "1" "increase"]).cart
      = 2697 := by
  have hcart : (run st [.addToCart "1", .addToCart "2", .cartQuantity "1" "increase"]).cart
      = [{ id := "1", quantity := 2 }, { id := "2", quantity := 1 }] := by
    rw [run_cart_eq st emptyStorage (by rw [hempty]; rfl)]
    decide
  refine ⟨?_, hcart, ?_, ?_⟩
  · unfold renderCartModal
    split
    · rename_i h
      have : cart = [] := List.length_eq_zero.mp h
      subst this; rfl
    · rw [foldl_cart_total]; simp
  · rw [hcart]; decide
  · rw [hcart]; decide

end Handicraft
namespace Handicraft

/-- Witness for C3: a cart with a catalogue line and a line outside the
catalogue, and the scenario run in a fresh browser. -/
theorem cart_total_is_price_times_quantity_witness :
    mockApi._getFromStorage emptyStorage.artisanalCraftsCart = [] ∧
    renderCartModal [{ id := "3", quantity := 2 }, { id := "x", quantity := 5 }] = 1999 * 2 ∧
    renderCartModal
        (run emptyStorage [.addToCart "1", .addToCart "2", .cartQuantity "1" "increase"]).cart
      = 2697 :=
  ⟨rfl,
   (cart_total_is_price_times_quantity
      [{ id := "3", quantity := 2 }, { id := "x", quantity := 5 }] emptyStorage rfl).1.trans
      (by decide),
   (cart_total_is_price_times_quantity [] emptyStorage rfl).2.2.2⟩

/-- C4: add-to-cart for a catalogue product `p` adds 1 to the first line with
id `p` and changes nothing else, or appends the line `{ id: p, quantity: 1 }`
when there is no such line; a quantity change for `p` adds 1 ("increase") or
subtracts 1 ("decrease", removing the line when the result is at most 0) on
the first line with id `p` and changes nothing else, and leaves the cart
unchanged when no line has id `p`. -/
theorem cart_operations (s : AppState) (p : String) :
    (∀ (pre : List CartLine) (line : CartLine) (post : List CartLine),
        mockApi._products.find? (fun q => q.id == p) ≠ none →
        s.cart = pre ++ line :: post → (∀ x ∈ pre, x.id ≠ p) → line.id = p →
        (handleGlobalClicks s (.addToCart p)).cart
          = pre ++ { id := p, quantity := line.quantity + 1 } :: post) ∧
    (mockApi._products.find? (fun q => q.id == p) ≠ none → (∀ x ∈ s.cart, x.id ≠ p) →
        (handleGlobalClicks s (.addToCart p)).cart = s.cart ++ [{ id := p, quantity := 1 }]) ∧
    (∀ (pre : List CartLine) (line : CartLine) (post : List CartLine),
        s.cart = pre ++ line :: post → (∀ x ∈ pre, x.id ≠ p) → line.id = p →
        (handleGlobalClicks s (.cartQuantity p "increase")).cart
          = pre ++ { id := p, quantity := line.quantity + 1 } :: post) ∧
    (∀ (pre : List CartLine) (line : CartLine) (post : List CartLine),
        s.cart = pre ++ line :: post → (∀ x ∈ pre, x.id ≠ p) → line.id = p →
        (handleGlobalClicks s (.cartQuantity p "decrease")).cart
          = if line.quantity - 1 ≤ 0 then pre ++ post
            else pre ++ { id := p, quantity := line.quantity - 1 } :: post) ∧
    (∀ action : String, (∀ x ∈ s.cart, x.id ≠ p) →
        handleGlobalClicks s (.cartQuantity p action) = s) := by
  refine ⟨?_, ?_, ?_, ?_, ?_⟩
  · intro pre line post hp hc hpre hid
    cases hfind : mockApi._products.find? (fun q => q.id == p) with
    | none => exact absurd hfind hp
    | some product =>
      simp only [handleGlobalClicks, addToCart, hfind, updateCartDisplay, hc]
      rw [addLine_found pre line post p hpre hid, hid]
  · intro hp hall
    cases hfind : mockApi._products.find? (fun q => q.id == p) with
    | none => exact absurd hfind hp
    | some product =>
      simp only [handleGlobalClicks, addToCart, hfind, updateCartDisplay]
      exact addLine_absent _ _ hall
  · intro pre line post hc hpre hid
    have hf : s.cart.findIdx? (fun item => item.id == p) = some pre.length := by
      rw [hc]
      exact findIdx?_of_split _ pre line post (by intro y hy; simpa using hpre y hy)
        (by simpa using hid)
    simp only [handleGlobalClicks, changeQuantity, hf, updateCartDisplay]
    rw [hc, changeLine_increase, hid]
  · intro pre line post hc hpre hid
    have hf : s.cart.findIdx? (fun item => item.id == p) = some pre.length := by
      rw [hc]
      exact findIdx?_of_split _ pre line post (by intro y hy; simpa using hpre y hy)
        (by simpa using hid)
    simp only [handleGlobalClicks, changeQuantity, hf, updateCartDisplay]
    rw [hc, changeLine_decrease, hid]
  · intro action hall
    have h0 : s.cart.findIdx? (fun item : CartLine => item.id == p) = none := by
      rw [List.findIdx?_eq_none_iff]; intro y hy; simpa using hall y hy
    simp only [handleGlobalClicks, changeQuantity, h0]

end Handicraft
namespace Handicraft

/-- Witness for C4: the cart with one unit each of products 1 and 2. -/
theorem cart_operations_witness :
    (handleGlobalClicks (run emptyStorage [.addToCart "1", .addToCart "2"]) (.addToCart "2")).cart
      = [{ id := "1", quantity := 1 }, { id := "2", quantity := 2 }] ∧
    (handleGlobalClicks (run emptyStorage [.addToCart "1", .addToCart "2"]) (.addToCart "3")).cart
      = [{ id := "1", quantity := 1 }, { id := "2", quantity := 1 },
         { id := "3", quantity := 1 }] ∧
    (handleGlobalClicks (run emptyStorage [.addToCart "1", .addToCart "2"])
        (.cartQuantity "1" "increase")).cart
      = [{ id := "1", quantity := 2 }, { id := "2", quantity := 1 }] ∧
    (handleGlobalClicks (run emptyStorage [.addToCart "1", .addToCart "2"])
        (.cartQuantity "1" "decrease")).cart
      = [{ id := "2", quantity := 1 }] ∧
    handleGlobalClicks (run emptyStorage [.addToCart "1", .addToCart "2"])
        (.cartQuantity "4" "decrease")
      = run emptyStorage [.addToCart "1", .addToCart "2"] :=
  ⟨(cart_operations (run emptyStorage [.addToCart "1", .addToCart "2"]) "2").1
      [{ id := "1", quantity := 1 }] { id := "2", quantity := 1 } []
      (by decide) (by decide) (by decide) rfl,
   (cart_operations (run emptyStorage [.addToCart "1", .addToCart "2"]) "3").2.1
      (by decide) (by decide),
   (cart_operations (run emptyStorage [.addToCart "1", .addToCart "2"]) "1").2.2.1
      [] { id := "1", quantity := 1 } [{ id := "2", quantity := 1 }]
      (by decide) (by decide) rfl,
   (cart_operations (run emptyStorage [.addToCart "1", .addToCart "2"]) "1").2.2.2.1
      [] { id := "1", quantity := 1 } [{ id := "2", quantity := 1 }]
      (by decide) (by decide) rfl,
   (cart_operations (run emptyStorage [.addToCart "1", .addToCart "2"]) "4").2.2.2.2
      "decrease" (by decide)⟩

/-! ## Wishlist -/

theorem indexOf?_split (w : List String) (id : String) (i : Nat) (h : w.indexOf? id = some i) :
    ∃ pre post, w = pre ++ id :: post ∧ pre.length = i ∧ id ∉ pre := by
  obtain ⟨pre, x, post, h1, h2, h3, h4⟩ := findIdx?_split (fun y => y == id) w i h
  have hx : x = id := by simpa using h3
  subst hx
  refine ⟨pre, post, h1, h2, ?_⟩
  intro hmem
  have := h4 x hmem
  simp at this

theorem indexOf?_none (w : List String) (id : String) (h : w.indexOf? id = none) : id ∉ w := by
  intro hmem
  have h0 : w.findIdx? (fun y => y == id) = none := h
  have := (List.findIdx?_eq_none_iff.mp h0) id hmem
  simp at this

/-- One call of `toggleWishlist` on a duplicate-free wishlist: the result is
duplicate-free, membership of `id` is flipped, membership of the other ids is
kept. -/
theorem toggleWishlist_step (st : Storage) (id : String)
    (hnodup : (mockApi.getWishlist st).Nodup) :
    (mockApi.getWishlist (mockApi.toggleWishlist st id).2).Nodup ∧
    (id ∈ mockApi.getWishlist (mockApi.toggleWishlist st id).2 ↔ id ∉ mockApi.getWishlist st) ∧
    (∀ x, x ≠ id →
      (x ∈ mockApi.getWishlist (mockApi.toggleWishlist st id).2 ↔ x ∈ mockApi.getWishlist st)) := by
  cases hidx : (mockApi.getWishlist st).indexOf? id with
  | none =>
    have hnot := indexOf?_none _ _ hidx
    have hres : mockApi.getWishlist (mockApi.toggleWishlist st id).2
        = mockApi.getWishlist st ++ [id] := by
      simp only [mockApi.toggleWishlist, hidx]
      rfl
    rw [hres]
    refine ⟨?_, ?_, ?_⟩
    · rw [List.nodup_append]
      refine ⟨hnodup, List.nodup_singleton id, ?_⟩
      intro a ha hb
      simp at hb
      exact hnot (hb ▸ ha)
    · simp [hnot]
    · intro x hx
      simp [hx]
  | some i =>
    obtain ⟨pre, post, hw, hlen, hpre⟩ := indexOf?_split _ _ _ hidx
    have hres : mockApi.getWishlist (mockApi.toggleWishlist st id).2 = pre ++ post := by
      simp only [mockApi.toggleWishlist, hidx]
      show (mockApi.getWishlist st).eraseIdx i = pre ++ post
      rw [hw, ← hlen, eraseIdx_split]
    rw [hres]
    rw [hw] at hnodup ⊢
    have hnd := hnodup
    rw [List.nodup_append] at hnd
    obtain ⟨h1, h2, h3⟩ := hnd
    have hpost : id ∉ post := (List.nodup_cons.mp h2).1
    refine ⟨?_, ?_, ?_⟩
    · rw [List.nodup_append]
      exact ⟨h1, (List.nodup_cons.mp h2).2, fun a ha hb => h3 ha (List.mem_cons_of_mem _ hb)⟩
    · simp [hpre, hpost]
    · intro x hx
      simp [hx]

end Handicraft
namespace Handicraft

/-- After `n` calls on a duplicate-free wishlist: still duplicate-free, the
other ids keep their membership, and membership of `id` is the original one
for even `n` and the opposite one for odd `n`. -/
theorem toggleWishlistTimes_membership (st : Storage) (id : String)
    (hnodup : (mockApi.getWishlist st).Nodup) :
    ∀ n : Nat,
      (mockApi.getWishlist (toggleWishlistTimes st id n)).Nodup ∧
      (∀ x, x ≠ id →
        (x ∈ mockApi.getWishlist (toggleWishlistTimes st id n) ↔ x ∈ mockApi.getWishlist st)) ∧
      (n % 2 = 0 →
        (id ∈ mockApi.getWishlist (toggleWishlistTimes st id n) ↔ id ∈ mockApi.getWishlist st)) ∧
      (n % 2 = 1 →
        (id ∈ mockApi.getWishlist (toggleWishlistTimes st id n) ↔ id ∉ mockApi.getWishlist st)) := by
  intro n
  induction n with
  | zero =>
    refine ⟨hnodup, fun x _ => Iff.rfl, fun _ => Iff.rfl, fun h => ?_⟩
    omega
  | succ n ih =>
    obtain ⟨hnd, hother, heven, hodd⟩ := ih
    obtain ⟨s1, s2, s3⟩ := toggleWishlist_step (toggleWishlistTimes st id n) id hnd
    refine ⟨s1, ?_, ?_, ?_⟩
    · intro x hx
      exact (s3 x hx).trans (hother x hx)
    · intro hn
      have hn1 : n % 2 = 1 := by omega
      show id ∈ mockApi.getWishlist (mockApi.toggleWishlist (toggleWishlistTimes st id n) id).2 ↔ _
      rw [s2, hodd hn1, not_not]
    · intro hn
      have hn0 : n % 2 = 0 := by omega
      show id ∈ mockApi.getWishlist (mockApi.toggleWishlist (toggleWishlistTimes st id n) id).2 ↔ _
      rw [s2, heven hn0]

/-- C5 as stated fails when the stored wishlist has a repeated id: with
`["1", "1"]` stored, one toggle of product 1 removes only the first
occurrence, so product 1 is a member before and after; and two toggles leave
an empty wishlist, which is not the original set. -/
theorem toggleWishlist_duplicates_counterexample :
    ¬ (("1" ∈ mockApi.getWishlist (toggleWishlistTimes duplicateWishlistStorage "1" 1)
          ↔ "1" ∉ mockApi.getWishlist duplicateWishlistStorage)) ∧
    ¬ (∀ x, x ∈ mockApi.getWishlist (toggleWishlistTimes duplicateWishlistStorage "1" 2)
          ↔ x ∈ mockApi.getWishlist duplicateWishlistStorage) := by
  constructor
  · decide
  · intro h
    exact absurd ((h "1").mpr (by decide)) (by decide)

/-- C5 (amended): for a stored wishlist without repeated ids, toggling `id` an
even number of times leaves a wishlist with the same members, and toggling it
an odd number of times leaves a wishlist in which `id` is a member exactly
when it was not one before and every other id keeps its membership. -/
theorem toggleWishlist_parity (st : Storage) (id : String) (k : Nat)
    (hnodup : (mockApi.getWishlist st).Nodup) :
    (∀ x, x ∈ mockApi.getWishlist (toggleWishlistTimes st id (2 * k))
        ↔ x ∈ mockApi.getWishlist st) ∧
    (id ∈ mockApi.getWishlist (toggleWishlistTimes st id (2 * k + 1))
        ↔ id ∉ mockApi.getWishlist st) ∧
    (∀ x, x ≠ id →
      (x ∈ mockApi.getWishlist (toggleWishlistTimes st id (2 * k + 1))
        ↔ x ∈ mockApi.getWishlist st)) := by
  obtain ⟨-, e2, e3, -⟩ := toggleWishlistTimes_membership st id hnodup (2 * k)
  obtain ⟨-, o2, -, o4⟩ := toggleWishlistTimes_membership st id hnodup (2 * k + 1)
  refine ⟨?_, o4 (by omega), o2⟩
  intro x
  by_cases hx : x = id
  · subst hx
    exact e3 (by omega)
  · exact e2 x hx

/-- Witness for C5 (amended): the stored wishlist `["1", "2"]` and product 2,
toggled four and five times. -/
theorem toggleWishlist_parity_witness :
    (mockApi.getWishlist { emptyStorage with wishlist := some ["1", "2"] }).Nodup ∧
    (∀ x, x ∈ mockApi.getWishlist
          (toggleWishlistTimes { emptyStorage with wishlist := some ["1", "2"] } "2" (2 * 2))
        ↔ x ∈ mockApi.getWishlist { emptyStorage with wishlist := some ["1", "2"] }) ∧
    ("2" ∈ mockApi.getWishlist
          (toggleWishlistTimes { emptyStorage with wishlist := some ["1", "2"] } "2" (2 * 2 + 1))
        ↔ "2" ∉ mockApi.getWishlist { emptyStorage with wishlist := some ["1", "2"] }) :=
  ⟨by decide,
   (toggleWishlist_parity { emptyStorage with wishlist := some ["1", "2"] } "2" 2 (by decide)).1,
   (toggleWishlist_parity { emptyStorage with wishlist := some ["1", "2"] } "2" 2 (by decide)).2.1⟩

end Handicraft
namespace Handicraft

/-! ## Authentication -/

theorem find?_email_none (users : List User) (email : String) :
    users.find? (fun u => u.email == email) = none ↔ ∀ u ∈ users, u.email ≠ email := by
  rw [List.find?_eq_none]
  constructor
  · intro h u hu; simpa using h u hu
  · intro h u hu; simpa using h u hu

theorem registerUser_rejects_iff (st : Storage) (email password : String) :
    (∃ msg, (mockApi.registerUser st email password).1 = .error msg) ↔
      ∃ u ∈ mockApi._getFromStorage st.users, u.email = email := by
  cases hfind : (mockApi._getFromStorage st.users).find? (fun u => u.email == email) with
  | none =>
    have hall := (find?_email_none _ _).mp hfind
    simp only [mockApi.registerUser, hfind]
    constructor
    · rintro ⟨msg, hmsg⟩; cases hmsg
    · rintro ⟨u, hu, he⟩; exact absurd he (hall u hu)
  | some u =>
    simp only [mockApi.registerUser, hfind]
    constructor
    · intro _
      exact ⟨u, List.mem_of_find?_eq_some hfind, by simpa using List.find?_some hfind⟩
    · intro _
      exact ⟨_, rfl⟩

theorem registerUser_new (st : Storage) (email password : String)
    (hnew : ∀ u ∈ mockApi._getFromStorage st.users, u.email ≠ email) :
    mockApi.registerUser st email password
      = (.ok "Registration successful!",
         { st with users := some (mockApi._getFromStorage st.users
                                    ++ [{ email := email, password := password }]) }) := by
  have hfind := (find?_email_none _ _).mpr hnew
  simp only [mockApi.registerUser, hfind]

theorem registerUser_existing (st : Storage) (email password : String)
    (hold : ∃ u ∈ mockApi._getFromStorage st.users, u.email = email) :
    mockApi.registerUser st email password
      = (.error "User with this email already exists.", st) := by
  cases hfind : (mockApi._getFromStorage st.users).find? (fun u => u.email == email) with
  | none =>
    obtain ⟨u, hu, he⟩ := hold
    exact absurd he ((find?_email_none _ _).mp hfind u hu)
  | some u => simp only [mockApi.registerUser, hfind]

theorem loginUser_found (st : Storage) (email password : String) (user : User)
    (h : (mockApi._getFromStorage st.users).find?
        (fun u => u.email == email && u.password == password) = some user) :
    mockApi.loginUser st email password = (.ok user, { st with currentUser := some user }) := by
  simp only [mockApi.loginUser, h]

theorem loginUser_not_found (st : Storage) (email password : String)
    (h : (mockApi._getFromStorage st.users).find?
        (fun u => u.email == email && u.password == password) = none) :
    mockApi.loginUser st email password = (.error "Invalid email or password.", st) := by
  simp only [mockApi.loginUser, h]

/-- C6: `registerUser(email, password)` rejects exactly when the stored users
list has a user with that email; when it resolves, the list stored under
`users` is the previous list followed by `{ email, password }`. -/
theorem registerUser_rejects_iff_duplicate (st : Storage) (email password : String) :
    ((∃ msg, (mockApi.registerUser st email password).1 = .error msg) ↔
      ∃ u ∈ mockApi._getFromStorage st.users, u.email = email) ∧
    (∀ msg, (mockApi.registerUser st email password).1 = .ok msg →
      (mockApi.registerUser st email password).2.users
        = some (mockApi._getFromStorage st.users ++ [{ email := email, password := password }])) := by
  refine ⟨registerUser_rejects_iff st email password, ?_⟩
  intro msg hmsg
  by_cases hold : ∃ u ∈ mockApi._getFromStorage st.users, u.email = email
  · rw [registerUser_existing st email password hold] at hmsg
    cases hmsg
  · have hnew : ∀ u ∈ mockApi._getFromStorage st.users, u.email ≠ email := by
      intro u hu he; exact hold ⟨u, hu, he⟩
    rw [registerUser_new st email password hnew]

end Handicraft
namespace Handicraft

/-- Witness for C6: registering a new email next to one stored user. -/
theorem registerUser_rejects_iff_duplicate_witness :
    (mockApi.registerUser
        { emptyStorage with users := some [{ email := "a@x.in", password := "secret1" }] }
        "b@x.in" "secret2").1 = .ok "Registration successful!" ∧
    (mockApi.registerUser
        { emptyStorage with users := some [{ email := "a@x.in", password := "secret1" }] }
        "b@x.in" "secret2").2.users
      = some [{ email := "a@x.in", password := "secret1" },
              { email := "b@x.in", password := "secret2" }] :=
  ⟨rfl,
   (registerUser_rejects_iff_duplicate
      { emptyStorage with users := some [{ email := "a@x.in", password := "secret1" }] }
      "b@x.in" "secret2").2 "Registration successful!" rfl⟩

/-- C7: when the stored users do not contain `email` and `pw2` differs from
`pw`, `registerUser(email, pw)` resolves, a following
`registerUser(email, pw2)` rejects as a duplicate, after that
`loginUser(email, pw2)` rejects, and `loginUser(email, pw)` still resolves
with the record holding the original password. -/
theorem register_twice_keeps_password (st : Storage) (email pw pw2 : String)
    (hnew : ∀ u ∈ mockApi._getFromStorage st.users, u.email ≠ email) (hne : pw2 ≠ pw) :
    (mockApi.registerUser st email pw).1 = .ok "Registration successful!" ∧
    (mockApi.registerUser (mockApi.registerUser st email pw).2 email pw2).1
      = .error "User with this email already exists." ∧
    (mockApi.loginUser
        (mockApi.registerUser (mockApi.registerUser st email pw).2 email pw2).2 email pw2).1
      = .error "Invalid email or password." ∧
    (mockApi.loginUser
        (mockApi.loginUser
          (mockApi.registerUser (mockApi.registerUser st email pw).2 email pw2).2
          email pw2).2 email pw).1
      = .ok { email := email, password := pw } := by
  have h1 := registerUser_new st email pw hnew
  have hmem : ∃ u ∈ mockApi._getFromStorage (mockApi.registerUser st email pw).2.users,
      u.email = email := by
    rw [h1]
    exact ⟨{ email := email, password := pw }, by simp [mockApi._getFromStorage], rfl⟩
  have h2 := registerUser_existing (mockApi.registerUser st email pw).2 email pw2 hmem
  have husers : mockApi._getFromStorage (mockApi.registerUser st email pw).2.users
      = mockApi._getFromStorage st.users ++ [{ email := email, password := pw }] := by
    rw [h1]; rfl
  have hpre : ∀ u ∈ mockApi._getFromStorage st.users, ∀ p : String,
      (u.email == email && u.password == p) = false := by
    intro u hu p
    have := hnew u hu
    simp [this]
  have hfind2 : (mockApi._getFromStorage (mockApi.registerUser st email pw).2.users).find?
      (fun u => u.email == email && u.password == pw2) = none := by
    rw [List.find?_eq_none, husers]
    intro u hu
    rcases List.mem_append.mp hu with hu | hu
    · simp [hpre u hu pw2]
    · simp at hu; subst hu; simp [Ne.symm hne]
  have hfind1 : (mockApi._getFromStorage (mockApi.registerUser st email pw).2.users).find?
      (fun u => u.email == email && u.password == pw)
        = some { email := email, password := pw } := by
    rw [husers, List.find?_append, List.find?_eq_none.mpr]
    · simp
    · intro u hu; simp [hpre u hu pw]
  have h3 := loginUser_not_found (mockApi.registerUser st email pw).2 email pw2 hfind2
  have h4 := loginUser_found (mockApi.registerUser st email pw).2 email pw _ hfind1
  rw [h2, h3, h4, h1]
  exact ⟨rfl, rfl, rfl, rfl⟩

/-- Witness for C7: a fresh browser. -/
theorem register_twice_keeps_password_witness :
    (∀ u ∈ mockApi._getFromStorage emptyStorage.users, u.email ≠ "a@x.in") ∧ "other2" ≠ "secret1" ∧
    (mockApi.loginUser
        (mockApi.registerUser (mockApi.registerUser emptyStorage "a@x.in" "secret1").2
          "a@x.in" "other2").2 "a@x.in" "other2").1
      = .error "Invalid email or password." :=
  ⟨by decide, by decide,
   (register_twice_keeps_password emptyStorage "a@x.in" "secret1" "other2"
      (by decide) (by decide)).2.2.1⟩

/-- C8: `loginUser(email, password)` resolves exactly when the stored users
list has a record with that email and that password; it then resolves with
the first such record of the list, stores that record under `currentUser`,
and `getCurrentUser()` returns it. -/
theorem loginUser_resolves_iff_match (st : Storage) (email password : String) :
    ((∃ user, (mockApi.loginUser st email password).1 = .ok user) ↔
      ∃ u ∈ mockApi._getFromStorage st.users, u.email = email ∧ u.password = password) ∧
    (∀ user, (mockApi.loginUser st email password).1 = .ok user →
      (∃ pre post, mockApi._getFromStorage st.users = pre ++ user :: post ∧
        (∀ u ∈ pre, ¬ (u.email = email ∧ u.password = password)) ∧
        user.email = email ∧ user.password = password) ∧
      (mockApi.loginUser st email password).2.currentUser = some user ∧
      mockApi.getCurrentUser (mockApi.loginUser st email password).2 = .user user) := by
  cases hfind : (mockApi._getFromStorage st.users).find?
      (fun u => u.email == email && u.password == password) with
  | none =>
    rw [loginUser_not_found st email password hfind]
    have hall := List.find?_eq_none.mp hfind
    refine ⟨⟨?_, ?_⟩, ?_⟩
    · rintro ⟨user, hu⟩; cases hu
    · rintro ⟨u, hu, he, hp⟩
      exact absurd (by simp [he, hp]) (hall u hu)
    · intro user hu; cases hu
  | some found =>
    rw [loginUser_found st email password found hfind]
    obtain ⟨hp, pre, post, hsplit, hpre⟩ := List.find?_eq_some.mp hfind
    have hfound : found.email = email ∧ found.password = password := by simpa using hp
    refine ⟨⟨fun _ => ⟨found, ?_, hfound⟩, fun _ => ⟨found, rfl⟩⟩, ?_⟩
    · rw [hsplit]; simp
    · intro user hu
      have huser : found = user := by injection hu
      subst huser
      refine ⟨⟨pre, post, hsplit, ?_, hfound⟩, rfl, rfl⟩
      intro u hu hc
      have := hpre u hu
      simp [hc.1, hc.2] at this

/-- Witness for C8: two stored users, logging in as the second. -/
theorem loginUser_resolves_iff_match_witness :
    mockApi.getCurrentUser
        (mockApi.loginUser
          { emptyStorage with users := some [{ email := "a@x.in", password := "secret1" },
                                             { email := "b@x.in", password := "secret2" }] }
          "b@x.in" "secret2").2
      = .user { email := "b@x.in", password := "secret2" } :=
  ((loginUser_resolves_iff_match
      { emptyStorage with users := some [{ email := "a@x.in", password := "secret1" },
                                         { email := "b@x.in", password := "secret2" }] }
      "b@x.in" "secret2").2 { email := "b@x.in", password := "secret2" } rfl).2.2

/-- C9: a rejected `registerUser` and a rejected `loginUser` return with the
storage exactly as it was before the call (every key, in particular `users`
and `currentUser`). -/
theorem rejected_authentication_keeps_storage (st : Storage) (email password : String) :
    (∀ msg, (mockApi.registerUser st email password).1 = .error msg →
      (mockApi.registerUser st email password).2 = st) ∧
    (∀ msg, (mockApi.loginUser st email password).1 = .error msg →
      (mockApi.loginUser st email password).2 = st) := by
  constructor
  · intro msg hmsg
    by_cases hold : ∃ u ∈ mockApi._getFromStorage st.users, u.email = email
    · rw [registerUser_existing st email password hold]
    · have hnew : ∀ u ∈ mockApi._getFromStorage st.users, u.email ≠ email := by
        intro u hu he; exact hold ⟨u, hu, he⟩
      rw [registerUser_new st email password hnew] at hmsg
      cases hmsg
  · intro msg hmsg
    cases hfind : (mockApi._getFromStorage st.users).find?
        (fun u => u.email == email && u.password == password) with
    | none => rw [loginUser_not_found st email password hfind]
    | some found =>
      rw [loginUser_found st email password found hfind] at hmsg
      cases hmsg

/-- Witness for C9: a duplicate registration and a login with a wrong
password, with a user logged in beforehand. -/
theorem rejected_authentication_keeps_storage_witness :
    (mockApi.registerUser
        { emptyStorage with
          users := some [{ email := "a@x.in", password := "secret1" }]
          currentUser := some { email := "a@x.in", password := "secret1" } }
        "a@x.in" "other2").2
      = { emptyStorage with
          users := some [{ email := "a@x.in", password := "secret1" }]
          currentUser := some { email := "a@x.in", password := "secret1" } } ∧
    (mockApi.loginUser
        { emptyStorage with
          users := some [{ email := "a@x.in", password := "secret1" }]
          currentUser := some { email := "a@x.in", password := "secret1" } }
        "a@x.in" "other2").2
      = { emptyStorage with
          users := some [{ email := "a@x.in", password := "secret1" }]
          currentUser := some { email := "a@x.in", password := "secret1" } } :=
  ⟨(rejected_authentication_keeps_storage
      { emptyStorage with
        users := some [{ email := "a@x.in", password := "secret1" }]
        currentUser := some { email := "a@x.in", password := "secret1" } }
      "a@x.in" "other2").1 "User with this email already exists." rfl,
   (rejected_authentication_keeps_storage
      { emptyStorage with
        users := some [{ email := "a@x.in", password := "secret1" }]
        currentUser := some { email := "a@x.in", password := "secret1" } }
      "a@x.in" "other2").2 "Invalid email or password." rfl⟩

/-- C10: after `logoutUser()` no user is stored under `currentUser`,
`getCurrentUser()` returns the fallback `[]`, both forms of the storefront's
authentication guard treat that value (and the `null` the logout button
assigns to the session variable) as logged out, and every other key is as it
was. -/
theorem logout_clears_current_user (st : Storage) (s : AppState) :
    (mockApi.logoutUser st).currentUser = none ∧
    mockApi.getCurrentUser (mockApi.logoutUser st) = .emptyArray ∧
    loggedOutGuard (mockApi.getCurrentUser (mockApi.logoutUser st)) = true ∧
    loggedInGuard (mockApi.getCurrentUser (mockApi.logoutUser st)) = false ∧
    loggedOutGuard (logoutButtonClick s).currentUser = true ∧
    loggedInGuard (logoutButtonClick s).currentUser = false ∧
    mockApi.getCurrentUser (logoutButtonClick s).storage = .emptyArray ∧
    (mockApi.logoutUser st).products = st.products ∧
    (mockApi.logoutUser st).blogPosts = st.blogPosts ∧
    (mockApi.logoutUser st).users = st.users ∧
    (mockApi.logoutUser st).reviews = st.reviews ∧
    (mockApi.logoutUser st).wishlist = st.wishlist ∧
    (mockApi.logoutUser st).artisanalCraftsCart = st.artisanalCraftsCart :=
  ⟨rfl, rfl, rfl, rfl, rfl, rfl, rfl, rfl, rfl, rfl, rfl, rfl, rfl⟩

end Handicraft
namespace Handicraft

/-! ## Reviews: deletion and posting -/

/-- A filter keeps, for every element that passes the test, exactly as many
copies as the list had. -/
theorem count_filter_of_pos {α : Type} [DecidableEq α] (p : α → Bool) (l : List α) (a : α)
    (h : p a = true) : (l.filter p).count a = l.count a :=
  List.count_filter h

/-- C11: `deleteReview(productId, comment)` stores a list that is a
subsequence of the previous reviews (so the survivors keep their relative
order), contains no review matching both arguments, and contains every review
that differs in `productId` or in `comment` exactly as often as before; in
particular deleting ("p1", "nice") keeps a review on "p1" with another
comment and a review with the same comment on another product. -/
theorem deleteReview_removes_exact_matches (st : Storage) (productId comment : String) :
    (adminApi.getReviews (adminApi.deleteReview st productId comment)).Sublist
        (adminApi.getReviews st) ∧
    (∀ r ∈ adminApi.getReviews (adminApi.deleteReview st productId comment),
        ¬ (r.productId = productId ∧ r.comment = comment)) ∧
    (∀ r : Review, ¬ (r.productId = productId ∧ r.comment = comment) →
        (adminApi.getReviews (adminApi.deleteReview st productId comment)).count r
          = (adminApi.getReviews st).count r) ∧
    adminApi.getReviews
        (adminApi.deleteReview
          { emptyStorage with
            reviews := some [sampleReview "p1" "nice", sampleReview "p1" "fine",
                             sampleReview "p2" "nice", sampleReview "p1" "nice"] }
          "p1" "nice")
      = [sampleReview "p1" "fine", sampleReview "p2" "nice"] := by
  refine ⟨?_, ?_, ?_, by decide⟩
  · exact List.filter_sublist _
  · intro r hr
    have h := (List.mem_filter.mp hr).2
    intro hc
    simp [hc.1, hc.2] at h
  · intro r hr
    apply count_filter_of_pos
    by_cases h1 : r.productId = productId
    · have h2 : r.comment ≠ comment := fun h2 => hr ⟨h1, h2⟩
      simp [h1, h2]
    · simp [h1]

end Handicraft
namespace Handicraft

/-- Witness for C11: four stored reviews, two of them matching ("p1", "nice"). -/
theorem deleteReview_removes_exact_matches_witness :
    ¬ ((sampleReview "p1" "fine").productId = "p1" ∧ (sampleReview "p1" "fine").comment = "nice") ∧
    (adminApi.getReviews
        (adminApi.deleteReview
          { emptyStorage with
            reviews := some [sampleReview "p1" "nice", sampleReview "p1" "fine",
                             sampleReview "p2" "nice", sampleReview "p1" "nice"] }
          "p1" "nice")).count (sampleReview "p1" "fine")
      = (adminApi.getReviews
          { emptyStorage with
            reviews := some [sampleReview "p1" "nice", sampleReview "p1" "fine",
                             sampleReview "p2" "nice", sampleReview "p1" "nice"] }).count
          (sampleReview "p1" "fine") :=
  ⟨by decide,
   (deleteReview_removes_exact_matches
      { emptyStorage with
        reviews := some [sampleReview "p1" "nice", sampleReview "p1" "fine",
                         sampleReview "p2" "nice", sampleReview "p1" "nice"] }
      "p1" "nice").2.2.1 (sampleReview "p1" "fine") (by decide)⟩

/-- C20: `postReview` stores the previous reviews followed by one new record
with the four arguments and the current date, and returns the reviews that
`getReviews(productId)` returned before the call followed by the new record,
which are exactly the stored reviews of that product. -/
theorem postReview_appends (st : Storage) (today productId userName rating comment : String) :
    mockApi._getFromStorage (mockApi.postReview st today productId userName rating comment).2.reviews
      = mockApi._getFromStorage st.reviews ++
          [{ productId := productId, userName := userName, rating := rating,
             comment := comment, date := today }] ∧
    (mockApi.postReview st today productId userName rating comment).1
      = mockApi.getReviews st productId ++
          [{ productId := productId, userName := userName, rating := rating,
             comment := comment, date := today }] ∧
    (mockApi.postReview st today productId userName rating comment).1
      = mockApi.getReviews (mockApi.postReview st today productId userName rating comment).2
          productId ∧
    (mockApi.postReview st today productId userName rating comment).1
      = (mockApi._getFromStorage
          (mockApi.postReview st today productId userName rating comment).2.reviews).filter
          (fun r => r.productId == productId) := by
  refine ⟨rfl, ?_, rfl, rfl⟩
  simp [mockApi.postReview, mockApi.getReviews, mockApi._getFromStorage, List.filter_append]

/-! ## Admin lists: update, delete, add -/

theorem map_replace_length {α : Type} (f : α → α) (l : List α) : (l.map f).length = l.length :=
  List.length_map l f

/-- C16: `updateProduct(u)` and `updateBlogPost(u)` store a list of the same
length in which every position holds `u` when the record that was there has
id `u.id` and the previous record otherwise; when no stored record has id
`u.id` the list read back is the previous one. -/
theorem update_replaces_matching (st : Storage) (u : Product) (v : BlogPost) :
    ((adminApi.getProducts (adminApi.updateProduct st u)).length
        = (adminApi.getProducts st).length ∧
      (∀ i : Nat, (adminApi.getProducts (adminApi.updateProduct st u)).get? i
        = ((adminApi.getProducts st).get? i).map (fun p => if p.id = u.id then u else p)) ∧
      ((∀ p ∈ adminApi.getProducts st, p.id ≠ u.id) →
        adminApi.getProducts (adminApi.updateProduct st u) = adminApi.getProducts st)) ∧
    ((adminApi.getBlogPosts (adminApi.updateBlogPost st v)).length
        = (adminApi.getBlogPosts st).length ∧
      (∀ i : Nat, (adminApi.getBlogPosts (adminApi.updateBlogPost st v)).get? i
        = ((adminApi.getBlogPosts st).get? i).map (fun p => if p.id = v.id then v else p)) ∧
      ((∀ p ∈ adminApi.getBlogPosts st, p.id ≠ v.id) →
        adminApi.getBlogPosts (adminApi.updateBlogPost st v) = adminApi.getBlogPosts st)) := by
  refine ⟨⟨?_, ?_, ?_⟩, ⟨?_, ?_, ?_⟩⟩
  · exact map_replace_length _ _
  · intro i
    show ((adminApi.getProducts st).map _).get? i = _
    simp [List.get?_eq_getElem?]
  · intro h
    show (adminApi.getProducts st).map _ = _
    conv_rhs => rw [← List.map_id (adminApi.getProducts st)]
    apply List.map_congr_left
    intro p hp
    simp [h p hp]
  · exact map_replace_length _ _
  · intro i
    show ((adminApi.getBlogPosts st).map _).get? i = _
    simp [List.get?_eq_getElem?]
  · intro h
    show (adminApi.getBlogPosts st).map _ = _
    conv_rhs => rw [← List.map_id (adminApi.getBlogPosts st)]
    apply List.map_congr_left
    intro p hp
    simp [h p hp]

end Handicraft
namespace Handicraft

/-- Witness for C16: two stored products, an update for the second and an
update for an id that is not stored. -/
theorem update_replaces_matching_witness :
    adminApi.getProducts
        (adminApi.updateProduct
          { emptyStorage with products := some [sampleProduct "1" "Vase" 10,
                                                sampleProduct "2" "Bowl" 20] }
          (sampleProduct "2" "Plate" 30))
      = [sampleProduct "1" "Vase" 10, sampleProduct "2" "Plate" 30] ∧
    (∀ p ∈ adminApi.getProducts
        { emptyStorage with products := some [sampleProduct "1" "Vase" 10,
                                              sampleProduct "2" "Bowl" 20] },
      p.id ≠ (sampleProduct "3" "Plate" 30).id) ∧
    adminApi.getProducts
        (adminApi.updateProduct
          { emptyStorage with products := some [sampleProduct "1" "Vase" 10,
                                                sampleProduct "2" "Bowl" 20] }
          (sampleProduct "3" "Plate" 30))
      = adminApi.getProducts
          { emptyStorage with products := some [sampleProduct "1" "Vase" 10,
                                                sampleProduct "2" "Bowl" 20] } ∧
    (∀ p ∈ adminApi.getBlogPosts emptyStorage, p.id ≠ (samplePost "7" "Looms").id) ∧
    adminApi.getBlogPosts (adminApi.updateBlogPost emptyStorage (samplePost "7" "Looms"))
      = adminApi.getBlogPosts emptyStorage :=
  ⟨by decide, by decide,
   (update_replaces_matching
      { emptyStorage with products := some [sampleProduct "1" "Vase" 10,
                                            sampleProduct "2" "Bowl" 20] }
      (sampleProduct "3" "Plate" 30) (samplePost "7" "Looms")).1.2.2 (by decide),
   by decide,
   (update_replaces_matching emptyStorage (sampleProduct "3" "Plate" 30)
      (samplePost "7" "Looms")).2.2.2 (by decide)⟩

/-- What filtering out one key does to a list: the result is a subsequence,
holds no record with the key, holds every other record as often as before, is
the list itself when the key does not occur, and is not changed by filtering
again. -/
theorem filter_key_ne {α : Type} [DecidableEq α] (key : α → String) (k : String) (l : List α) :
    (l.filter (fun x => key x != k)).Sublist l ∧
    (∀ x ∈ l.filter (fun x => key x != k), key x ≠ k) ∧
    (∀ x : α, key x ≠ k → (l.filter (fun x => key x != k)).count x = l.count x) ∧
    ((∀ x ∈ l, key x ≠ k) → l.filter (fun x => key x != k) = l) ∧
    (l.filter (fun x => key x != k)).filter (fun x => key x != k)
      = l.filter (fun x => key x != k) := by
  refine ⟨List.filter_sublist _, ?_, ?_, ?_, ?_⟩
  · intro x hx
    simpa using (List.mem_filter.mp hx).2
  · intro x hx
    exact count_filter_of_pos _ l x (by simpa using hx)
  · intro h
    rw [List.filter_eq_self]
    intro x hx
    simpa using h x hx
  · rw [List.filter_filter]
    simp

/-- C17: `deleteProduct(id)`, `deleteBlogPost(id)` and `deleteUser(email)`
each store a subsequence of the previous list that holds no record with the
key and holds every other record as often as before; when the key does not
occur the list read back is the previous one; and a second deletion of the
same key leaves the storage as the first one left it. -/
theorem delete_removes_key (st : Storage) (id email : String) :
    ((adminApi.getProducts (adminApi.deleteProduct st id)).Sublist (adminApi.getProducts st) ∧
      (∀ p ∈ adminApi.getProducts (adminApi.deleteProduct st id), p.id ≠ id) ∧
      (∀ p : Product, p.id ≠ id →
        (adminApi.getProducts (adminApi.deleteProduct st id)).count p
          = (adminApi.getProducts st).count p) ∧
      ((∀ p ∈ adminApi.getProducts st, p.id ≠ id) →
        adminApi.getProducts (adminApi.deleteProduct st id) = adminApi.getProducts st) ∧
      adminApi.deleteProduct (adminApi.deleteProduct st id) id = adminApi.deleteProduct st id) ∧
    ((adminApi.getBlogPosts (adminApi.deleteBlogPost st id)).Sublist (adminApi.getBlogPosts st) ∧
      (∀ p ∈ adminApi.getBlogPosts (adminApi.deleteBlogPost st id), p.id ≠ id) ∧
      (∀ p : BlogPost, p.id ≠ id →
        (adminApi.getBlogPosts (adminApi.deleteBlogPost st id)).count p
          = (adminApi.getBlogPosts st).count p) ∧
      ((∀ p ∈ adminApi.getBlogPosts st, p.id ≠ id) →
        adminApi.getBlogPosts (adminApi.deleteBlogPost st id) = adminApi.getBlogPosts st) ∧
      adminApi.deleteBlogPost (adminApi.deleteBlogPost st id) id
        = adminApi.deleteBlogPost st id) ∧
    ((adminApi.getUsers (adminApi.deleteUser st email)).Sublist (adminApi.getUsers st) ∧
      (∀ u ∈ adminApi.getUsers (adminApi.deleteUser st email), u.email ≠ email) ∧
      (∀ u : User, u.email ≠ email →
        (adminApi.getUsers (adminApi.deleteUser st email)).count u
          = (adminApi.getUsers st).count u) ∧
      ((∀ u ∈ adminApi.getUsers st, u.email ≠ email) →
        adminApi.getUsers (adminApi.deleteUser st email) = adminApi.getUsers st) ∧
      adminApi.deleteUser (adminApi.deleteUser st email) email = adminApi.deleteUser st email) := by
  obtain ⟨a1, a2, a3, a4, a5⟩ := filter_key_ne (fun p : Product => p.id) id (adminApi.getProducts st)
  obtain ⟨b1, b2, b3, b4, b5⟩ :=
    filter_key_ne (fun p : BlogPost => p.id) id (adminApi.getBlogPosts st)
  obtain ⟨c1, c2, c3, c4, c5⟩ := filter_key_ne (fun u : User => u.email) email (adminApi.getUsers st)
  refine ⟨⟨a1, a2, a3, a4, ?_⟩, ⟨b1, b2, b3, b4, ?_⟩, ⟨c1, c2, c3, c4, ?_⟩⟩
  · show ({ adminApi.deleteProduct st id with products := _ } : Storage) = _
    simp only [adminApi.deleteProduct, adminApi.getProducts, adminApi._get]
    exact congrArg (fun l => ({ st with products := some l } : Storage)) a5
  · show ({ adminApi.deleteBlogPost st id with blogPosts := _ } : Storage) = _
    simp only [adminApi.deleteBlogPost, adminApi.getBlogPosts, adminApi._get]
    exact congrArg (fun l => ({ st with blogPosts := some l } : Storage)) b5
  · show ({ adminApi.deleteUser st email with users := _ } : Storage) = _
    simp only [adminApi.deleteUser, adminApi.getUsers, adminApi._get]
    exact congrArg (fun l => ({ st with users := some l } : Storage)) c5

end Handicraft
namespace Handicraft

/-- Witness for C17: deleting product 2 of two products, and deleting an id,
a post id and an email that are not stored. -/
theorem delete_removes_key_witness :
    (sampleProduct "1" "Vase" 10).id ≠ "2" ∧
    (adminApi.getProducts
        (adminApi.deleteProduct
          { emptyStorage with products := some [sampleProduct "1" "Vase" 10,
                                                sampleProduct "2" "Bowl" 20] } "2")).count
        (sampleProduct "1" "Vase" 10)
      = (adminApi.getProducts
          { emptyStorage with products := some [sampleProduct "1" "Vase" 10,
                                                sampleProduct "2" "Bowl" 20] }).count
          (sampleProduct "1" "Vase" 10) ∧
    adminApi.getProducts (adminApi.deleteProduct oneProductStorage "3")
      = adminApi.getProducts oneProductStorage ∧
    adminApi.getBlogPosts (adminApi.deleteBlogPost onePostStorage "3")
      = adminApi.getBlogPosts onePostStorage ∧
    adminApi.getUsers
        (adminApi.deleteUser
          { emptyStorage with users := some [{ email := "a@x.in", password := "secret1" }] }
          "b@x.in")
      = adminApi.getUsers
          { emptyStorage with users := some [{ email := "a@x.in", password := "secret1" }] } :=
  ⟨by decide,
   (delete_removes_key
      { emptyStorage with products := some [sampleProduct "1" "Vase" 10,
                                            sampleProduct "2" "Bowl" 20] }
      "2" "b@x.in").1.2.2.1 (sampleProduct "1" "Vase" 10) (by decide),
   (delete_removes_key oneProductStorage "3" "b@x.in").1.2.2.2.1 (by decide),
   (delete_removes_key onePostStorage "3" "b@x.in").2.1.2.2.2.1 (by decide),
   (delete_removes_key
      { emptyStorage with users := some [{ email := "a@x.in", password := "secret1" }] }
      "3" "b@x.in").2.2.2.2.2.1 (by decide)⟩

/-- C19: after `addProduct(p)` (likewise `addBlogPost`), the list read back is
the previous list followed by one new last element, which is `p` with its id
set to the decimal string of the clock value; so every earlier position holds
the record it held before. -/
theorem add_appends_last (st : Storage) (now : Nat) (p : Product) (b : BlogPost) :
    adminApi.getProducts (adminApi.addProduct st now p)
      = adminApi.getProducts st ++ [{ p with id := toString now }] ∧
    (∀ i : Nat, i < (adminApi.getProducts st).length →
      (adminApi.getProducts (adminApi.addProduct st now p)).get? i
        = (adminApi.getProducts st).get? i) ∧
    adminApi.getBlogPosts (adminApi.addBlogPost st now b)
      = adminApi.getBlogPosts st ++ [{ b with id := toString now }] ∧
    (∀ i : Nat, i < (adminApi.getBlogPosts st).length →
      (adminApi.getBlogPosts (adminApi.addBlogPost st now b)).get? i
        = (adminApi.getBlogPosts st).get? i) := by
  refine ⟨rfl, ?_, rfl, ?_⟩
  · intro i hi
    show (adminApi.getProducts st ++ _).get? i = _
    simp [List.get?_eq_getElem?, List.getElem?_append_left hi]
  · intro i hi
    show (adminApi.getBlogPosts st ++ _).get? i = _
    simp [List.get?_eq_getElem?, List.getElem?_append_left hi]

/-- Witness for C19: adding a second product at clock value 1718445600001. -/
theorem add_appends_last_witness :
    0 < (adminApi.getProducts oneProductStorage).length ∧
    (adminApi.getProducts
        (adminApi.addProduct oneProductStorage 1718445600001 (sampleProduct "" "Bowl" 20))).get? 0
      = (adminApi.getProducts oneProductStorage).get? 0 :=
  ⟨by decide,
   (add_appends_last oneProductStorage 1718445600001 (sampleProduct "" "Bowl" 20)
      (samplePost "" "Dyes")).2.1 0 (by decide)⟩

/-- The part of C18 that the code keeps: updates and deletions keep stored ids
pairwise distinct, an add keeps them distinct when the clock string is not
already a stored id, and the ids of the records that stay are the ids they
had (an update puts `u` only where the id already was `u.id`). -/
theorem ids_distinct_without_collision (st : Storage) (now : Nat) (p u : Product) (id : String)
    (h : ((adminApi.getProducts st).map (fun q => q.id)).Nodup) :
    ((adminApi.getProducts (adminApi.updateProduct st u)).map (fun q => q.id)
        = (adminApi.getProducts st).map (fun q => q.id)) ∧
    ((adminApi.getProducts (adminApi.deleteProduct st id)).map (fun q => q.id)).Nodup ∧
    (toString now ∉ (adminApi.getProducts st).map (fun q => q.id) →
      ((adminApi.getProducts (adminApi.addProduct st now p)).map (fun q => q.id)).Nodup) := by
  refine ⟨?_, ?_, ?_⟩
  · show ((adminApi.getProducts st).map _).map _ = _
    rw [List.map_map]
    apply List.map_congr_left
    intro q _
    by_cases hq : q.id = u.id
    · simp [hq]
    · simp [hq]
  · exact List.Nodup.sublist (List.Sublist.map _ (List.filter_sublist _)) h
  · intro hfresh
    show ((adminApi.getProducts st ++ _).map _).Nodup
    rw [List.map_append, List.nodup_append]
    refine ⟨h, by simp, ?_⟩
    intro a ha hb
    simp at hb
    exact hfresh (hb ▸ ha)

/-- C18, evaluated where it fails: with one product stored whose id is
"1718445600000", an `addProduct` during which `Date.now()` is 1718445600000
stores two products with that id, although the ids were pairwise distinct
before; `addBlogPost` does the same with posts. -/
theorem add_with_colliding_clock_duplicates_id :
    ((adminApi.getProducts oneProductStorage).map (fun q => q.id)).Nodup ∧
    (adminApi.getProducts
        (adminApi.addProduct oneProductStorage 1718445600000 (sampleProduct "" "Bowl" 20))).map
        (fun q => q.id)
      = ["1718445600000", "1718445600000"] ∧
    ¬ ((adminApi.getProducts
        (adminApi.addProduct oneProductStorage 1718445600000 (sampleProduct "" "Bowl" 20))).map
        (fun q => q.id)).Nodup ∧
    ((adminApi.getBlogPosts onePostStorage).map (fun q => q.id)).Nodup ∧
    ¬ ((adminApi.getBlogPosts
        (adminApi.addBlogPost onePostStorage 1718445600000 (samplePost "" "Dyes"))).map
        (fun q => q.id)).Nodup := by
  refine ⟨by decide, by decide, by decide, by decide, by decide⟩

end Handicraft
namespace Handicraft

/-! ## Heap lemmas -/

theorem Heap.read_alloc_new (h : Heap) (items : List Product) :
    (h.alloc items).1.read (h.alloc items).2 = items := by
  simp [Heap.alloc, Heap.read, List.get?_eq_getElem?]

theorem Heap.read_alloc_old (h : Heap) (items : List Product) (ref : Nat) (hr : ref < h.size) :
    (h.alloc items).1.read ref = h.read ref := by
  have hr2 : ref < h.arrays.length := hr
  simp [Heap.alloc, Heap.read, List.get?_eq_getElem?, List.getElem?_append_left hr2]

theorem Heap.size_alloc (h : Heap) (items : List Product) :
    (h.alloc items).1.size = h.size + 1 := by
  simp [Heap.alloc, Heap.size]

theorem Heap.ref_alloc (h : Heap) (items : List Product) : (h.alloc items).2 = h.size := rfl

theorem Heap.read_write_same (h : Heap) (items : List Product) (ref : Nat) (hr : ref < h.size) :
    (h.write ref items).read ref = items := by
  have hr2 : ref < h.arrays.length := hr
  simp [Heap.write, Heap.read, List.get?_eq_getElem?, hr2]

theorem Heap.read_write_other (h : Heap) (items : List Product) (ref other : Nat)
    (hne : ref ≠ other) : (h.write ref items).read other = h.read other := by
  simp [Heap.write, Heap.read, List.get?_eq_getElem?, List.getElem?_set_ne hne]

theorem Heap.size_write (h : Heap) (items : List Product) (ref : Nat) :
    (h.write ref items).size = h.size := by
  simp [Heap.write, Heap.size]

end Handicraft
namespace Handicraft

/-! ## The shop page -/

theorem FreshArray.start (h0 : Heap) (items : List Product) :
    FreshArray h0 (h0.alloc items) items :=
  ⟨le_refl _, by rw [Heap.size_alloc, Heap.ref_alloc]; omega, Heap.read_alloc_new h0 items,
   fun ref hr => Heap.read_alloc_old h0 items ref hr⟩

theorem FreshArray.alloc (h0 : Heap) (cur : Heap × Nat) (items next : List Product)
    (h : FreshArray h0 cur items) : FreshArray h0 (cur.1.alloc next) next := by
  obtain ⟨h1, h2, -, h4⟩ := h
  refine ⟨?_, ?_, Heap.read_alloc_new _ _, ?_⟩
  · rw [Heap.ref_alloc]; omega
  · rw [Heap.size_alloc, Heap.ref_alloc]; omega
  · intro ref hr
    rw [Heap.read_alloc_old _ _ _ (by omega)]
    exact h4 ref hr

theorem FreshArray.write (h0 : Heap) (cur : Heap × Nat) (items next : List Product)
    (h : FreshArray h0 cur items) : FreshArray h0 (cur.1.write cur.2 next, cur.2) next := by
  obtain ⟨h1, h2, -, h4⟩ := h
  refine ⟨h1, ?_, Heap.read_write_same _ _ _ h2, ?_⟩
  · show cur.2 < (cur.1.write cur.2 next).size
    rw [Heap.size_write]; exact h2
  · intro ref hr
    show (cur.1.write cur.2 next).read ref = _
    rw [Heap.read_write_other _ _ _ _ (by omega)]
    exact h4 ref hr

/-- What one call of `displayProducts` leaves behind: the grid shows the
filtered and sorted value of `allShopItems`, and every array that existed
before the call has the contents it had. -/
theorem displayProducts_effect (toLowerCase : String → String)
    (localeCompare : String → String → Int) (page : ShopPage)
    (categoryFilter searchInput sortBy : String) :
    (displayProducts toLowerCase localeCompare page categoryFilter searchInput sortBy).shopGrid
      = sortedValue localeCompare sortBy
          (filteredValue toLowerCase categoryFilter searchInput (page.heap.read page.allShopItems)) ∧
    (∀ ref, ref < page.heap.size →
      (displayProducts toLowerCase localeCompare page categoryFilter searchInput sortBy).heap.read ref
        = page.heap.read ref) ∧
    (displayProducts toLowerCase localeCompare page categoryFilter searchInput sortBy).products
      = page.products ∧
    (displayProducts toLowerCase localeCompare page categoryFilter searchInput sortBy).allShopItems
      = page.allShopItems ∧
    page.heap.size
      ≤ (displayProducts toLowerCase localeCompare page categoryFilter searchInput sortBy).heap.size := by
  have s0 := FreshArray.start page.heap (page.heap.read page.allShopItems)
  -- after the category filter
  have s1 : ∃ cur, cur = (if categoryFilter ≠ "all" then
        (page.heap.alloc (page.heap.read page.allShopItems)).1.alloc
          (((page.heap.alloc (page.heap.read page.allShopItems)).1.read
            (page.heap.alloc (page.heap.read page.allShopItems)).2).filter
            (fun item => item.category == categoryFilter))
      else page.heap.alloc (page.heap.read page.allShopItems)) ∧
      FreshArray page.heap cur
        (if categoryFilter ≠ "all" then
          (page.heap.read page.allShopItems).filter (fun item => item.category == categoryFilter)
         else page.heap.read page.allShopItems) := by
    refine ⟨_, rfl, ?_⟩
    by_cases hc : categoryFilter ≠ "all"
    · rw [if_pos hc, if_pos hc, s0.2.2.1]
      exact FreshArray.alloc _ _ _ _ s0
    · rw [if_neg hc, if_neg hc]
      exact s0
  obtain ⟨cur1, hcur1, f1⟩ := s1
  have s2 : ∃ cur, cur = (if toLowerCase searchInput ≠ "" then
        cur1.1.alloc ((cur1.1.read cur1.2).filter
          (fun item => includes (toLowerCase item.name) (toLowerCase searchInput)))
      else cur1) ∧
      FreshArray page.heap cur
        (filteredValue toLowerCase categoryFilter searchInput (page.heap.read page.allShopItems)) := by
    refine ⟨_, rfl, ?_⟩
    unfold filteredValue
    by_cases hs : toLowerCase searchInput ≠ ""
    · simp only [if_pos hs, f1.2.2.1]
      exact FreshArray.alloc _ _ _ _ f1
    · simp only [if_neg hs]
      exact f1
  obtain ⟨cur2, hcur2, f2⟩ := s2
  have hgrid : displayProducts toLowerCase localeCompare page categoryFilter searchInput sortBy
      = { page with
          heap := (match sortComparator localeCompare sortBy with
            | some compare => cur2.1.write cur2.2 (sortWith compare (cur2.1.read cur2.2))
            | none => cur2.1)
          shopGrid := (match sortComparator localeCompare sortBy with
            | some compare => cur2.1.write cur2.2 (sortWith compare (cur2.1.read cur2.2))
            | none => cur2.1).read cur2.2
          noProductsMessage := ((match sortComparator localeCompare sortBy with
            | some compare => cur2.1.write cur2.2 (sortWith compare (cur2.1.read cur2.2))
            | none => cur2.1).read cur2.2).length == 0 } := by
    rw [hcur2, hcur1]
    rfl
  rw [hgrid]
  unfold sortedValue
  cases hcmp : sortComparator localeCompare sortBy with
  | none =>
    refine ⟨f2.2.2.1, f2.2.2.2, rfl, rfl, ?_⟩
    exact le_of_lt (lt_of_le_of_lt f2.1 f2.2.1)
  | some compare =>
    have f3 := FreshArray.write _ _ _ (sortWith compare (cur2.1.read cur2.2)) f2
    refine ⟨?_, f3.2.2.2, rfl, rfl, le_of_lt (lt_of_le_of_lt f3.1 f3.2.1)⟩
    show (cur2.1.write cur2.2 (sortWith compare (cur2.1.read cur2.2))).read cur2.2 = _
    rw [f3.2.2.1, f2.2.2.1]

end Handicraft
namespace Handicraft

theorem includesChars_iff (s t : List Char) :
    includesChars s t = true ↔ ∃ a b, s = a ++ t ++ b := by
  induction s with
  | nil =>
    simp only [includesChars, List.isEmpty_iff]
    constructor
    · intro h; exact ⟨[], [], by simp [h]⟩
    · rintro ⟨a, b, h⟩
      have h2 := congrArg List.length h
      simp at h2
      exact List.length_eq_zero.mp (by omega)
  | cons c cs ih =>
    simp only [includesChars, Bool.or_eq_true, ih, List.isPrefixOf_iff_prefix]
    constructor
    · rintro (⟨b, hb⟩ | ⟨a, b, hab⟩)
      · exact ⟨[], b, by simp [hb]⟩
      · exact ⟨c :: a, b, by simp [hab]⟩
    · rintro ⟨a, b, hab⟩
      cases a with
      | nil => left; exact ⟨b, by simpa using hab.symm⟩
      | cons x a =>
        right
        simp only [List.cons_append, List.cons.injEq] at hab
        exact ⟨a, b, hab.2⟩

theorem filteredValue_eq_filter (toLowerCase : String → String) (category searchInput : String)
    (items : List Product) :
    filteredValue toLowerCase category searchInput items
      = items.filter (shopKeeps toLowerCase category searchInput) := by
  unfold filteredValue
  by_cases hc : category = "all"
  · by_cases hs : toLowerCase searchInput = ""
    · simp only [hc, hs, ne_eq, not_true_eq_false, if_false]
      symm
      rw [List.filter_eq_self]
      intro a _
      simp [shopKeeps, hs]
    · simp only [hc, hs, ne_eq, not_true_eq_false, not_false_eq_true, if_false, if_true]
      apply List.filter_congr
      intro a _
      simp [shopKeeps, hs]
  · by_cases hs : toLowerCase searchInput = ""
    · simp only [hc, hs, ne_eq, not_true_eq_false, not_false_eq_true, if_false, if_true]
      apply List.filter_congr
      intro a _
      simp [shopKeeps, hc, hs]
    · simp only [hc, hs, ne_eq, not_false_eq_true, if_true, List.filter_filter]
      apply List.filter_congr
      intro a _
      have h1 : (category == "all") = false := beq_eq_false_iff_ne.mpr hc
      have h2 : (toLowerCase searchInput == "") = false := beq_eq_false_iff_ne.mpr hs
      simp only [shopKeeps, h1, h2, Bool.false_or]
      exact Bool.and_comm _ _

theorem sortedValue_perm (localeCompare : String → String → Int) (sortBy : String)
    (items : List Product) : (sortedValue localeCompare sortBy items).Perm items := by
  unfold sortedValue
  cases sortComparator localeCompare sortBy with
  | none => exact List.Perm.refl _
  | some compare => exact List.perm_insertionSort _ _

theorem sortedValue_singleton (localeCompare : String → String → Int) (sortBy : String)
    (item : Product) : sortedValue localeCompare sortBy [item] = [item] := by
  unfold sortedValue
  cases sortComparator localeCompare sortBy with
  | none => rfl
  | some compare => rfl

end Handicraft
namespace Handicraft

theorem sortedValue_nil (localeCompare : String → String → Int) (sortBy : String) :
    sortedValue localeCompare sortBy [] = [] := by
  unfold sortedValue
  cases sortComparator localeCompare sortBy with
  | none => rfl
  | some compare => rfl

/-- The grid of the first render is the sorted filter result of the
catalogue. -/
theorem initShopPage_grid (toLowerCase : String → String)
    (localeCompare : String → String → Int) (catalogue : List Product)
    (categoryFilter searchInput sortBy : String) :
    (initShopPage toLowerCase localeCompare catalogue categoryFilter searchInput sortBy).shopGrid
      = sortedValue localeCompare sortBy
          (filteredValue toLowerCase categoryFilter searchInput catalogue) := by
  have h := (displayProducts_effect toLowerCase localeCompare
    { heap := ({ arrays := [catalogue] } : Heap).alloc
        (({ arrays := [catalogue] } : Heap).read 0) |>.1,
      products := 0,
      allShopItems := ({ arrays := [catalogue] } : Heap).alloc
        (({ arrays := [catalogue] } : Heap).read 0) |>.2,
      shopGrid := [], noProductsMessage := false } categoryFilter searchInput sortBy).1
  show (displayProducts toLowerCase localeCompare _ categoryFilter searchInput sortBy).shopGrid = _
  rw [h]
  rfl

/-- The filters give the same result for two lower-casing functions that
agree on the search input and on the names of the products. -/
theorem filteredValue_congr (f g : String → String) (category searchInput : String)
    (items : List Product) (hs : f searchInput = g searchInput)
    (hn : ∀ item ∈ items, f item.name = g item.name) :
    filteredValue f category searchInput items = filteredValue g category searchInput items := by
  rw [filteredValue_eq_filter, filteredValue_eq_filter]
  apply List.filter_congr
  intro item hitem
  simp only [shopKeeps, hs, hn item hitem]

theorem seeded_names_ascii :
    ∀ item ∈ mockApi._products, item.name.data.all (fun c => c.toNat < 128) = true := by
  decide

/-- On the seeded catalogue a lower-casing function that is right on ASCII
text filters as `asciiLowerCase` does, for an ASCII search input. -/
theorem seeded_filteredValue (toLowerCase : String → String) (hascii : AsciiFaithful toLowerCase)
    (category searchInput : String)
    (hs : searchInput.data.all (fun c => c.toNat < 128) = true) :
    filteredValue toLowerCase category searchInput mockApi._products
      = filteredValue asciiLowerCase category searchInput mockApi._products :=
  filteredValue_congr toLowerCase asciiLowerCase category searchInput mockApi._products
    (hascii searchInput hs) (fun item hitem => hascii item.name (seeded_names_ascii item hitem))

set_option maxRecDepth 100000 in
/-- On the seeded catalogue, category "apparel" and search term "scarf" keep
the first product only; every category and the search term "BASKET" keep the
third product only; category "apparel" and search term "vase" keep none. -/
theorem seeded_filters :
    filteredValue asciiLowerCase "apparel" "scarf" mockApi._products = mockApi._products.take 1 ∧
    filteredValue asciiLowerCase "all" "BASKET" mockApi._products
      = (mockApi._products.drop 2).take 1 ∧
    filteredValue asciiLowerCase "apparel" "vase" mockApi._products = [] := by
  refine ⟨by decide, by decide, by decide⟩

/-- C14: for the browser's `toLowerCase`, whatever it does to a string, the
products `displayProducts` shows are, up to the order the sort option gives
them, exactly the products of `allShopItems` that pass `shopKeeps` (each as
often as it occurs); a product passes when its category is the selected one
or the selection is "all", and the lower-cased search term is empty or occurs
as a contiguous block in its lower-cased name.  When `toLowerCase` lower-cases
ASCII text as JavaScript does, then on the seeded catalogue, whatever the sort
option: category "apparel" and search term "scarf" leave one product in the
grid, the Handwoven Cotton Scarf with id "1"; every category and the search
term "BASKET" leave the Bamboo Basket Set with id "3" only; category
"apparel" and search term "vase" leave nothing. -/
theorem shop_filter_keeps_matching (toLowerCase : String → String)
    (localeCompare : String → String → Int) (page : ShopPage)
    (categoryFilter searchInput sortBy : String) :
    ((displayProducts toLowerCase localeCompare page categoryFilter searchInput sortBy).shopGrid).Perm
        ((page.heap.read page.allShopItems).filter (shopKeeps toLowerCase categoryFilter searchInput)) ∧
    (∀ item : Product, shopKeeps toLowerCase categoryFilter searchInput item = true ↔
        (categoryFilter = "all" ∨ item.category = categoryFilter) ∧
        (toLowerCase searchInput = "" ∨
          ∃ a b, (toLowerCase item.name).data = a ++ (toLowerCase searchInput).data ++ b)) ∧
    (∀ item : Product,
        item ∈ (displayProducts toLowerCase localeCompare page categoryFilter searchInput sortBy).shopGrid ↔
          item ∈ page.heap.read page.allShopItems ∧
          (categoryFilter = "all" ∨ item.category = categoryFilter) ∧
          (toLowerCase searchInput = "" ∨
            ∃ a b, (toLowerCase item.name).data = a ++ (toLowerCase searchInput).data ++ b)) ∧
    (AsciiFaithful toLowerCase →
      (initShopPage toLowerCase localeCompare mockApi._products "apparel" "scarf" sortBy).shopGrid.map
          (fun p => (p.id, p.name))
        = [("1", "Handwoven Cotton Scarf")] ∧
      (initShopPage toLowerCase localeCompare mockApi._products "all" "BASKET" sortBy).shopGrid.map
          (fun p => (p.id, p.name))
        = [("3", "Bamboo Basket Set")] ∧
      (initShopPage toLowerCase localeCompare mockApi._products "apparel" "vase" sortBy).shopGrid
        = []) := by
  have hperm : ((displayProducts toLowerCase localeCompare page categoryFilter searchInput sortBy).shopGrid).Perm
      ((page.heap.read page.allShopItems).filter (shopKeeps toLowerCase categoryFilter searchInput)) := by
    rw [(displayProducts_effect toLowerCase localeCompare page categoryFilter searchInput sortBy).1,
      filteredValue_eq_filter]
    exact sortedValue_perm _ _ _
  have hkeeps : ∀ item : Product, shopKeeps toLowerCase categoryFilter searchInput item = true ↔
      (categoryFilter = "all" ∨ item.category = categoryFilter) ∧
      (toLowerCase searchInput = "" ∨
        ∃ a b, (toLowerCase item.name).data = a ++ (toLowerCase searchInput).data ++ b) := by
    intro item
    simp only [shopKeeps, includes, Bool.and_eq_true, Bool.or_eq_true, beq_iff_eq,
      includesChars_iff]
  refine ⟨hperm, hkeeps, ?_, ?_⟩
  · intro item
    rw [hperm.mem_iff, List.mem_filter, hkeeps]
  · intro hascii
    obtain ⟨hscarf, hbasket, hvase⟩ := seeded_filters
    refine ⟨?_, ?_, ?_⟩
    · rw [initShopPage_grid, seeded_filteredValue toLowerCase hascii "apparel" "scarf" (by decide),
        hscarf]
      show (sortedValue localeCompare sortBy [_]).map _ = _
      rw [sortedValue_singleton]
      rfl
    · rw [initShopPage_grid, seeded_filteredValue toLowerCase hascii "all" "BASKET" (by decide),
        hbasket]
      show (sortedValue localeCompare sortBy [_]).map _ = _
      rw [sortedValue_singleton]
      rfl
    · rw [initShopPage_grid, seeded_filteredValue toLowerCase hascii "apparel" "vase" (by decide),
        hvase]
      exact sortedValue_nil _ _

/-- Witness for C14: the ASCII lower-casing, which is right on ASCII text,
on the seeded catalogue sorted by falling price. -/
theorem shop_filter_keeps_matching_witness :
    AsciiFaithful asciiLowerCase ∧
    (initShopPage asciiLowerCase (fun _ _ => 0) mockApi._products "apparel" "scarf"
        "price-desc").shopGrid.map (fun p => (p.id, p.name))
      = [("1", "Handwoven Cotton Scarf")] ∧
    (initShopPage asciiLowerCase (fun _ _ => 0) mockApi._products "all" "BASKET"
        "price-desc").shopGrid.map (fun p => (p.id, p.name))
      = [("3", "Bamboo Basket Set")] :=
  ⟨fun _ _ => rfl,
   ((shop_filter_keeps_matching asciiLowerCase (fun _ _ => 0)
      (initShopPage asciiLowerCase (fun _ _ => 0) mockApi._products "all" "" "")
      "all" "" "price-desc").2.2.2 (fun _ _ => rfl)).1,
   ((shop_filter_keeps_matching asciiLowerCase (fun _ _ => 0)
      (initShopPage asciiLowerCase (fun _ _ => 0) mockApi._products "all" "" "")
      "all" "" "price-desc").2.2.2 (fun _ _ => rfl)).2.1⟩

/-- C15: a call of `displayProducts`, for any category, search term, sort
option and collation, leaves the array behind `mockApi._products` and the
array behind `allShopItems` with the contents (elements and order) they had,
keeps both references, and keeps every array allocated before the call. -/
theorem displayProducts_keeps_sources (toLowerCase : String → String)
    (localeCompare : String → String → Int) (page : ShopPage)
    (categoryFilter searchInput sortBy : String)
    (hproducts : page.products < page.heap.size)
    (hitems : page.allShopItems < page.heap.size) :
    (displayProducts toLowerCase localeCompare page categoryFilter searchInput sortBy).heap.read
        (displayProducts toLowerCase localeCompare page categoryFilter searchInput sortBy).products
      = page.heap.read page.products ∧
    (displayProducts toLowerCase localeCompare page categoryFilter searchInput sortBy).heap.read
        (displayProducts toLowerCase localeCompare page categoryFilter searchInput sortBy).allShopItems
      = page.heap.read page.allShopItems ∧
    (displayProducts toLowerCase localeCompare page categoryFilter searchInput sortBy).products
        < (displayProducts toLowerCase localeCompare page categoryFilter searchInput sortBy).heap.size ∧
    (displayProducts toLowerCase localeCompare page categoryFilter searchInput sortBy).allShopItems
        < (displayProducts toLowerCase localeCompare page categoryFilter searchInput sortBy).heap.size := by
  obtain ⟨-, hold, hp, ha, hsize⟩ :=
    displayProducts_effect toLowerCase localeCompare page categoryFilter searchInput sortBy
  rw [hp, ha]
  exact ⟨hold _ hproducts, hold _ hitems, lt_of_lt_of_le hproducts hsize,
    lt_of_lt_of_le hitems hsize⟩

/-- Witness for C15: the shop page after its initial render on the seeded
catalogue, then sorted by descending price. -/
theorem displayProducts_keeps_sources_witness :
    (initShopPage asciiLowerCase (fun _ _ => 0) mockApi._products "all" "" "").products
      < (initShopPage asciiLowerCase (fun _ _ => 0) mockApi._products "all" "" "").heap.size ∧
    (initShopPage asciiLowerCase (fun _ _ => 0) mockApi._products "all" "" "").allShopItems
      < (initShopPage asciiLowerCase (fun _ _ => 0) mockApi._products "all" "" "").heap.size ∧
    (displayProducts asciiLowerCase (fun _ _ => 0) (initShopPage asciiLowerCase (fun _ _ => 0) mockApi._products "all" "" "")
        "all" "" "price-desc").heap.read
        (displayProducts asciiLowerCase (fun _ _ => 0)
          (initShopPage asciiLowerCase (fun _ _ => 0) mockApi._products "all" "" "")
          "all" "" "price-desc").products
      = (initShopPage asciiLowerCase (fun _ _ => 0) mockApi._products "all" "" "").heap.read
          (initShopPage asciiLowerCase (fun _ _ => 0) mockApi._products "all" "" "").products :=
  ⟨by decide, by decide,
   (displayProducts_keeps_sources asciiLowerCase (fun _ _ => 0)
      (initShopPage asciiLowerCase (fun _ _ => 0) mockApi._products "all" "" "") "all" "" "price-desc"
      (by decide) (by decide)).1⟩

end Handicraft
namespace Handicraft

/-! ## Review rendering: the average -/

theorem roundHalfEven_error (y : Rat) : |(roundHalfEven y : Rat) - y| ≤ 1 / 2 := by
  have h1 := Int.floor_le y
  have h2 := Int.lt_floor_add_one y
  unfold roundHalfEven
  rw [abs_le]
  split_ifs with ha hb hc
  · constructor <;> linarith
  · push_cast; constructor <;> linarith
  · have hb2 : y - ⌊y⌋ = 1 / 2 := le_antisymm (not_lt.mp hb) (not_lt.mp ha)
    constructor <;> linarith
  · have hb2 : y - ⌊y⌋ = 1 / 2 := le_antisymm (not_lt.mp hb) (not_lt.mp ha)
    push_cast; constructor <;> linarith

theorem roundHalfEven_nonneg (y : Rat) (hy : 0 ≤ y) : 0 ≤ roundHalfEven y := by
  have h0 : 0 ≤ ⌊y⌋ := Int.floor_nonneg.mpr hy
  unfold roundHalfEven
  split_ifs <;> omega

theorem binary64_nonneg (q : Rat) (hq : 0 ≤ q) : 0 ≤ binary64 q := by
  unfold binary64
  split_ifs with h0
  · exact le_refl _
  · have hs : (0 : Rat) < (2 : Rat) ^ (Int.log 2 |q| - 52) := zpow_pos (by norm_num) _
    have hr := roundHalfEven_nonneg (q / (2 : Rat) ^ (Int.log 2 |q| - 52)) (div_nonneg hq hs.le)
    exact mul_nonneg (by exact_mod_cast hr) hs.le

/-- The rounding error of a binary64 division with a positive exact quotient
`q` is at most `q / 2^53`. -/
theorem binary64_error (q : Rat) (hq : 0 ≤ q) : |binary64 q - q| ≤ q / 2 ^ 53 := by
  unfold binary64
  split_ifs with h0
  · subst h0; norm_num
  · have hpos : 0 < q := lt_of_le_of_ne hq (Ne.symm h0)
    rw [abs_of_pos hpos]
    have hlog : (2 : Rat) ^ Int.log 2 q ≤ q := by
      have := Int.zpow_log_le_self (b := 2) (r := q) (by norm_num) hpos
      simpa using this
    have hs : (0 : Rat) < (2 : Rat) ^ (Int.log 2 q - 52) := zpow_pos (by norm_num) _
    have hscale : (2 : Rat) ^ (Int.log 2 q - 52) = (2 : Rat) ^ Int.log 2 q / 2 ^ 52 := by
      rw [zpow_sub₀ (by norm_num : (2 : Rat) ≠ 0)]
      norm_num
    have herr := roundHalfEven_error (q / (2 : Rat) ^ (Int.log 2 q - 52))
    have hfac : (roundHalfEven (q / (2 : Rat) ^ (Int.log 2 q - 52)) : Rat)
          * (2 : Rat) ^ (Int.log 2 q - 52) - q
        = ((roundHalfEven (q / (2 : Rat) ^ (Int.log 2 q - 52)) : Rat)
            - q / (2 : Rat) ^ (Int.log 2 q - 52)) * (2 : Rat) ^ (Int.log 2 q - 52) := by
      field_simp
    rw [hfac, abs_mul, abs_of_pos hs]
    calc |(roundHalfEven (q / (2 : Rat) ^ (Int.log 2 q - 52)) : Rat)
            - q / (2 : Rat) ^ (Int.log 2 q - 52)| * (2 : Rat) ^ (Int.log 2 q - 52)
        ≤ (1 / 2) * (2 : Rat) ^ (Int.log 2 q - 52) :=
          mul_le_mul_of_nonneg_right herr hs.le
      _ = (2 : Rat) ^ Int.log 2 q / 2 ^ 53 := by rw [hscale]; ring
      _ ≤ q / 2 ^ 53 := by
          apply div_le_div_of_nonneg_right hlog (by norm_num)

/-- The double nearest to 87/20: it lies below 87/20. -/
theorem binary64_tie : binary64 (87 / 20) = 2448832297382707 / 562949953421312 := by
  have hlog : Int.log 2 |(87 / 20 : Rat)| = 2 := by
    rw [abs_of_pos (by norm_num)]
    apply le_antisymm
    · have : Int.log 2 (87 / 20 : Rat) < 3 :=
        (Int.lt_zpow_iff_log_lt (by norm_num) (by norm_num)).mp (by norm_num)
      omega
    · exact (Int.zpow_le_iff_le_log (by norm_num) (by norm_num)).mp (by norm_num)
  have hfloor : ⌊(87 / 20 : Rat) / (2 : Rat) ^ ((2 : ℤ) - 52)⌋ = 4897664594765414 := by
    rw [Int.floor_eq_iff]
    constructor <;> norm_num [zpow_neg]
  have hround : roundHalfEven ((87 / 20 : Rat) / (2 : Rat) ^ ((2 : ℤ) - 52)) = 4897664594765414 := by
    unfold roundHalfEven
    rw [hfloor]
    rw [if_pos]
    norm_num [zpow_neg]
  unfold binary64
  rw [if_neg (by norm_num), hlog, hround]
  norm_num [zpow_neg]

theorem toFixedTenths_tie : toFixedTenths (binary64 (87 / 20)) = 43 := by
  rw [binary64_tie]
  unfold toFixedTenths
  have hfloor : ⌊(10 : Rat) * |(2448832297382707 / 562949953421312 : Rat)| + 1 / 2⌋ = 43 := by
    rw [abs_of_pos (by norm_num), Int.floor_eq_iff]
    constructor <;> norm_num
  rw [hfloor]
  rfl

theorem roundedTenths_tie : roundedTenths (87 / 20) = 44 ∧ roundHalfEven (10 * (87 / 20)) = 44 := by
  have hfloor : ⌊(10 : Rat) * (87 / 20) + 1 / 2⌋ = 44 := by
    rw [Int.floor_eq_iff]
    constructor <;> norm_num
  have hfloor2 : ⌊(10 : Rat) * (87 / 20)⌋ = 43 := by
    rw [Int.floor_eq_iff]
    constructor <;> norm_num
  refine ⟨hfloor, ?_⟩
  unfold roundHalfEven
  rw [hfloor2]
  norm_num

end Handicraft
namespace Handicraft

/-- If a double `x` is within the rounding error of one division of the
quotient `s / n` of two naturals with `0 < n` and `s < 2^48`, then the tenths
`toFixed(1)` prints for `x` are the tenths of the quotient rounded to one
decimal place, except that for a quotient halfway between two tenths they may
also be the tenths below. -/
theorem toFixedTenths_rounds (s n : Nat) (x : Rat) (hn : 0 < n) (hs : s < 2 ^ 48)
    (hx0 : 0 ≤ x) (hx : |x - (s : Rat) / (n : Rat)| ≤ (s : Rat) / (n : Rat) / 2 ^ 53) :
    ((toFixedTenths x : Nat) : Int) = roundedTenths ((s : Rat) / (n : Rat)) ∨
    (((toFixedTenths x : Nat) : Int) + 1 = roundedTenths ((s : Rat) / (n : Rat)) ∧
      ((roundedTenths ((s : Rat) / (n : Rat)) : Int) : Rat) = 10 * ((s : Rat) / (n : Rat)) + 1 / 2) := by
  have hnq : (0 : Rat) < (n : Rat) := by exact_mod_cast hn
  have hsq : (s : Rat) < 2 ^ 48 := by exact_mod_cast hs
  have hs0 : (0 : Rat) ≤ (s : Rat) := by positivity
  have hfloor0 : 0 ≤ ⌊10 * |x| + 1 / 2⌋ := by
    rw [Int.floor_nonneg]; positivity
  have hk : ((toFixedTenths x : Nat) : Int) = ⌊10 * x + 1 / 2⌋ := by
    unfold toFixedTenths
    rw [abs_of_nonneg hx0] at hfloor0 ⊢
    exact Int.toNat_of_nonneg hfloor0
  rw [hk]
  unfold roundedTenths
  set k : ℤ := ⌊10 * x + 1 / 2⌋ with hkdef
  set q : Rat := (s : Rat) / (n : Rat) with hqdef
  set r : ℤ := ⌊10 * q + 1 / 2⌋ with hrdef
  have hk1 : (k : Rat) ≤ 10 * x + 1 / 2 := Int.floor_le _
  have hk2 : 10 * x + 1 / 2 < (k : Rat) + 1 := Int.lt_floor_add_one _
  have hr1 : (r : Rat) ≤ 10 * q + 1 / 2 := Int.floor_le _
  have hr2 : 10 * q + 1 / 2 < (r : Rat) + 1 := Int.lt_floor_add_one _
  have hqn : q * (n : Rat) = (s : Rat) := by
    rw [hqdef]; field_simp
  obtain ⟨hx1, hx2⟩ := abs_le.mp hx
  -- everything multiplied by the number of reviews
  have hX1 : (s : Rat) - (s : Rat) / 2 ^ 53 ≤ x * (n : Rat) := by
    have h1 := mul_le_mul_of_nonneg_right hx1 hnq.le
    have h2 : -(q / 2 ^ 53) * (n : Rat) = -((s : Rat) / 2 ^ 53) := by
      rw [← hqn]; ring
    have h3 : (x - q) * (n : Rat) = x * (n : Rat) - (s : Rat) := by
      rw [← hqn]; ring
    rw [h2, h3] at h1
    linarith
  have hX2 : x * (n : Rat) ≤ (s : Rat) + (s : Rat) / 2 ^ 53 := by
    have h1 := mul_le_mul_of_nonneg_right hx2 hnq.le
    have h2 : q / 2 ^ 53 * (n : Rat) = (s : Rat) / 2 ^ 53 := by
      rw [← hqn]; ring
    have h3 : (x - q) * (n : Rat) = x * (n : Rat) - (s : Rat) := by
      rw [← hqn]; ring
    rw [h2, h3] at h1
    linarith
  have hsmall : 20 * ((s : Rat) / 2 ^ 53) < 1 := by
    have : (s : Rat) / 2 ^ 53 < 2 ^ 48 / 2 ^ 53 :=
      div_lt_div_of_pos_right hsq (by norm_num)
    norm_num at this ⊢
    linarith
  have hxe : (10 * x + 1 / 2) * (n : Rat) = 10 * (x * (n : Rat)) + (n : Rat) / 2 := by ring
  have hqe : (10 * q + 1 / 2) * (n : Rat) = 10 * (s : Rat) + (n : Rat) / 2 := by
    rw [← hqn]; ring
  have hK1 : 2 * (k : Rat) * (n : Rat) ≤ 20 * (x * (n : Rat)) + (n : Rat) := by
    have h1 := mul_le_mul_of_nonneg_right hk1 hnq.le
    rw [hxe] at h1
    linarith
  have hK2 : 20 * (x * (n : Rat)) + (n : Rat) < 2 * ((k : Rat) + 1) * (n : Rat) := by
    have h1 := mul_lt_mul_of_pos_right hk2 hnq
    rw [hxe] at h1
    linarith
  have hR1 : 2 * (r : Rat) * (n : Rat) ≤ 20 * (s : Rat) + (n : Rat) := by
    have h1 := mul_le_mul_of_nonneg_right hr1 hnq.le
    rw [hqe] at h1
    linarith
  have hR2 : 20 * (s : Rat) + (n : Rat) < 2 * ((r : Rat) + 1) * (n : Rat) := by
    have h1 := mul_lt_mul_of_pos_right hr2 hnq
    rw [hqe] at h1
    linarith
  have hR1i : 2 * r * (n : ℤ) ≤ 20 * (s : ℤ) + (n : ℤ) := by exact_mod_cast hR1
  have hR2i : 20 * (s : ℤ) + (n : ℤ) < 2 * (r + 1) * (n : ℤ) := by exact_mod_cast hR2
  have hni : (0 : ℤ) < (n : ℤ) := by exact_mod_cast hn
  -- the printed tenths are not above the rounded ones
  have hle : k ≤ r := by
    have h1 : 2 * (k : Rat) * (n : Rat) < 2 * ((r : Rat) + 1) * (n : Rat) := by
      have h3 : (20 * (s : ℤ) + (n : ℤ) : Rat) + 1 ≤ 2 * ((r : Rat) + 1) * (n : Rat) := by
        have : 20 * (s : ℤ) + (n : ℤ) + 1 ≤ 2 * (r + 1) * (n : ℤ) := by omega
        exact_mod_cast this
      push_cast at h3
      linarith
    have h2 : 2 * k * (n : ℤ) < 2 * (r + 1) * (n : ℤ) := by exact_mod_cast h1
    by_contra hcon
    have h4 : r + 1 ≤ k := by omega
    have := mul_le_mul_of_nonneg_right h4 hni.le
    linarith
  -- and not more than one below
  have hge : r ≤ k + 1 := by
    have h1 : 2 * (r : Rat) * (n : Rat) - 1 < 2 * ((k : Rat) + 1) * (n : Rat) := by linarith
    have h2 : 2 * r * (n : ℤ) - 1 < 2 * (k + 1) * (n : ℤ) := by exact_mod_cast h1
    by_contra hcon
    have h4 : k + 2 ≤ r := by omega
    have := mul_le_mul_of_nonneg_right h4 hni.le
    linarith
  by_cases htie : 2 * r * (n : ℤ) = 20 * (s : ℤ) + (n : ℤ)
  · -- the quotient is halfway between two tenths
    by_cases hkr : k = r
    · exact Or.inl hkr
    · right
      refine ⟨by omega, ?_⟩
      have h1 : 2 * (r : Rat) * (n : Rat) = 20 * (s : Rat) + (n : Rat) := by exact_mod_cast htie
      have h2 : (r : Rat) * (n : Rat) = (10 * q + 1 / 2) * (n : Rat) := by
        rw [hqe]; linarith
      exact mul_right_cancel₀ hnq.ne' h2
  · left
    have h3 : 2 * r * (n : ℤ) + 1 ≤ 20 * (s : ℤ) + (n : ℤ) := by omega
    have h4 : 2 * (r : Rat) * (n : Rat) + 1 ≤ 20 * (s : Rat) + (n : Rat) := by exact_mod_cast h3
    have h1 : 2 * (r : Rat) * (n : Rat) < 2 * ((k : Rat) + 1) * (n : Rat) := by linarith
    have h2 : 2 * r * (n : ℤ) < 2 * (k + 1) * (n : ℤ) := by exact_mod_cast h1
    by_contra hcon
    have h5 : k + 1 ≤ r := by omega
    have := mul_le_mul_of_nonneg_right h5 hni.le
    linarith

/-- Both outcomes of `toFixedTenths_rounds` are within half a tenth of the
mean. -/
theorem tenths_near_mean (tenths : Nat) (mean : Rat)
    (h : (tenths : Int) = roundedTenths mean ∨
      ((tenths : Int) + 1 = roundedTenths mean ∧
        ((roundedTenths mean : Int) : Rat) = 10 * mean + 1 / 2)) :
    |(tenths : Rat) / 10 - mean| ≤ 1 / 20 := by
  have hr1 : ((roundedTenths mean : Int) : Rat) ≤ 10 * mean + 1 / 2 := Int.floor_le _
  have hr2 : 10 * mean + 1 / 2 < ((roundedTenths mean : Int) : Rat) + 1 :=
    Int.lt_floor_add_one _
  rw [abs_le]
  rcases h with h | ⟨h, htie⟩
  · have hc : (tenths : Rat) = ((roundedTenths mean : Int) : Rat) := by exact_mod_cast h
    rw [hc]
    constructor <;> linarith
  · have hc : (tenths : Rat) + 1 = ((roundedTenths mean : Int) : Rat) := by exact_mod_cast h
    constructor <;> linarith

theorem ratingSum_foldl (reviews : List Review)
    (h : ∀ r ∈ reviews, (Number r.rating).isSome = true) :
    ∀ acc : Nat,
      reviews.foldl
        (fun sum r =>
          match sum, Number r.rating with
          | some a, some b => some (a + b)
          | _, _ => none)
        (some acc)
      = some (acc + ratingTotal reviews) := by
  induction reviews with
  | nil => intro acc; simp [ratingTotal]
  | cons r rs ih =>
    intro acc
    obtain ⟨n, hn⟩ := Option.isSome_iff_exists.mp (h r (List.mem_cons_self _ _))
    have ih2 := ih (fun x hx => h x (List.mem_cons_of_mem _ hx)) (acc + n)
    simp only [List.foldl_cons, hn]
    rw [ih2]
    simp [ratingTotal, hn, Nat.add_assoc]

end Handicraft
namespace Handicraft

/-- The summary `renderReviews` writes for a non-empty list of reviews whose
ratings are digit strings: the text built from the tenths `toFixed(1)` prints
for the double nearest to the arithmetic mean. -/
theorem renderReviews_summary (st : Storage) (productId : String)
    (hne : mockApi.getReviews st productId ≠ [])
    (hdigits : ∀ r ∈ mockApi.getReviews st productId, (Number r.rating).isSome = true) :
    (renderReviews st productId).reviewsSummary
      = some ("Average Rating: "
          ++ tenthsText (toFixedTenths (binary64
              ((ratingTotal (mockApi.getReviews st productId) : Rat)
                / ((mockApi.getReviews st productId).length : Rat))))
          ++ "/5 (" ++ toString (mockApi.getReviews st productId).length ++ " reviews)") := by
  have hpos : 0 < (mockApi.getReviews st productId).length := List.length_pos.mpr hne
  have hsum : ratingSum (mockApi.getReviews st productId)
      = some (ratingTotal (mockApi.getReviews st productId)) := by
    have := ratingSum_foldl (mockApi.getReviews st productId) hdigits 0
    simpa [ratingSum] using this
  have hq0 : (0 : Rat) ≤ (ratingTotal (mockApi.getReviews st productId) : Rat)
      / ((mockApi.getReviews st productId).length : Rat) := by positivity
  have hnotneg : ¬ binary64 ((ratingTotal (mockApi.getReviews st productId) : Rat)
      / ((mockApi.getReviews st productId).length : Rat)) < 0 :=
    not_lt.mpr (binary64_nonneg _ hq0)
  simp only [renderReviews, gt_iff_lt, hpos, if_true, hsum, Option.map_some', toFixed1,
    hnotneg, if_false, String.empty_append]

theorem tieRatings_reviews :
    mockApi.getReviews tieRatingsStorage "p1"
        = List.replicate 13 (ratedReview "4") ++ List.replicate 7 (ratedReview "5") ∧
    (∀ r ∈ mockApi.getReviews tieRatingsStorage "p1", (Number r.rating).isSome = true) ∧
    ratingTotal (mockApi.getReviews tieRatingsStorage "p1") = 87 ∧
    (mockApi.getReviews tieRatingsStorage "p1").length = 20 := by
  refine ⟨by decide, by decide, by decide, by decide⟩

/-- C12 as stated fails when the mean lies halfway between two tenths and is
not a binary fraction: for thirteen reviews with the rating 4 and seven with
the rating 5 the mean is 87/20 = 4.35, which rounded to one decimal place is
4.4 (with the tie going up, and with the tie going to the even tenth), but the
double nearest to 87/20 lies below it and the summary shows 4.3. -/
theorem average_rating_counterexample :
    (renderReviews tieRatingsStorage "p1").reviewsSummary
      = some "Average Rating: 4.3/5 (20 reviews)" ∧
    (ratingTotal (mockApi.getReviews tieRatingsStorage "p1") : Rat)
      / ((mockApi.getReviews tieRatingsStorage "p1").length : Rat) = 87 / 20 ∧
    roundedTenths (87 / 20) = 44 ∧
    roundHalfEven (10 * (87 / 20)) = 44 ∧
    tenthsText 44 = "4.4" ∧
    binary64 (87 / 20) < 87 / 20 := by
  obtain ⟨hlist, hdigits, htotal, hlength⟩ := tieRatings_reviews
  have hmean : (ratingTotal (mockApi.getReviews tieRatingsStorage "p1") : Rat)
      / ((mockApi.getReviews tieRatingsStorage "p1").length : Rat) = 87 / 20 := by
    rw [htotal, hlength]; norm_num
  refine ⟨?_, hmean, roundedTenths_tie.1, roundedTenths_tie.2, by decide, ?_⟩
  · rw [renderReviews_summary tieRatingsStorage "p1" (by rw [hlist]; decide) hdigits, hmean,
      toFixedTenths_tie, hlength]
    decide
  · rw [binary64_tie]; norm_num

/-- C12 (amended): for a product with a non-empty list of reviews whose
ratings are strings of decimal digits with a sum below 2^48, `renderReviews`
writes "Average Rating: d.d/5 (n reviews)" where `d.d`, the one-decimal
number `toFixed(1)` prints for the double nearest to the arithmetic mean, is
the mean rounded to one decimal place, except that for a mean exactly halfway
between two one-decimal numbers `d.d` is one of these two; in every case
`d.d` is within half a tenth of the mean; for the ratings 4 and 5 the text is
"Average Rating: 4.5/5 (2 reviews)". -/
theorem average_rating_is_rounded_mean (st : Storage) (productId : String)
    (hne : mockApi.getReviews st productId ≠ [])
    (hdigits : ∀ r ∈ mockApi.getReviews st productId, (Number r.rating).isSome = true)
    (htotal : ratingTotal (mockApi.getReviews st productId) < 2 ^ 48) :
    (∃ tenths : Nat,
      (renderReviews st productId).reviewsSummary
        = some ("Average Rating: " ++ tenthsText tenths ++ "/5 ("
            ++ toString (mockApi.getReviews st productId).length ++ " reviews)") ∧
      tenths = toFixedTenths (binary64
          ((ratingTotal (mockApi.getReviews st productId) : Rat)
            / ((mockApi.getReviews st productId).length : Rat))) ∧
      ((tenths : Int)
          = roundedTenths ((ratingTotal (mockApi.getReviews st productId) : Rat)
              / ((mockApi.getReviews st productId).length : Rat)) ∨
        ((tenths : Int) + 1
            = roundedTenths ((ratingTotal (mockApi.getReviews st productId) : Rat)
                / ((mockApi.getReviews st productId).length : Rat)) ∧
          ((roundedTenths ((ratingTotal (mockApi.getReviews st productId) : Rat)
              / ((mockApi.getReviews st productId).length : Rat)) : Int) : Rat)
            = 10 * ((ratingTotal (mockApi.getReviews st productId) : Rat)
                / ((mockApi.getReviews st productId).length : Rat)) + 1 / 2)) ∧
      |(tenths : Rat) / 10
          - (ratingTotal (mockApi.getReviews st productId) : Rat)
            / ((mockApi.getReviews st productId).length : Rat)| ≤ 1 / 20) ∧
    (renderReviews twoRatingsStorage "p1").reviewsSummary
      = some "Average Rating: 4.5/5 (2 reviews)" := by
  have general : ∀ (st : Storage) (productId : String),
      mockApi.getReviews st productId ≠ [] →
      (∀ r ∈ mockApi.getReviews st productId, (Number r.rating).isSome = true) →
      ratingTotal (mockApi.getReviews st productId) < 2 ^ 48 →
      ((toFixedTenths (binary64
            ((ratingTotal (mockApi.getReviews st productId) : Rat)
              / ((mockApi.getReviews st productId).length : Rat))) : Nat) : Int)
          = roundedTenths ((ratingTotal (mockApi.getReviews st productId) : Rat)
              / ((mockApi.getReviews st productId).length : Rat)) ∨
        (((toFixedTenths (binary64
            ((ratingTotal (mockApi.getReviews st productId) : Rat)
              / ((mockApi.getReviews st productId).length : Rat))) : Nat) : Int) + 1
            = roundedTenths ((ratingTotal (mockApi.getReviews st productId) : Rat)
                / ((mockApi.getReviews st productId).length : Rat)) ∧
          ((roundedTenths ((ratingTotal (mockApi.getReviews st productId) : Rat)
              / ((mockApi.getReviews st productId).length : Rat)) : Int) : Rat)
            = 10 * ((ratingTotal (mockApi.getReviews st productId) : Rat)
                / ((mockApi.getReviews st productId).length : Rat)) + 1 / 2) := by
    intro st productId hne _ htotal
    have hpos : 0 < (mockApi.getReviews st productId).length := List.length_pos.mpr hne
    have hq0 : (0 : Rat) ≤ (ratingTotal (mockApi.getReviews st productId) : Rat)
        / ((mockApi.getReviews st productId).length : Rat) := by positivity
    exact toFixedTenths_rounds _ _ _ hpos htotal (binary64_nonneg _ hq0) (binary64_error _ hq0)
  refine ⟨⟨_, renderReviews_summary st productId hne hdigits, rfl,
    general st productId hne hdigits htotal,
    tenths_near_mean _ _ (general st productId hne hdigits htotal)⟩, ?_⟩
  have hlist : mockApi.getReviews twoRatingsStorage "p1"
      = [ratedReview "4", ratedReview "5"] := by decide
  have hsummary := renderReviews_summary twoRatingsStorage "p1" (by rw [hlist]; decide)
    (by rw [hlist]; decide)
  have hrounds := general twoRatingsStorage "p1" (by rw [hlist]; decide)
    (by rw [hlist]; decide) (by rw [hlist]; decide)
  rw [hlist] at hsummary hrounds
  have htotal2 : ratingTotal [ratedReview "4", ratedReview "5"] = 9 := by decide
  have hlength2 : [ratedReview "4", ratedReview "5"].length = 2 := rfl
  rw [htotal2, hlength2] at hsummary hrounds
  have hmean : ((9 : Nat) : Rat) / ((2 : Nat) : Rat) = 9 / 2 := by norm_num
  rw [hmean] at hsummary hrounds
  have hfloor : roundedTenths (9 / 2) = 45 := by
    unfold roundedTenths
    rw [Int.floor_eq_iff]
    constructor <;> norm_num
  rw [hfloor] at hrounds
  have htenths : toFixedTenths (binary64 (9 / 2)) = 45 := by
    rcases hrounds with h | ⟨_, h⟩
    · exact_mod_cast h
    · norm_num at h
  rw [hsummary, htenths]
  decide

/-- Witness for C12 (amended): the two reviews with ratings 4 and 5. -/
theorem average_rating_is_rounded_mean_witness :
    mockApi.getReviews twoRatingsStorage "p1" ≠ [] ∧
    (∀ r ∈ mockApi.getReviews twoRatingsStorage "p1", (Number r.rating).isSome = true) ∧
    ratingTotal (mockApi.getReviews twoRatingsStorage "p1") < 2 ^ 48 ∧
    (renderReviews twoRatingsStorage "p1").reviewsSummary
      = some "Average Rating: 4.5/5 (2 reviews)" :=
  ⟨by decide, by decide, by decide,
   (average_rating_is_rounded_mean twoRatingsStorage "p1" (by decide) (by decide)
      (by decide)).2⟩

/-- C13: for a product without stored reviews `renderReviews` writes the text
"No reviews yet." as the summary and an empty review list; the summary holds
no average. -/
theorem no_reviews_summary (st : Storage) (productId : String)
    (hnone : mockApi.getReviews st productId = []) :
    (renderReviews st productId).reviewsSummary = some "No reviews yet." ∧
    (renderReviews st productId).reviewsList = some [] ∧
    renderReviews st productId
      = { reviewsSummary := some "No reviews yet.", reviewsList := some [] } := by
  simp [renderReviews, hnone]

/-- Witness for C13: reviews are stored for product "p1" only, and the page
of product "p2" is rendered. -/
theorem no_reviews_summary_witness :
    mockApi.getReviews twoRatingsStorage "p2" = [] ∧
    (renderReviews twoRatingsStorage "p2").reviewsSummary = some "No reviews yet." ∧
    (renderReviews emptyStorage "p2").reviewsList = some [] :=
  ⟨by decide, (no_reviews_summary twoRatingsStorage "p2" (by decide)).1,
   (no_reviews_summary emptyStorage "p2" (by decide)).2.1⟩

end Handicraft
namespace Handicraft

/-! ## Start-up of the session -/

/-- C24, evaluated where it fails: `getCurrentUser()` returns `[]` when no
user is stored, `[]` is truthy, so `currentUser ? getWishlist() : []` reads
the stored wishlist on every page load; with `["1"]` stored and no current
user the session's wishlist is `["1"]`, not empty, while the guards treat the
session as logged out.  With a stored user the wishlist is the stored one. -/
theorem start_loads_wishlist_without_user :
    (∀ st : Storage, (start st).wishlist = mockApi.getWishlist st) ∧
    loggedOutWishlistStorage.currentUser = none ∧
    (start loggedOutWishlistStorage).wishlist = ["1"] ∧
    (start loggedOutWishlistStorage).wishlist ≠ [] ∧
    loggedOutGuard (start loggedOutWishlistStorage).currentUser = true := by
  refine ⟨?_, rfl, by decide, by decide, by decide⟩
  intro st
  cases h : st.currentUser with
  | none => simp [start, updateCartDisplay, mockApi.getCurrentUser, h, CurrentUser.truthy]
  | some u => simp [start, updateCartDisplay, mockApi.getCurrentUser, h, CurrentUser.truthy]

/-! ## Wishlist order -/

/-- C29: for a stored wishlist without repeated ids, `toggleWishlist(id)`
returns the list it stores, that list has no repeated id, and the ids other
than `id` are the same, in the same order, as before. -/
theorem toggleWishlist_keeps_duplicate_free (st : Storage) (id : String)
    (hnodup : (mockApi.getWishlist st).Nodup) :
    (mockApi.toggleWishlist st id).1 = mockApi.getWishlist (mockApi.toggleWishlist st id).2 ∧
    (mockApi.toggleWishlist st id).1.Nodup ∧
    (mockApi.toggleWishlist st id).1.filter (fun x => x != id)
      = (mockApi.getWishlist st).filter (fun x => x != id) := by
  refine ⟨rfl, (toggleWishlist_step st id hnodup).1, ?_⟩
  cases hidx : (mockApi.getWishlist st).indexOf? id with
  | none =>
    simp only [mockApi.toggleWishlist, hidx]
    simp [List.filter_append]
  | some i =>
    obtain ⟨pre, post, hw, hlen, -⟩ := indexOf?_split _ _ _ hidx
    simp only [mockApi.toggleWishlist, hidx]
    rw [hw, ← hlen, eraseIdx_split]
    simp [List.filter_append, List.filter_cons]

/-- Witness for C29: the stored wishlist `["1", "2", "3"]`, toggling product 2. -/
theorem toggleWishlist_keeps_duplicate_free_witness :
    (mockApi.getWishlist { emptyStorage with wishlist := some ["1", "2", "3"] }).Nodup ∧
    (mockApi.toggleWishlist { emptyStorage with wishlist := some ["1", "2", "3"] } "2").1.Nodup ∧
    (mockApi.toggleWishlist { emptyStorage with wishlist := some ["1", "2", "3"] } "2").1.filter
        (fun x => x != "2")
      = (mockApi.getWishlist { emptyStorage with wishlist := some ["1", "2", "3"] }).filter
          (fun x => x != "2") :=
  ⟨by decide,
   (toggleWishlist_keeps_duplicate_free { emptyStorage with wishlist := some ["1", "2", "3"] }
      "2" (by decide)).2.1,
   (toggleWishlist_keeps_duplicate_free { emptyStorage with wishlist := some ["1", "2", "3"] }
      "2" (by decide)).2.2⟩

end Handicraft
namespace Handicraft

/-! ## Cart well-formedness -/

theorem WellFormedCart.of_sublist (small big : List CartLine)
    (hsub : (small.map (fun line => line.id)).Sublist (big.map (fun line => line.id)))
    (h : WellFormedCart big) : WellFormedCart small :=
  ⟨List.Nodup.sublist hsub h.1, fun id hid => h.2 id (hsub.subset hid)⟩

theorem addLine_wellFormed (cart : List CartLine) (id : String)
    (hknown : (mockApi._products.find? (fun p => p.id == id)).isSome = true)
    (h : WellFormedCart cart) : WellFormedCart (addLine cart id) := by
  cases hf : cart.findIdx? (fun item => item.id == id) with
  | none =>
    have hall : ∀ x ∈ cart, x.id ≠ id := by
      intro x hx
      have := (List.findIdx?_eq_none_iff.mp hf) x hx
      simpa using this
    rw [addLine_absent cart id hall]
    refine ⟨?_, ?_⟩
    · rw [List.map_append, List.nodup_append]
      refine ⟨h.1, by simp, ?_⟩
      intro a ha hb
      simp at hb
      obtain ⟨x, hx, hxa⟩ := List.mem_map.mp ha
      exact hall x hx (hxa.trans hb)
    · intro a ha
      rw [List.map_append, List.mem_append] at ha
      rcases ha with ha | ha
      · exact h.2 a ha
      · simp at ha; subst ha; exact hknown
  | some i =>
    obtain ⟨pre, l, post, rfl, -, hid, hpre⟩ := cart_split_of_findIdx? cart id i hf
    rw [addLine_found pre l post id hpre hid]
    apply WellFormedCart.of_sublist _ _ _ h
    simp

theorem changeLine_wellFormed (pre : List CartLine) (l : CartLine) (post : List CartLine)
    (action : String) (h : WellFormedCart (pre ++ l :: post)) :
    WellFormedCart (changeLine (pre ++ l :: post) pre.length action) := by
  apply WellFormedCart.of_sublist _ _ _ h
  by_cases h1 : action = "increase"
  · subst h1
    rw [changeLine_increase]
    simp
  · by_cases h2 : action = "decrease"
    · subst h2
      rw [changeLine_decrease]
      split
      · simp only [List.map_append, List.map_cons]
        exact List.Sublist.append (List.Sublist.refl _) (List.sublist_cons_self _ _)
      · simp
    · rw [changeLine_other _ _ _ h1 h2]

theorem handleGlobalClicks_wellFormed (s : AppState) (c : Click) (h : WellFormedCart s.cart) :
    WellFormedCart (handleGlobalClicks s c).cart := by
  cases c with
  | addToCart id =>
    simp only [handleGlobalClicks, addToCart]
    split
    · rename_i product hfind
      exact addLine_wellFormed _ _ (by rw [hfind]; rfl) h
    · exact h
  | buyNow id =>
    simp only [handleGlobalClicks, buyNow]
    split
    · rename_i product hfind
      exact addLine_wellFormed _ _ (by rw [hfind]; rfl) h
    · exact h
  | cartQuantity id action =>
    simp only [handleGlobalClicks, changeQuantity]
    split
    · rename_i i hf
      obtain ⟨pre, l, post, hc, hlen, -, -⟩ := cart_split_of_findIdx? _ _ _ hf
      show WellFormedCart (changeLine s.cart i action)
      rw [hc, ← hlen]
      exact changeLine_wellFormed pre l post action (hc ▸ h)
    · exact h
  | wishlist id =>
    simp only [handleGlobalClicks, wishlistClick]
    split
    · exact h
    · exact h
  | checkout => exact h

theorem foldl_wellFormed (clicks : List Click) :
    ∀ s : AppState, WellFormedCart s.cart →
      WellFormedCart (clicks.foldl handleGlobalClicks s).cart := by
  induction clicks with
  | nil => intro s h; exact h
  | cons c cs ih => intro s h; exact ih _ (handleGlobalClicks_wellFormed s c h)

/-- The total of `renderCartModal` as a sum over the lines that have a
catalogue product. -/
theorem renderCartModal_filterMap (cart : List CartLine) :
    renderCartModal cart
      = (cart.filterMap (fun line =>
          (mockApi._products.find? (fun p => p.id == line.id)).map
            (fun product => product.price * line.quantity))).sum := by
  have h : renderCartModal cart
      = (cart.map (fun line =>
          match mockApi._products.find? (fun p => p.id == line.id) with
          | none => 0
          | some product => product.price * line.quantity)).sum := by
    unfold renderCartModal
    split
    · rename_i h0
      have : cart = [] := List.length_eq_zero.mp h0
      subst this; rfl
    · rw [foldl_cart_total]; simp
  rw [h]
  clear h
  induction cart with
  | nil => rfl
  | cons x xs ih =>
    cases hx : mockApi._products.find? (fun p => p.id == x.id) with
    | none => simp [List.filterMap_cons, hx, ih]
    | some product => simp [List.filterMap_cons, hx, ih]

/-- C28: starting from an empty stored cart, after any sequence of clicks no
two cart lines have the same id and every line's id is the id of a catalogue
product, so the lookup in `renderCartModal` succeeds for every line: the
lines that enter the total are all the lines of the cart, the same lines
whose quantities the header count adds up. -/
theorem cart_lines_unique_and_known (st : Storage)
    (hempty : mockApi._getFromStorage st.artisanalCraftsCart = []) (clicks : List Click) :
    ((run st clicks).cart.map (fun line => line.id)).Nodup ∧
    (∀ line ∈ (run st clicks).cart,
      ∃ product ∈ mockApi._products, product.id = line.id ∧
        mockApi._products.find? (fun p => p.id == line.id) = some product) ∧
    ((run st clicks).cart.filterMap (fun line =>
        (mockApi._products.find? (fun p => p.id == line.id)).map
          (fun product => product.price * line.quantity))).length
      = (run st clicks).cart.length ∧
    renderCartModal (run st clicks).cart
      = ((run st clicks).cart.filterMap (fun line =>
          (mockApi._products.find? (fun p => p.id == line.id)).map
            (fun product => product.price * line.quantity))).sum ∧
    (run st clicks).cartCountText
      = ((run st clicks).cart.map (fun line => line.quantity)).sum := by
  have hwf : WellFormedCart (run st clicks).cart := by
    apply foldl_wellFormed
    show WellFormedCart (mockApi._getFromStorage st.artisanalCraftsCart)
    rw [hempty]
    exact ⟨List.nodup_nil, fun id hid => by cases hid⟩
  have hknown : ∀ line ∈ (run st clicks).cart,
      ∃ product ∈ mockApi._products, product.id = line.id ∧
        mockApi._products.find? (fun p => p.id == line.id) = some product := by
    intro line hl
    have hsome := hwf.2 line.id (List.mem_map_of_mem _ hl)
    cases hfind : mockApi._products.find? (fun p => p.id == line.id) with
    | none => rw [hfind] at hsome; cases hsome
    | some product =>
      exact ⟨product, List.mem_of_find?_eq_some hfind,
        by simpa using List.find?_some hfind, rfl⟩
  refine ⟨hwf.1, hknown, ?_, renderCartModal_filterMap _,
    (foldl_count clicks _ (updateCartDisplay_count _)).2⟩
  generalize (run st clicks).cart = cart at hknown
  induction cart with
  | nil => rfl
  | cons x xs ih =>
    obtain ⟨product, -, -, hfind⟩ := hknown x (List.mem_cons_self _ _)
    have ih2 := ih (fun line hl => hknown line (List.mem_cons_of_mem _ hl))
    simp [List.filterMap_cons, hfind, ih2]

/-- Witness for C28: a fresh browser, adds of products 1, 2 and 1 again and
of an unknown id, then a decrease of product 2. -/
theorem cart_lines_unique_and_known_witness :
    mockApi._getFromStorage emptyStorage.artisanalCraftsCart = [] ∧
    ((run emptyStorage [.addToCart "1", .buyNow "2", .addToCart "1", .addToCart "9",
        .cartQuantity "2" "decrease"]).cart.map (fun line => line.id)).Nodup :=
  ⟨rfl,
   (cart_lines_unique_and_known emptyStorage rfl
      [.addToCart "1", .buyNow "2", .addToCart "1", .addToCart "9",
       .cartQuantity "2" "decrease"]).1⟩

end Handicraft
namespace Handicraft

/-! ## The shop page: sorting by price -/

theorem sortWith_price_asc (items : List Product) :
    (sortWith (fun a b => a.price - b.price) items).Perm items ∧
    (sortWith (fun a b => a.price - b.price) items).Sorted (fun a b => a.price ≤ b.price) := by
  refine ⟨List.perm_insertionSort _ _, ?_⟩
  haveI : IsTotal Product (fun a b => a.price - b.price ≤ 0) :=
    ⟨fun a b => by
      by_cases h : a.price ≤ b.price
      · left; show a.price - b.price ≤ 0; omega
      · right; show b.price - a.price ≤ 0; omega⟩
  haveI : IsTrans Product (fun a b => a.price - b.price ≤ 0) :=
    ⟨fun a b c (hab : a.price - b.price ≤ 0) (hbc : b.price - c.price ≤ 0) => by
      show a.price - c.price ≤ 0; omega⟩
  have h : List.Pairwise (fun a b : Product => a.price - b.price ≤ 0)
      (sortWith (fun a b => a.price - b.price) items) :=
    List.sorted_insertionSort (fun a b : Product => a.price - b.price ≤ 0) items
  show List.Pairwise (fun a b : Product => a.price ≤ b.price) _
  refine List.Pairwise.imp ?_ h
  intro a b hab
  omega

theorem sortWith_price_desc (items : List Product) :
    (sortWith (fun a b => b.price - a.price) items).Perm items ∧
    (sortWith (fun a b => b.price - a.price) items).Sorted (fun a b => b.price ≤ a.price) := by
  refine ⟨List.perm_insertionSort _ _, ?_⟩
  haveI : IsTotal Product (fun a b => b.price - a.price ≤ 0) :=
    ⟨fun a b => by
      by_cases h : b.price ≤ a.price
      · left; show b.price - a.price ≤ 0; omega
      · right; show a.price - b.price ≤ 0; omega⟩
  haveI : IsTrans Product (fun a b => b.price - a.price ≤ 0) :=
    ⟨fun a b c (hab : b.price - a.price ≤ 0) (hbc : c.price - b.price ≤ 0) => by
      show c.price - a.price ≤ 0; omega⟩
  have h : List.Pairwise (fun a b : Product => b.price - a.price ≤ 0)
      (sortWith (fun a b => b.price - a.price) items) :=
    List.sorted_insertionSort (fun a b : Product => b.price - a.price ≤ 0) items
  show List.Pairwise (fun a b : Product => b.price ≤ a.price) _
  refine List.Pairwise.imp ?_ h
  intro a b hab
  omega

/-- C25: with the sort option "price-asc" (respectively "price-desc") the list
`displayProducts` renders is a permutation of the filtered products in which
prices never decrease (respectively never increase) from one card to the
next; with an option that matches none of the four cases it is the filtered
list itself, in the order of `allShopItems`. -/
theorem price_sort_orders_grid (toLowerCase : String → String)
    (localeCompare : String → String → Int) (page : ShopPage)
    (categoryFilter searchInput sortBy : String) :
    (sortBy = "price-asc" →
      ((displayProducts toLowerCase localeCompare page categoryFilter searchInput sortBy).shopGrid).Perm
          ((page.heap.read page.allShopItems).filter (shopKeeps toLowerCase categoryFilter searchInput)) ∧
      ((displayProducts toLowerCase localeCompare page categoryFilter searchInput sortBy).shopGrid).Sorted
          (fun a b => a.price ≤ b.price)) ∧
    (sortBy = "price-desc" →
      ((displayProducts toLowerCase localeCompare page categoryFilter searchInput sortBy).shopGrid).Perm
          ((page.heap.read page.allShopItems).filter (shopKeeps toLowerCase categoryFilter searchInput)) ∧
      ((displayProducts toLowerCase localeCompare page categoryFilter searchInput sortBy).shopGrid).Sorted
          (fun a b => b.price ≤ a.price)) ∧
    (sortBy ≠ "price-asc" → sortBy ≠ "price-desc" → sortBy ≠ "name-asc" →
      sortBy ≠ "name-desc" →
      (displayProducts toLowerCase localeCompare page categoryFilter searchInput sortBy).shopGrid
        = (page.heap.read page.allShopItems).filter (shopKeeps toLowerCase categoryFilter searchInput)) := by
  have hgrid := (displayProducts_effect toLowerCase localeCompare page categoryFilter searchInput sortBy).1
  rw [filteredValue_eq_filter] at hgrid
  refine ⟨?_, ?_, ?_⟩
  · intro h
    rw [hgrid]
    subst h
    simp only [sortedValue, sortComparator, if_true]
    exact sortWith_price_asc _
  · intro h
    rw [hgrid]
    subst h
    have hne : ¬ ("price-desc" = "price-asc") := by decide
    simp only [sortedValue, sortComparator, hne, if_false, if_true]
    exact sortWith_price_desc _
  · intro h1 h2 h3 h4
    rw [hgrid]
    simp only [sortedValue, sortComparator, h1, h2, h3, h4, if_false]

/-- Witness for C25: the seeded catalogue, unfiltered, sorted by ascending
price, by descending price, and with an unknown sort option. -/
theorem price_sort_orders_grid_witness :
    ((initShopPage asciiLowerCase (fun _ _ => 0) mockApi._products "all" "" "").heap.read
        (initShopPage asciiLowerCase (fun _ _ => 0) mockApi._products "all" "" "").allShopItems).map
        (fun p => p.price) = [699, 1299, 1999, 3499] ∧
    ((displayProducts asciiLowerCase (fun _ _ => 0) (initShopPage asciiLowerCase (fun _ _ => 0) mockApi._products "all" "" "")
        "all" "" "price-asc").shopGrid).Sorted (fun a b => a.price ≤ b.price) ∧
    ((displayProducts asciiLowerCase (fun _ _ => 0) (initShopPage asciiLowerCase (fun _ _ => 0) mockApi._products "all" "" "")
        "all" "" "price-desc").shopGrid).Sorted (fun a b => b.price ≤ a.price) ∧
    (displayProducts asciiLowerCase (fun _ _ => 0) (initShopPage asciiLowerCase (fun _ _ => 0) mockApi._products "all" "" "")
        "all" "" "default").shopGrid
      = ((initShopPage asciiLowerCase (fun _ _ => 0) mockApi._products "all" "" "").heap.read
          (initShopPage asciiLowerCase (fun _ _ => 0) mockApi._products "all" "" "").allShopItems).filter
          (shopKeeps asciiLowerCase "all" "") :=
  ⟨by decide,
   ((price_sort_orders_grid asciiLowerCase (fun _ _ => 0)
      (initShopPage asciiLowerCase (fun _ _ => 0) mockApi._products "all" "" "") "all" "" "price-asc").1 rfl).2,
   ((price_sort_orders_grid asciiLowerCase (fun _ _ => 0)
      (initShopPage asciiLowerCase (fun _ _ => 0) mockApi._products "all" "" "") "all" "" "price-desc").2.1
      rfl).2,
   (price_sort_orders_grid asciiLowerCase (fun _ _ => 0)
      (initShopPage asciiLowerCase (fun _ _ => 0) mockApi._products "all" "" "") "all" "" "default").2.2
      (by decide) (by decide) (by decide) (by decide)⟩

end Handicraft
namespace Handicraft

/-! ## Review submission -/

theorem trim_of_all_whiteSpace (comment : String)
    (h : comment.data.all isWhiteSpace = true) : trim comment = "" := by
  have h1 : comment.data.dropWhile isWhiteSpace = [] := by
    rw [List.dropWhile_eq_nil_iff]
    intro x hx
    exact List.all_eq_true.mp h x hx
  simp [trim, trimChars, h1]

/-- C21: a review submission whose rating is missing, empty or "0", or whose
comment is empty or consists of white space only, returns from the handler
with one error toast and with the whole state, the stored reviews among it,
exactly as it was. -/
theorem invalid_review_is_blocked (s : AppState) (today productId : String)
    (rating : Option String) (comment : String)
    (hinvalid : rating = none ∨ rating = some "" ∨ rating = some "0" ∨
      comment.data.all isWhiteSpace = true) :
    (handleGlobalSubmits s today (.reviewForm productId rating comment)).1 = s ∧
    (handleGlobalSubmits s today (.reviewForm productId rating comment)).1.storage.reviews
      = s.storage.reviews ∧
    (∃ message,
      (handleGlobalSubmits s today (.reviewForm productId rating comment)).2
        = [.toast message "error"]) := by
  have key : (handleGlobalSubmits s today (.reviewForm productId rating comment)).1 = s ∧
      (∃ message,
        (handleGlobalSubmits s today (.reviewForm productId rating comment)).2
          = [.toast message "error"]) := by
    simp only [handleGlobalSubmits, reviewFormSubmit]
    cases rating with
    | none => exact ⟨rfl, _, rfl⟩
    | some r =>
      by_cases hr : r = "" ∨ r = "0"
      · simp only [hr, if_true]
        refine ⟨by trivial, ?_⟩
        exact ⟨_, rfl⟩
      · have hc : comment.data.all isWhiteSpace = true := by
          rcases hinvalid with h | h | h | h
          · cases h
          · exact absurd (Or.inl (Option.some.inj h)) hr
          · exact absurd (Or.inr (Option.some.inj h)) hr
          · exact h
        simp only [hr, if_false, trim_of_all_whiteSpace comment hc, if_true]
        refine ⟨by trivial, ?_⟩
        exact ⟨_, rfl⟩
  exact ⟨key.1, by rw [key.1], key.2⟩

/-- Witness for C21: a logged-in user submitting with the initial rating "0"
and submitting a comment of blanks and a line break. -/
theorem invalid_review_is_blocked_witness :
    (handleGlobalSubmits loggedInState "6/15/2025" (.reviewForm "1" (some "0") "nice")).1
      = loggedInState ∧
    (handleGlobalSubmits loggedInState "6/15/2025" (.reviewForm "1" (some "5") "  \n ")).1
      = loggedInState :=
  ⟨(invalid_review_is_blocked loggedInState "6/15/2025" "1" (some "0") "nice"
      (Or.inr (Or.inr (Or.inl rfl)))).1,
   (invalid_review_is_blocked loggedInState "6/15/2025" "1" (some "5") "  \n "
      (Or.inr (Or.inr (Or.inr (by decide))))).1⟩

theorem formRating_values (stars : List Star) :
    ∀ init : String,
      stars.foldl (fun _ star => star.value) init = init ∨
      ∃ star : Star, stars.foldl (fun _ star => star.value) init = star.value := by
  induction stars with
  | nil => intro init; exact Or.inl rfl
  | cons x xs ih =>
    intro init
    rcases ih x.value with h | ⟨star, h⟩
    · exact Or.inr ⟨x, h⟩
    · exact Or.inr ⟨star, h⟩

/-- C26 as stated fails: the handler stores whatever non-empty rating other
than "0" the form carries; with `dataset.rating` equal to "7" a logged-in
user's submission stores a review with rating "7". -/
theorem unchecked_rating_counterexample :
    mockApi._getFromStorage
        (handleGlobalSubmits loggedInState "6/15/2025"
          (.reviewForm "1" (some "7") "nice")).1.storage.reviews
      = [{ productId := "1", userName := "a", rating := "7", comment := "nice",
           date := "6/15/2025" }] ∧
    "7" ∉ ["1", "2", "3", "4", "5"] ∧
    Number "7" = some 7 := by
  refine ⟨by decide, by decide, by decide⟩

/-- C26 (amended): for every rating the star input can put into the form (the
rendered "0", or the `data-value` of the star clicked last), the submission
either leaves the state as it was or appends one review whose rating is one
of the strings "1" to "5", which `Number` reads as a number from 1 to 5. -/
theorem star_rating_is_one_to_five (s : AppState) (today productId comment : String)
    (stars : List Star) :
    (handleGlobalSubmits s today
        (.reviewForm productId (some (formRating stars)) comment)).1 = s ∨
    (∃ review : Review,
      mockApi._getFromStorage
          (handleGlobalSubmits s today
            (.reviewForm productId (some (formRating stars)) comment)).1.storage.reviews
        = mockApi._getFromStorage s.storage.reviews ++ [review] ∧
      review.rating ∈ ["1", "2", "3", "4", "5"] ∧
      ∃ n, Number review.rating = some n ∧ 1 ≤ n ∧ n ≤ 5) := by
  have hvals : formRating stars ∈ ["0", "1", "2", "3", "4", "5"] := by
    rcases formRating_values stars "0" with h | ⟨star, h⟩
    · unfold formRating; rw [h]; decide
    · unfold formRating; rw [h]; cases star <;> decide
  simp only [handleGlobalSubmits, reviewFormSubmit]
  by_cases hr : formRating stars = "" ∨ formRating stars = "0"
  · left; simp only [hr, if_true]
  · simp only [hr, if_false]
    by_cases hc : trim comment = ""
    · left; simp only [hc, if_true]
    · simp only [hc, if_false]
      cases hu : reviewUserName s.currentUser with
      | none => left; rfl
      | some userName =>
        right
        refine ⟨{ productId := productId, userName := userName, rating := formRating stars,
                  comment := comment, date := today }, rfl, ?_, ?_⟩
        · have h0 : formRating stars ≠ "0" := fun h => hr (Or.inr h)
          simp only [List.mem_cons, List.mem_singleton, List.not_mem_nil, or_false] at hvals ⊢
          rcases hvals with h | h | h | h | h | h
          · exact absurd h h0
          all_goals simp [h]
        · have h0 : formRating stars ≠ "0" := fun h => hr (Or.inr h)
          simp only [List.mem_cons, List.mem_singleton, List.not_mem_nil, or_false] at hvals
          rcases hvals with h | h | h | h | h | h
          · exact absurd h h0
          · exact ⟨1, by show Number (formRating stars) = some 1; rw [h]; decide,
              by decide, by decide⟩
          · exact ⟨2, by show Number (formRating stars) = some 2; rw [h]; decide,
              by decide, by decide⟩
          · exact ⟨3, by show Number (formRating stars) = some 3; rw [h]; decide,
              by decide, by decide⟩
          · exact ⟨4, by show Number (formRating stars) = some 4; rw [h]; decide,
              by decide, by decide⟩
          · exact ⟨5, by show Number (formRating stars) = some 5; rw [h]; decide,
              by decide, by decide⟩

end Handicraft
namespace Handicraft

/-! ## Authentication gates -/

theorem loggedOut_cases (currentUser : CurrentUser) (hout : loggedOutGuard currentUser = true) :
    currentUser = .null ∨ currentUser = .emptyArray := by
  cases currentUser with
  | null => exact Or.inl rfl
  | emptyArray => exact Or.inr rfl
  | user u => exact absurd hout (by simp [loggedOutGuard, CurrentUser.truthy, CurrentUser.keysLength])

/-- C22 as stated fails for the review submission: the submit handler has no
check of the current user.  With nobody logged in, a submission with a valid
rating and comment ends in an uncaught `TypeError` and one with rating "0" in
the rating toast; in neither case is the login form opened. -/
theorem review_submit_opens_no_login_counterexample :
    loggedOutGuard (start emptyStorage).currentUser = true ∧
    (handleGlobalSubmits (start emptyStorage) "6/15/2025"
        (.reviewForm "1" (some "5") "nice")).2 = [.uncaughtTypeError] ∧
    UiEffect.authModal "login" ∉
      (handleGlobalSubmits (start emptyStorage) "6/15/2025"
        (.reviewForm "1" (some "5") "nice")).2 ∧
    (handleGlobalSubmits (start emptyStorage) "6/15/2025"
        (.reviewForm "1" (some "0") "nice")).2
      = [.toast "Please select a star rating." "error"] := by
  refine ⟨by decide, by decide, by decide, by decide⟩

/-- C22 (amended): with no user logged in, a wishlist click and a checkout
click leave the whole state (stored wishlist, stored reviews and cart among
it) as it was and open the login form; `renderReviews` renders the log-in
link instead of the review form, and a click on that link opens the login
form; and a review submission handled in that state leaves the whole state
as it was. -/
theorem logged_out_actions_are_gated (s : AppState) (today id productId : String)
    (rating : Option String) (comment : String)
    (hout : loggedOutGuard s.currentUser = true) :
    handleGlobalClicks s (.wishlist id) = s ∧
    UiEffect.authModal "login" ∈ clickEffects s (.wishlist id) ∧
    handleGlobalClicks s .checkout = s ∧
    UiEffect.authModal "login" ∈ clickEffects s .checkout ∧
    renderReviewForm s.currentUser productId = .loginLink ∧
    UiEffect.authModal "login" ∈ loginForReviewClick ∧
    (handleGlobalSubmits s today (.reviewForm productId rating comment)).1 = s := by
  refine ⟨?_, ?_, rfl, ?_, ?_, ?_, ?_⟩
  · simp only [handleGlobalClicks, wishlistClick, hout, if_true]
  · simp only [clickEffects, hout, if_true]
    simp
  · simp only [clickEffects, hout, if_true]
    simp
  · rcases loggedOut_cases _ hout with h | h <;> rw [h] <;> rfl
  · simp [loginForReviewClick]
  · have hname : reviewUserName s.currentUser = none := by
      rcases loggedOut_cases _ hout with h | h <;> rw [h] <;> rfl
    simp only [handleGlobalSubmits, reviewFormSubmit, hname]
    cases rating with
    | none => rfl
    | some r =>
      by_cases hr : r = "" ∨ r = "0"
      · simp only [hr, if_true]
      · by_cases hc : trim comment = ""
        · simp only [hr, if_false, hc, if_true]
        · simp only [hr, if_false, hc]

/-- Witness for C22 (amended): a fresh browser with a stored wishlist. -/
theorem logged_out_actions_are_gated_witness :
    loggedOutGuard (start loggedOutWishlistStorage).currentUser = true ∧
    handleGlobalClicks (start loggedOutWishlistStorage) (.wishlist "2")
      = start loggedOutWishlistStorage ∧
    (handleGlobalSubmits (start loggedOutWishlistStorage) "6/15/2025"
        (.reviewForm "1" (some "5") "nice")).1 = start loggedOutWishlistStorage :=
  ⟨by decide,
   (logged_out_actions_are_gated (start loggedOutWishlistStorage) "6/15/2025" "2" "1"
      (some "5") "nice" (by decide)).1,
   (logged_out_actions_are_gated (start loggedOutWishlistStorage) "6/15/2025" "2" "1"
      (some "5") "nice" (by decide)).2.2.2.2.2.2⟩

end Handicraft
namespace Handicraft

/-! ## The admin page: confirmation before deleting -/

/-- C23: for every view and every delete button, a declined prompt makes no
`adminApi` call and leaves the admin state (every storage key and the current
view) exactly as it was; the handler makes a call for a delete button only
when the prompt was accepted, and a deleting call comes from no other target
and no declined prompt. -/
theorem declined_delete_changes_nothing (s : AdminState) (now : Nat) (btn : DeleteButton)
    (confirmed : Bool) (target : AdminTarget) :
    (contentAreaCalls s false (.deleteBtn btn)).1 = [] ∧
    handleContentAreaClick s now false (.deleteBtn btn) = s ∧
    (handleContentAreaClick s now false (.deleteBtn btn)).storage = s.storage ∧
    (∀ call ∈ (contentAreaCalls s confirmed (.deleteBtn btn)).1, confirmed = true) ∧
    (∀ call ∈ (contentAreaCalls s confirmed target).1, call.isDelete = true →
      confirmed = true ∧ ∃ b, target = .deleteBtn b) := by
  have h2 : handleContentAreaClick s now false (.deleteBtn btn) = s := by
    cases s; rfl
  refine ⟨rfl, h2, by rw [h2], ?_, ?_⟩
  · intro call hcall
    cases confirmed with
    | true => rfl
    | false => simp [contentAreaCalls] at hcall
  · intro call hcall hdel
    cases target with
    | deleteBtn b =>
      refine ⟨?_, b, rfl⟩
      cases confirmed with
      | true => rfl
      | false => simp [contentAreaCalls] at hcall
    | featuredToggle id =>
      simp only [contentAreaCalls] at hcall
      split at hcall
      · simp only [List.mem_singleton] at hcall
        subst hcall
        cases hdel
      · cases hcall
    | addProductBtn => cases hcall
    | addBlogBtn => cases hcall
    | editBtn id => cases hcall
    | other => cases hcall

/-- Witness for C23: the products view with one stored product; the delete
button of that product is clicked and the prompt accepted. -/
theorem declined_delete_changes_nothing_witness :
    AdminCall.deleteProduct "1718445600000" ∈
      (contentAreaCalls productsViewState true
        (.deleteBtn { id := "1718445600000", email := "", productId := "", comment := "" })).1 ∧
    (AdminCall.deleteProduct "1718445600000").isDelete = true ∧
    (true = true ∧ ∃ b, AdminTarget.deleteBtn
        { id := "1718445600000", email := "", productId := "", comment := "" }
      = .deleteBtn b) :=
  ⟨by decide, rfl,
   (declined_delete_changes_nothing productsViewState 1718445600001
      { id := "1718445600000", email := "", productId := "", comment := "" } true
      (.deleteBtn { id := "1718445600000", email := "", productId := "", comment := "" })).2.2.2.2
      (.deleteProduct "1718445600000") (by decide) rfl⟩

/-! ## The admin page: the product form -/

/-- A text without a character the parser treats specially reaches the field
as it is. -/
theorem attributeValue_plain (text : String)
    (hplain : ∀ c ∈ text.data, markupSpecial c = false) :
    keepsMarkup text = true ∧ attributeValue text = some text := by
  have hquote : ∀ c ∈ text.data, (c != doubleQuote) = true := by
    intro c hc
    have h := hplain c hc
    simp only [markupSpecial, Bool.or_eq_false_iff] at h
    simp only [bne, h.1.1.1.1, Bool.not_false]
  have htake : text.data.takeWhile (fun c => c != doubleQuote) = text.data :=
    List.takeWhile_eq_self_iff.mpr hquote
  have hdrop : text.data.dropWhile (fun c => c != doubleQuote) = [] :=
    List.dropWhile_eq_nil_iff.mpr hquote
  have hkeeps : keepsMarkup text = true := by
    simp [keepsMarkup, afterQuote, hdrop]
  refine ⟨hkeeps, ?_⟩
  have hall : (beforeQuote text).all (fun c => !markupSpecial c) = true := by
    rw [beforeQuote, htake, List.all_eq_true]
    intro c hc
    simp [hplain c hc]
  unfold attributeValue
  rw [hkeeps, hall]
  simp only [Bool.and_self, if_true, beforeQuote, htake]

/-- C27 as stated fails in two ways.  For a stored product whose care text is
empty, `product.care || 'N/A'` falls back, so the record passed to
`updateProduct` has the care text "N/A".  For a stored product whose id holds
a double quote, the hidden field holds the id up to the quote only, so the
record passed to `updateProduct` has another id than the product edited. -/
theorem product_form_counterexample :
    emptyCareProduct.id ≠ "" ∧
    productFormCall (some emptyCareProduct) sampleFields
      = some (.updateProduct
          { id := "1718445600000", name := "Bowl", price := 20, category := "home-decor",
            image := "b.jpg", description := "A bowl.",
            details := { material := "N/A", dimensions := "N/A", origin := "N/A",
                         craft := "N/A" },
            care := "N/A", featured := false }) ∧
    ("N/A" : String) ≠ emptyCareProduct.care ∧
    quotedIdProduct.id ≠ "" ∧
    productFormCall (some quotedIdProduct) sampleFields
      = some (.updateProduct
          { id := "1", name := "Bowl", price := 20, category := "home-decor",
            image := "b.jpg", description := "A bowl.",
            details := { material := "N/A", dimensions := "N/A", origin := "N/A",
                         craft := "N/A" },
            care := "N/A", featured := false }) ∧
    ("1" : String) ≠ quotedIdProduct.id := by
  refine ⟨by decide, by decide, by decide, by decide, by decide, by decide⟩

/-- C27 (amended): editing a stored product (one with a non-empty id) whose
id holds no double quote, ampersand, NUL or line break, and whose name, image
and description leave the form's markup as the template lays it out, passes
to `updateProduct` a record with the same id, the same featured flag and the
same details as the product being edited, and with the same care text when
that text is not empty (an empty care text becomes "N/A"), whatever name,
price, category, image and description are submitted. -/
theorem product_form_keeps_unexposed_fields (product : Product) (fields : ProductFields)
    (hid : product.id ≠ "")
    (hplain : ∀ c ∈ product.id.data, markupSpecial c = false)
    (hform : productFormIntact (some product) = true) :
    ∃ data : Product,
      productFormCall (some product) fields = some (.updateProduct data) ∧
      data.id = product.id ∧
      data.featured = product.featured ∧
      data.details = product.details ∧
      (product.care ≠ "" → data.care = product.care) ∧
      (product.care = "" → data.care = "N/A") ∧
      data.name = fields.name ∧ data.price = fields.price ∧
      data.category = fields.category ∧ data.image = fields.image ∧
      data.description = fields.description := by
  refine ⟨{ id := product.id, name := fields.name, price := fields.price,
            category := fields.category, image := fields.image,
            description := fields.description, details := product.details,
            care := if product.care ≠ "" then product.care else "N/A",
            featured := product.featured || false },
    by simp only [productFormCall, hform, (attributeValue_plain product.id hplain).2, hid,
         ne_eq, not_false_eq_true, if_true, Option.map_some'],
    rfl, by simp, rfl, ?_, ?_, rfl, rfl, rfl, rfl, rfl⟩
  · intro hc; simp [hc]
  · intro hc; simp [hc]

/-- Witness for C27 (amended): a stored product with the care text "N/A" and
an id of digits. -/
theorem product_form_keeps_unexposed_fields_witness :
    (sampleProduct "1718445600000" "Vase" 10).id ≠ "" ∧
    (∀ c ∈ (sampleProduct "1718445600000" "Vase" 10).id.data, markupSpecial c = false) ∧
    productFormIntact (some (sampleProduct "1718445600000" "Vase" 10)) = true ∧
    ∃ data : Product,
      productFormCall (some (sampleProduct "1718445600000" "Vase" 10)) sampleFields
        = some (.updateProduct data) ∧
      data.id = "1718445600000" :=
  ⟨by decide, by decide, by decide,
   (product_form_keeps_unexposed_fields (sampleProduct "1718445600000" "Vase" 10) sampleFields
      (by decide) (by decide) (by decide)).imp fun _ h => ⟨h.1, h.2.1⟩⟩

end Handicraft
namespace Handicraft

/-! ## The admin page: the tags field of the blog form -/

theorem splitChars_ne_nil (separator : Char) (cs : List Char) :
    splitChars separator cs ≠ [] := by
  induction cs with
  | nil => simp [splitChars]
  | cons c cs ih =>
    simp only [splitChars]
    split
    · simp
    · split <;> simp

theorem splitChars_append (separator : Char) (part : List Char) (h : separator ∉ part)
    (first : List Char) (rest : List (List Char)) (cs : List Char)
    (hcs : splitChars separator cs = first :: rest) :
    splitChars separator (part ++ cs) = (part ++ first) :: rest := by
  induction part with
  | nil => simpa using hcs
  | cons c part ih =>
    have hc : c ≠ separator := fun hc => h (by simp [hc])
    have ih2 := ih (fun hmem => h (List.mem_cons_of_mem _ hmem))
    simp only [List.cons_append, splitChars, hc, if_false]
    rw [show part.append cs = part ++ cs from rfl, ih2]

theorem splitChars_joinChars (tag : List Char) (tags : List (List Char))
    (h : ∀ t ∈ tag :: tags, ',' ∉ t) :
    splitChars ',' (joinChars [',', ' '] (tag :: tags))
      = tag :: tags.map (fun t => ' ' :: t) := by
  induction tags generalizing tag with
  | nil =>
    have h1 := splitChars_append ',' tag (h tag (List.mem_cons_self _ _)) [] [] [] rfl
    simpa [joinChars] using h1
  | cons next tags ih =>
    have ih2 := ih next (fun t ht => h t (List.mem_cons_of_mem _ ht))
    have hsp : splitChars ',' ([',', ' '] ++ joinChars [',', ' '] (next :: tags))
        = [] :: (' ' :: next) :: tags.map (fun t => ' ' :: t) := by
      have hblank := splitChars_append ',' [' '] (by decide) next
        (tags.map (fun t => ' ' :: t)) (joinChars [',', ' '] (next :: tags)) ih2
      simp only [List.cons_append, List.nil_append, splitChars, if_true] at hblank ⊢
      rw [hblank]
    have h1 := splitChars_append ',' tag (h tag (List.mem_cons_self _ _)) []
      ((' ' :: next) :: tags.map (fun t => ' ' :: t))
      ([',', ' '] ++ joinChars [',', ' '] (next :: tags)) hsp
    simpa [joinChars] using h1

theorem trimChars_blank (t : List Char) : trimChars (' ' :: t) = trimChars t := by
  have h : isWhiteSpace ' ' = true := by decide
  simp [trimChars, List.dropWhile_cons, h]

theorem trim_blank_map (rest : List String) (h : ∀ t ∈ rest, trimChars t.data = t.data) :
    ((rest.map (fun t => t.data)).map (fun t => ' ' :: t)).map
        (fun tag => trim (String.mk tag)) = rest := by
  induction rest with
  | nil => rfl
  | cons r rs ih =>
    have hr := h r (List.mem_cons_self _ _)
    have ih2 := ih (fun t ht => h t (List.mem_cons_of_mem _ ht))
    simp only [List.map_cons, ih2, List.cons.injEq, and_true]
    show String.mk (trimChars (' ' :: r.data)) = r
    rw [trimChars_blank, hr]

theorem mem_joinChars (separator : List Char) (c : Char) :
    ∀ parts : List (List Char), c ∈ joinChars separator parts →
      c ∈ separator ∨ ∃ part ∈ parts, c ∈ part := by
  intro parts
  induction parts with
  | nil => intro h; simp [joinChars] at h
  | cons part rest ih =>
    cases rest with
    | nil =>
      intro h
      exact Or.inr ⟨part, List.mem_cons_self _ _, by simpa [joinChars] using h⟩
    | cons next rest =>
      intro h
      simp only [joinChars, List.mem_append] at h
      rcases h with (h | h) | h
      · exact Or.inr ⟨part, List.mem_cons_self _ _, h⟩
      · exact Or.inl h
      · rcases ih h with h2 | ⟨p, hp, hc⟩
        · exact Or.inl h2
        · exact Or.inr ⟨p, List.mem_cons_of_mem _ hp, hc⟩

/-- The joined text of tags without a character the parser treats specially
reaches the tags field as it is. -/
theorem tagsFieldValue_plain (tags : List String)
    (hplain : ∀ t ∈ tags, ∀ c ∈ t.data, markupSpecial c = false) :
    keepsMarkup (tagsFieldText (some tags)) = true ∧
    tagsFieldValue (some tags) = some (tagsFieldText (some tags)) := by
  apply attributeValue_plain
  intro c hc
  rcases mem_joinChars [',', ' '] c _ hc with h | ⟨part, hpart, hcpart⟩
  · simp only [List.mem_cons, List.mem_singleton, List.not_mem_nil, or_false] at h
    rcases h with rfl | rfl <;> decide
  · obtain ⟨t, ht, rfl⟩ := List.mem_map.mp hpart
    exact hplain t ht c hcpart

/-- C30 as stated fails: a tag that holds a comma comes back as two tags, a
tag with a blank in front comes back without it, an empty list of tags comes
back as the list holding one empty tag, and of a tag that holds a double
quote the field shows the part before the quote only, so that a post with
the one tag a, double quote, b is passed to `updateBlogPost` with the one tag
a when it is submitted with the tags field as the form shows it. -/
theorem tags_round_trip_counterexample :
    (tagsFieldValue (some ["home, decor"])).map readTags = some ["home", "decor"] ∧
    (tagsFieldValue (some [" art"])).map readTags = some ["art"] ∧
    (tagsFieldValue (some [])).map readTags = some [""] ∧
    readTags (String.mk ['a', doubleQuote, 'b']) = [String.mk ['a', doubleQuote, 'b']] ∧
    (tagsFieldValue (some [String.mk ['a', doubleQuote, 'b']])).map readTags = some ["a"] ∧
    tagsFieldValue (some quotedTagPost.tags) = some quotedTagFields.tags ∧
    blogFormCall (some quotedTagPost) quotedTagFields
      = some (.updateBlogPost
          { id := "1718445600000", title := "Dyes", date := "June 15, 2025", author := "Admin",
            image := "a.jpg", tags := ["a"], content := "" }) ∧
    (["a"] : List String) ≠ quotedTagPost.tags := by
  refine ⟨by decide, by decide, by decide, by decide, by decide, by decide, by decide,
    by decide⟩

theorem readTags_tagsFieldText (tags : List String) (hne : tags ≠ [])
    (hclean : ∀ t ∈ tags, ',' ∉ t.data ∧ trim t = t) :
    readTags (tagsFieldText (some tags)) = tags := by
  cases tags with
  | nil => exact absurd rfl hne
  | cons tag rest =>
    have hcomma : ∀ t ∈ (tag :: rest).map (fun t => t.data), ',' ∉ t := by
      intro t ht
      obtain ⟨u, hu, rfl⟩ := List.mem_map.mp ht
      exact (hclean u hu).1
    have hsplit := splitChars_joinChars tag.data (rest.map (fun t => t.data))
      (by simpa using hcomma)
    have htrim : ∀ t ∈ tag :: rest, trimChars t.data = t.data := by
      intro t ht
      have := (hclean t ht).2
      exact congrArg String.data this
    have hhead : trim (String.mk tag.data) = tag := (hclean tag (List.mem_cons_self _ _)).2
    have hrest := trim_blank_map rest (fun t ht => htrim t (List.mem_cons_of_mem _ ht))
    simp only [readTags, tagsFieldText, List.map_cons, hsplit, hhead, hrest]

/-- C30 (amended): for a stored post with a non-empty list of tags none of
which holds a comma, a double quote, an ampersand, a NUL or a line break, or
begins or ends with white space, the tags field shows the tags joined with
", " and reading that value back with `split(',').map(trim)` gives the
original list; so such a post, when its other texts leave the form's markup
as the template lays it out, is passed to `updateBlogPost` with its tags
unchanged when it is edited with the tags field untouched. -/
theorem tags_round_trip (post : BlogPost) (fields : BlogFields)
    (hne : post.tags ≠ [])
    (hclean : ∀ t ∈ post.tags,
      ',' ∉ t.data ∧ trim t = t ∧ ∀ c ∈ t.data, markupSpecial c = false)
    (hid : post.id ≠ "")
    (hhidden : (attributeValue post.id).isSome = true)
    (hform : blogFormIntact (some post) = true)
    (huntouched : some fields.tags = tagsFieldValue (some post.tags)) :
    tagsFieldValue (some post.tags) = some (tagsFieldText (some post.tags)) ∧
    (tagsFieldValue (some post.tags)).map readTags = some post.tags ∧
    ∃ data : BlogPost, blogFormCall (some post) fields = some (.updateBlogPost data) ∧
      data.tags = post.tags := by
  have hvalue := (tagsFieldValue_plain post.tags (fun t ht => (hclean t ht).2.2)).2
  have hround := readTags_tagsFieldText post.tags hne
    (fun t ht => ⟨(hclean t ht).1, (hclean t ht).2.1⟩)
  have hfield : fields.tags = tagsFieldText (some post.tags) := by
    rw [hvalue] at huntouched
    exact Option.some.inj huntouched
  obtain ⟨hiddenId, hhiddenId⟩ := Option.isSome_iff_exists.mp hhidden
  refine ⟨hvalue, by rw [hvalue, Option.map_some', hround],
    { id := hiddenId, title := fields.title, date := fields.date, author := fields.author,
      image := fields.image, tags := readTags fields.tags, content := fields.content },
    by simp only [blogFormCall, hform, hhiddenId, hid, ne_eq, not_false_eq_true, if_true,
         Option.map_some'], ?_⟩
  show readTags fields.tags = post.tags
  rw [hfield, hround]

/-- Witness for C30 (amended): a post with the tags "art" and "heritage",
edited with a new title only. -/
theorem tags_round_trip_witness :
    twoTagsPost.tags ≠ [] ∧
    (∀ t ∈ twoTagsPost.tags,
      ',' ∉ t.data ∧ trim t = t ∧ ∀ c ∈ t.data, markupSpecial c = false) ∧
    twoTagsPost.id ≠ "" ∧
    (attributeValue twoTagsPost.id).isSome = true ∧
    blogFormIntact (some twoTagsPost) = true ∧
    (tagsFieldValue (some twoTagsPost.tags)).map readTags = some ["art", "heritage"] :=
  ⟨by decide, by decide, by decide, by decide, by decide,
   (tags_round_trip twoTagsPost
      { title := "Dyes", author := "Admin", date := "June 15, 2025",
        tags := "art, heritage", image := "a.jpg", content := "" }
      (by decide) (by decide) (by decide) (by decide) (by decide) (by decide)).2.1⟩

end Handicraft
